import Mathlib

/-!
# repos-scheduler: the scheduled-job lifecycle engine

A shallow embedding of the three variants of the scheduler
(`src/server`, `src/client/assets/js/app.js`, `src/tools/service`) and
theorems about them.

Conventions of the embedding

* Instants are integers (milliseconds since the epoch).  A stored
  `scheduledDate` is the ISO string of an instant; since
  `new Date(x).toISOString()` and `new Date(iso)` are inverse on valid
  instants, the field holds the instant itself, and `none` stands for a value
  that `new Date` turns into an Invalid Date.
* Every reading of the clock (`new Date()`, `Date.now()`) is an explicit
  argument.
* Values that come out of a JSON body are `JsVal`s; JavaScript truthiness
  is `JsVal.truthy`.
* Rendering (DOM, toasts, console output) is not part of the state.
-/

namespace ReposScheduler

/-! ## JavaScript values -/

/-- A JSON value as it reaches a route handler.  Numbers are integers;
`obj` is an array or object, identified by its JSON text. -/
inductive JsVal where
  | undefined
  | null
  | bool (b : Bool)
  | num (n : Int)
  | str (s : String)
  | obj (json : String)
  deriving DecidableEq, Repr

/-- JavaScript truthiness (`!!v`). -/
def JsVal.truthy : JsVal → Bool
  | .undefined => false
  | .null => false
  | .bool b => b
  | .num n => n != 0
  | .str s => s != ""
  | .obj _ => true

/-- The operator `a || b` of JavaScript. -/
def JsVal.or (a b : JsVal) : JsVal := if a.truthy then a else b

/-- WhiteSpace and LineTerminator code points of ECMAScript, the characters
`String.prototype.trim` strips. -/
def isJsWhiteSpace (c : Char) : Bool :=
  let n := c.toNat
  n == 0x09 || n == 0x0A || n == 0x0B || n == 0x0C || n == 0x0D || n == 0x20
    || n == 0xA0 || n == 0x1680 || (0x2000 ≤ n && n ≤ 0x200A) || n == 0x2028
    || n == 0x2029 || n == 0x202F || n == 0x205F || n == 0x3000 || n == 0xFEFF

/-- The method `String.prototype.trim`. -/
def trim (s : String) : String :=
  String.mk ((s.data.dropWhile isJsWhiteSpace).reverse.dropWhile isJsWhiteSpace).reverse

/-- The comparison `a <= b` of two `Date` objects: false as soon as one of them
is an Invalid Date (`none`). -/
def dateLe : Option Int → Option Int → Bool
  | some a, some b => decide (a ≤ b)
  | _, _ => false

/-! ## Data model -/

/-- A job record, the union of the fields the three variants store.
`userId` and `githubToken` exist only in the server variant. -/
structure Repo where
  id : String
  userId : Option String := none
  name : String
  description : String
  scheduledDate : Option Int
  isPrivate : JsVal
  auto_init : JsVal
  gitignore_template : JsVal
  status : String
  createdAt : Int
  githubToken : Option String := none
  html_url : Option String := none
  github_id : Option Int := none
  actualCreatedAt : Option Int := none
  error : Option String := none
  failedAt : Option Int := none
  deriving DecidableEq, Repr

/-- The request sent to `https://api.github.com/user/repos`. -/
structure Request where
  method : String
  url : String
  authorization : String
  name : String
  description : Option String
  isPrivate : JsVal
  auto_init : JsVal
  gitignore_template : Option JsVal
  deriving DecidableEq, Repr

/-- The body `requestBody` and headers built by every `createRepository`:
`description` is dropped when empty (`repo.description || undefined`),
`gitignore_template` is added only when truthy. -/
def buildRequest (token : String) (repo : Repo) : Request :=
  { method := "POST"
    url := "https://api.github.com/user/repos"
    authorization := "token " ++ token
    name := repo.name
    description := if repo.description != "" then some repo.description else none
    isPrivate := repo.isPrivate
    auto_init := repo.auto_init
    gitignore_template :=
      if repo.gitignore_template.truthy then some repo.gitignore_template else none }

/-- An error thrown by `axios.post`: `message` is the transport error text
(`error.message`), `responseMessage` is `error.response?.data?.message`, the
message of the API's error payload when the response carries one. -/
structure AxiosError where
  message : String
  responseMessage : Option String
  deriving DecidableEq, Repr

/-- The result of `axios.post` on the creation endpoint. -/
inductive Outcome where
  | ok (html_url : String) (id : Int)
  | err (e : AxiosError)
  deriving DecidableEq, Repr

/-- A side effect visible outside the process. -/
inductive Effect where
  | write (snapshot : List Repo) (succeeded : Bool)
  | request (r : Request)
  deriving DecidableEq, Repr

/-- The creation requests of a trace, in the order they were issued. -/
def requestsOf (log : List Effect) : List Request :=
  log.filterMap (fun e =>
    match e with
    | .request r => some r
    | .write _ _ => none)

/-- `Array.prototype.findIndex` on the job ids (`none` is `-1`). -/
def findIndex : List Repo → String → Option Nat
  | [], _ => none
  | r :: rs, repoId =>
    if r.id == repoId then some 0 else (findIndex rs repoId).map (· + 1)

/-- The assignment `repo.status = 'creating'`. -/
def Repo.markCreating (r : Repo) : Repo :=
  { r with status := "creating" }

/-- The assignments of the server on success: `status`, `html_url`,
`github_id`, `actualCreatedAt`. -/
def Repo.markCreated (url : String) (gid : Int) (now : Int) (r : Repo) : Repo :=
  { r with
    status := "created"
    html_url := some url
    github_id := some gid
    actualCreatedAt := some now }

/-- The assignments of the server on failure: `status`, `error`, `failedAt`. -/
def Repo.markFailed (msg : String) (now : Int) (r : Repo) : Repo :=
  { r with
    status := "failed"
    error := some msg
    failedAt := some now }

/-! ## Server variant: `SchedulerService` (src/server/services/scheduler.js) -/

/-- An armed timer: a node-schedule job (`timeout = false`) or the
`setTimeout(..., 1000)` armed for an overdue job (`timeout = true`). -/
structure Timer where
  handle : Nat
  repoId : String
  fireAt : Int
  timeout : Bool
  deriving DecidableEq, Repr

/-- The state of `SchedulerService`.  `scheduledJobs` is the `Map` from job id
to node-schedule job (its handle); `armed` holds every timer that can still
fire; `dataFile` is the persisted snapshot; `writable` tells whether
`fs.writeJson` currently succeeds; `log` is the trace of external effects. -/
structure SchedulerService where
  repositories : List Repo
  scheduledJobs : List (String × Nat)
  armed : List Timer
  nextHandle : Nat
  dataFile : List Repo
  writable : Bool
  log : List Effect
  deriving DecidableEq, Repr

namespace SchedulerService

/-- `saveRepositories`: writes the whole collection; a failed write is caught
and logged, never thrown. -/
def saveRepositories (s : SchedulerService) : SchedulerService :=
  if s.writable then
    { s with dataFile := s.repositories, log := s.log ++ [Effect.write s.repositories true] }
  else
    { s with log := s.log ++ [Effect.write s.repositories false] }

/-- `this.scheduledJobs.has(id)`. -/
def hasJob (s : SchedulerService) (repoId : String) : Bool :=
  s.scheduledJobs.any (fun e => e.1 == repoId)

/-- `this.scheduledJobs.set(id, job)`. -/
def mapSet (m : List (String × Nat)) (repoId : String) (h : Nat) : List (String × Nat) :=
  if m.any (fun e => e.1 == repoId) then
    m.map (fun e => if e.1 == repoId then (repoId, h) else e)
  else m ++ [(repoId, h)]

/-- The clean-up `if (has(id)) { get(id).cancel(); delete(id); }`. -/
def cancelJob (s : SchedulerService) (repoId : String) : SchedulerService :=
  match s.scheduledJobs.find? (fun e => e.1 == repoId) with
  | some e =>
    { s with
      armed := s.armed.filter (fun t => t.handle != e.2)
      scheduledJobs := s.scheduledJobs.filter (fun e => e.1 != repoId) }
  | none => s

/-- `scheduleRepository(repo)` at clock reading `now`.  An overdue job gets
a one second timeout that is not recorded in `scheduledJobs`; otherwise
`schedule.scheduleJob` arms a job at the date, recorded under the id.  For an
Invalid Date the comparison is false and `scheduleJob` returns `null`. -/
def scheduleRepository (s : SchedulerService) (repo : Repo) (now : Int) : SchedulerService :=
  match repo.scheduledDate with
  | some d =>
    if d ≤ now then
      { s with
        armed := s.armed ++ [{ handle := s.nextHandle, repoId := repo.id,
                               fireAt := now + 1000, timeout := true }]
        nextHandle := s.nextHandle + 1 }
    else
      { s with
        armed := s.armed ++ [{ handle := s.nextHandle, repoId := repo.id,
                               fireAt := d, timeout := false }]
        scheduledJobs := mapSet s.scheduledJobs repo.id s.nextHandle
        nextHandle := s.nextHandle + 1 }
  | none => s

/-- `addRepository(repoData)`: push, save, schedule, return the record. -/
def addRepository (s : SchedulerService) (repoData : Repo) (now : Int) :
    Repo × SchedulerService :=
  let s1 := { s with repositories := s.repositories ++ [repoData] }
  let s2 := s1.saveRepositories
  (repoData, s2.scheduleRepository repoData now)

/-- `removeRepository(repoId)`. -/
def removeRepository (s : SchedulerService) (repoId : String) : SchedulerService :=
  let s1 := s.cancelJob repoId
  let s2 := { s1 with repositories := s1.repositories.filter (fun r => r.id != repoId) }
  s2.saveRepositories

/-- Assignment to the element at an index (`this.repositories[i].f = v`). -/
def modifyAt (s : SchedulerService) (i : Nat) (f : Repo → Repo) : SchedulerService :=
  { s with repositories := s.repositories.modify f i }

/-- The `try` block of `createRepository(repoId)`, run without another
operation in between: the state reached and, when `axios.post` threw, the
error.  An id that is not in the collection takes the early `return`, which
leaves the state as it was.  The object `repo` the source captures is the
element at the index found, so its later assignments go through that index. -/
def createRepositoryTry (s : SchedulerService) (repoId : String) (outcome : Outcome)
    (now : Int) : SchedulerService × Option AxiosError :=
  match findIndex s.repositories repoId with
  | none => (s, none)
  | some i =>
    let s1 := (s.modifyAt i Repo.markCreating).saveRepositories
    match s1.repositories.get? i with
    | none => (s1, none)
    | some repo =>
      let s2 := { s1 with log := s1.log ++
        [Effect.request (buildRequest (repo.githubToken.getD "undefined") repo)] }
      match outcome with
      | .err e => (s2, some e)
      | .ok url gid =>
        let s3 := (s2.modifyAt i (Repo.markCreated url gid now)).saveRepositories
        (s3.cancelJob repoId, none)

/-- The value `error.response?.data?.message || error.message`. -/
def errorText (e : AxiosError) : String :=
  match e.responseMessage with
  | some m => if m != "" then m else e.message
  | none => e.message

/-- `createRepository(repoId)`: the `try` block followed, when it threw, by
the `catch` block, which looks the job up again, records the failure and
cleans the timer entry up. -/
def createRepository (s : SchedulerService) (repoId : String) (outcome : Outcome)
    (now : Int) : SchedulerService :=
  match s.createRepositoryTry repoId outcome now with
  | (s1, none) => s1
  | (s1, some e) =>
    let s2 :=
      match findIndex s1.repositories repoId with
      | some i =>
        (s1.modifyAt i (Repo.markFailed (errorText e) now)).saveRepositories
      | none => s1
    s2.cancelJob repoId

/-- `createRepositoryNow(repoId)`. -/
def createRepositoryNow (s : SchedulerService) (repoId : String) (outcome : Outcome)
    (now : Int) : SchedulerService :=
  s.createRepository repoId outcome now

end SchedulerService

/-! ## Server routes (src/server/routes/repositories.js)

The handlers are modelled after `authenticateToken` has accepted the request:
`userId` is `req.user.userId`. -/

/-- A record of `users.json` as far as the routes read it. -/
structure User where
  id : String
  githubToken : Option String
  deriving DecidableEq, Repr

/-- The projection returned by `getUserRepository` and `getUserRepositories`. -/
structure RepoView where
  id : String
  name : String
  description : String
  scheduledDate : Option Int
  isPrivate : JsVal
  auto_init : JsVal
  gitignore_template : JsVal
  status : String
  createdAt : Int
  html_url : Option String
  actualCreatedAt : Option Int
  error : Option String
  failedAt : Option Int
  deriving DecidableEq, Repr

/-- The projection `POST /` answers with. -/
structure ScheduledView where
  id : String
  name : String
  description : String
  scheduledDate : Option Int
  isPrivate : JsVal
  auto_init : JsVal
  gitignore_template : JsVal
  status : String
  createdAt : Int
  deriving DecidableEq, Repr

/-- The result of `getUserStats`. -/
structure UserStats where
  total : Nat
  pending : Nat
  creating : Nat
  created : Nat
  failed : Nat
  deriving DecidableEq, Repr

/-- The JSON bodies the repository routes answer with. -/
inductive Body where
  | error (error : String)
  | message (message : String)
  | scheduled (message : String) (repository : ScheduledView)
  | updated (message : String) (repository : Repo)
  | repository (repository : RepoView)
  | repositories (repositories : List RepoView)
  | stats (stats : UserStats)
  deriving DecidableEq, Repr

/-- An HTTP answer: status code and body. -/
structure Response where
  status : Nat
  body : Body
  deriving DecidableEq, Repr

/-- The fields the routes read from `req.body`. -/
structure ReqBody where
  name : JsVal
  description : JsVal
  scheduledDate : JsVal
  isPrivate : JsVal
  auto_init : JsVal
  gitignore_template : JsVal
  deriving DecidableEq, Repr

/-- The object `updateData` built by `PUT /:id`; `none` is an absent key. -/
structure UpdateData where
  name : Option String
  description : Option String
  scheduledDate : Option Int
  isPrivate : Option JsVal
  auto_init : Option JsVal
  gitignore_template : Option JsVal
  deriving DecidableEq, Repr

/-- The call `v.trim()`: `none` is the `TypeError` thrown when `v` is not a
string. -/
def trimCall : JsVal → Option String
  | .str s => some (trim s)
  | _ => none

/-- The expression `description?.trim() || ''`: `none` is the `TypeError`
thrown for a value that is neither nullish nor a string. -/
def descriptionOrEmpty : JsVal → Option String
  | .undefined => some ""
  | .null => some ""
  | .str d => some (if trim d != "" then trim d else "")
  | _ => none

/-- Truthiness of a stored token (`!user.githubToken` is its negation). -/
def tokenTruthy : Option String → Bool
  | some t => t != ""
  | none => false

namespace SchedulerService

/-- The projection shared by `getUserRepository` and `getUserRepositories`. -/
def view (repo : Repo) : RepoView :=
  { id := repo.id
    name := repo.name
    description := repo.description
    scheduledDate := repo.scheduledDate
    isPrivate := repo.isPrivate
    auto_init := repo.auto_init
    gitignore_template := repo.gitignore_template
    status := repo.status
    createdAt := repo.createdAt
    html_url := repo.html_url
    actualCreatedAt := repo.actualCreatedAt
    error := repo.error
    failedAt := repo.failedAt }

/-- `getUserRepository(userId, repoId)`; `none` is `null`. -/
def getUserRepository (s : SchedulerService) (userId repoId : String) : Option RepoView :=
  match s.repositories.find? (fun r => r.id == repoId && r.userId == some userId) with
  | none => none
  | some repo => some (view repo)

/-- `getUserRepositories(userId)`. -/
def getUserRepositories (s : SchedulerService) (userId : String) : List RepoView :=
  (s.repositories.filter (fun r => r.userId == some userId)).map view

/-- `Object.assign(repo, updateData)`. -/
def assign (repo : Repo) (u : UpdateData) : Repo :=
  { repo with
    name := u.name.getD repo.name
    description := u.description.getD repo.description
    scheduledDate := match u.scheduledDate with
      | some d => some d
      | none => repo.scheduledDate
    isPrivate := u.isPrivate.getD repo.isPrivate
    auto_init := u.auto_init.getD repo.auto_init
    gitignore_template := u.gitignore_template.getD repo.gitignore_template }

/-- `updateRepository(repoId, updateData)`; `none` is the thrown
`Repository not found`. -/
def updateRepository (s : SchedulerService) (repoId : String) (u : UpdateData) (now : Int) :
    Option (Repo × SchedulerService) :=
  match findIndex s.repositories repoId with
  | none => none
  | some i =>
    let s1 := if u.scheduledDate.isSome && s.hasJob repoId then s.cancelJob repoId else s
    let s2 := (s1.modifyAt i (fun r => assign r u)).saveRepositories
    match s2.repositories.get? i with
    | none => none
    | some repo =>
      if repo.status == "pending" && u.scheduledDate.isSome then
        some (repo, s2.scheduleRepository repo now)
      else some (repo, s2)

end SchedulerService

/-- The readings of the environment one `POST /` consumes: the users file
(`none` when reading it throws), the fresh `uuidv4()`, and the clock at the
validation, at `createdAt` and inside `scheduleRepository`. -/
structure PostEnv where
  users : Option (List User)
  uuid : String
  now : Int
  createdNow : Int
  scheduleNow : Int
  deriving DecidableEq, Repr

/-- The handler of `POST /` for the authenticated user `userId`.  `toDate` is
the `Date` constructor: the instant `new Date(v)` denotes, `none` for an
Invalid Date (on which `toISOString()` throws). -/
def postRepository (toDate : JsVal → Option Int) (s : SchedulerService) (userId : String)
    (body : ReqBody) (env : PostEnv) : Response × SchedulerService :=
  if !body.name.truthy || !body.scheduledDate.truthy then
    (⟨400, .error "Repository name and scheduled date are required"⟩, s)
  else if dateLe (toDate body.scheduledDate) (some env.now) then
    (⟨400, .error "Scheduled date must be in the future"⟩, s)
  else
    match env.users with
    | none => (⟨500, .error "Failed to schedule repository"⟩, s)
    | some users =>
      match users.find? (fun u => u.id == userId) with
      | none => (⟨400, .error "GitHub token not configured"⟩, s)
      | some user =>
        if !tokenTruthy user.githubToken then
          (⟨400, .error "GitHub token not configured"⟩, s)
        else
          match trimCall body.name, descriptionOrEmpty body.description,
              toDate body.scheduledDate with
          | some name, some description, some date =>
            let repoData : Repo :=
              { id := env.uuid
                userId := some userId
                name := name
                description := description
                scheduledDate := some date
                isPrivate := body.isPrivate.or (.bool false)
                auto_init := .bool (body.auto_init != .bool false)
                gitignore_template := body.gitignore_template.or .null
                status := "pending"
                createdAt := env.createdNow
                githubToken := user.githubToken }
            let added := s.addRepository repoData env.scheduleNow
            let addedRepo := added.1
            (⟨201, .scheduled "Repository scheduled successfully"
              { id := addedRepo.id
                name := addedRepo.name
                description := addedRepo.description
                scheduledDate := addedRepo.scheduledDate
                isPrivate := addedRepo.isPrivate
                auto_init := addedRepo.auto_init
                gitignore_template := addedRepo.gitignore_template
                status := addedRepo.status
                createdAt := addedRepo.createdAt }⟩, added.2)
          | _, _, _ => (⟨500, .error "Failed to schedule repository"⟩, s)

/-- The construction of `updateData` in `PUT /:id`; `none` is a thrown
`TypeError` or `RangeError`. -/
def buildUpdateData (toDate : JsVal → Option Int) (body : ReqBody) : Option UpdateData :=
  let name : Option (Option String) :=
    if body.name.truthy then (trimCall body.name).map some else some none
  let description : Option (Option String) :=
    if body.description != .undefined then (trimCall body.description).map some else some none
  let scheduledDate : Option (Option Int) :=
    if body.scheduledDate.truthy then (toDate body.scheduledDate).map some else some none
  match name, description, scheduledDate with
  | some n, some d, some sd =>
    some { name := n
           description := d
           scheduledDate := sd
           isPrivate := if body.isPrivate != .undefined then some body.isPrivate else none
           auto_init := if body.auto_init != .undefined then some body.auto_init else none
           gitignore_template :=
             if body.gitignore_template != .undefined then some body.gitignore_template else none }
  | _, _, _ => none

/-- The handler of `PUT /:id`; `now` is the clock at the validation,
`scheduleNow` the clock inside `scheduleRepository`. -/
def putRepository (toDate : JsVal → Option Int) (s : SchedulerService) (userId repoId : String)
    (body : ReqBody) (now scheduleNow : Int) : Response × SchedulerService :=
  match s.getUserRepository userId repoId with
  | none => (⟨404, .error "Repository not found"⟩, s)
  | some repository =>
    if repository.status != "pending" then
      (⟨400, .error "Can only update pending repositories"⟩, s)
    else if body.scheduledDate.truthy && dateLe (toDate body.scheduledDate) (some now) then
      (⟨400, .error "Scheduled date must be in the future"⟩, s)
    else
      match buildUpdateData toDate body with
      | none => (⟨500, .error "Failed to update repository"⟩, s)
      | some updateData =>
        match s.updateRepository repoId updateData scheduleNow with
        | none => (⟨500, .error "Failed to update repository"⟩, s)
        | some (updatedRepo, s1) =>
          (⟨200, .updated "Repository updated successfully" updatedRepo⟩, s1)

/-- The handler of `DELETE /:id`. -/
def deleteRepository (s : SchedulerService) (userId repoId : String) :
    Response × SchedulerService :=
  match s.getUserRepository userId repoId with
  | none => (⟨404, .error "Repository not found"⟩, s)
  | some repository =>
    if repository.status == "creating" then
      (⟨400, .error "Cannot delete repository that is currently being created"⟩, s)
    else
      (⟨200, .message "Repository deleted successfully"⟩, s.removeRepository repoId)

/-- The handler of `POST /:id/create-now`. -/
def createNow (s : SchedulerService) (userId repoId : String) (outcome : Outcome) (now : Int) :
    Response × SchedulerService :=
  match s.getUserRepository userId repoId with
  | none => (⟨404, .error "Repository not found"⟩, s)
  | some repository =>
    if repository.status != "pending" then
      (⟨400, .error "Can only create pending repositories"⟩, s)
    else
      (⟨200, .message "Repository creation started"⟩, s.createRepositoryNow repoId outcome now)

/-! ## Server variant: start-up and timers -/

namespace SchedulerService

/-- `scheduleExistingRepositories()`; `clock repo` is the reading of the
clock inside the call `scheduleRepository(repo)`. -/
def scheduleExistingRepositories (s : SchedulerService) (clock : Repo → Int) :
    SchedulerService :=
  (s.repositories.filter (fun repo => repo.status == "pending")).foldl
    (fun acc repo => acc.scheduleRepository repo (clock repo)) s

/-- The body of the constructor over a data file that holds `snapshot`.
`this.repositories` is set to `[]`; `initializeData()` and `loadRepositories()`
are `async` and are called without `await`, so each runs to its first `await`
(the file exists, nothing is written) and the constructor goes on to
`scheduleExistingRepositories()` before `fs.readJson` has answered. -/
def constructorBody (snapshot : List Repo) (writable : Bool) (clock : Repo → Int) :
    SchedulerService :=
  let s0 : SchedulerService :=
    { repositories := []
      scheduledJobs := []
      armed := []
      nextHandle := 0
      dataFile := snapshot
      writable := writable
      log := [] }
  s0.scheduleExistingRepositories clock

/-- The rest of `loadRepositories()`, run when `fs.readJson` has answered:
the assignment `this.repositories = ...`, or `[]` in the `catch` block
(`read = none`). -/
def loadRepositoriesResume (s : SchedulerService) (read : Option (List Repo)) :
    SchedulerService :=
  { s with repositories := read.getD [] }

/-- `new SchedulerService()` followed by the completion of the pending
`loadRepositories()`, which reads the snapshot. -/
def construct (snapshot : List Repo) (writable : Bool) (clock : Repo → Int) :
    SchedulerService :=
  (constructorBody snapshot writable clock).loadRepositoriesResume (some snapshot)

/-- The timer with the given handle fires: it is no longer armed and its
callback runs `createRepository(repo.id)`. -/
def fire (s : SchedulerService) (handle : Nat) (outcome : Outcome) (now : Int) :
    SchedulerService :=
  match s.armed.find? (fun t => t.handle == handle) with
  | none => s
  | some t =>
    ({ s with armed := s.armed.filter (fun t => t.handle != handle) }).createRepository
      t.repoId outcome now

/-- The timers armed for a job id: node-schedule jobs and timeouts. -/
def timersOf (s : SchedulerService) (repoId : String) : List Timer :=
  s.armed.filter (fun t => t.repoId == repoId)

end SchedulerService

/-! ## Browser variant: `RepositoryScheduler` (src/client/assets/js/app.js) -/

/-- The result of `fetch` on the creation endpoint followed by
`response.json()`: a success body, a non-2xx answer with the `message` of its
error payload (when it has one), or a rejected promise with its error text. -/
inductive FetchOutcome where
  | ok (html_url : String)
  | notOk (message : Option String)
  | thrown (message : String)
  deriving DecidableEq, Repr

/-- The values `scheduleRepository` reads from the form. -/
structure ScheduleForm where
  repoName : String
  repoDescription : String
  scheduleDate : String
  isPrivate : Bool
  initWithReadme : Bool
  gitignoreTemplate : String
  deriving DecidableEq, Repr

/-- The state of the browser application: the token, the in-memory list, the
item `scheduledRepos` of `localStorage`, and the trace of writes and
requests. -/
structure RepositoryScheduler where
  githubToken : Option String
  scheduledRepos : List Repo
  localStorage : List Repo
  log : List Effect
  deriving DecidableEq, Repr

/-- The assignments of the browser on success: `status`, `html_url` and
`createdAt`. -/
def Repo.markCreatedBrowser (url : String) (now : Int) (r : Repo) : Repo :=
  { r with
    status := "created"
    html_url := some url
    createdAt := now }

/-- The assignments of the browser on failure: `status`, `error`. -/
def Repo.markFailedBrowser (msg : String) (r : Repo) : Repo :=
  { r with
    status := "failed"
    error := some msg }

/-- The text of the `TypeError` raised by an assignment to a property of
`undefined` (an index past the end of the list). -/
def staleIndexError : String := "Cannot set properties of undefined (setting 'status')"

namespace RepositoryScheduler

/-- `saveScheduledRepos`. -/
def saveScheduledRepos (b : RepositoryScheduler) : RepositoryScheduler :=
  { b with
    localStorage := b.scheduledRepos
    log := b.log ++ [Effect.write b.scheduledRepos true] }

/-- `scheduleRepository()`: `now` is the clock at the validation, `idNow` the
reading `Date.now()` the id is made of, `createdNow` the one of `createdAt`.
Every rejected form returns the state as it was; so does an Invalid Date, on
which `toISOString()` throws before anything is stored. -/
def scheduleRepository (toDate : JsVal → Option Int) (b : RepositoryScheduler)
    (form : ScheduleForm) (now idNow createdNow : Int) : RepositoryScheduler :=
  let repoName := trim form.repoName
  let repoDescription := trim form.repoDescription
  let scheduleDate := toDate (.str form.scheduleDate)
  if repoName == "" then b
  else if dateLe scheduleDate (some now) then b
  else if b.scheduledRepos.any (fun repo => repo.name == repoName) then b
  else
    match scheduleDate with
    | none => b
    | some d =>
      let scheduledRepo : Repo :=
        { id := toString idNow
          name := repoName
          description := repoDescription
          scheduledDate := some d
          isPrivate := .bool form.isPrivate
          auto_init := .bool form.initWithReadme
          gitignore_template := (JsVal.str form.gitignoreTemplate).or .null
          status := "pending"
          createdAt := createdNow }
      ({ b with scheduledRepos := b.scheduledRepos ++ [scheduledRepo] }).saveScheduledRepos

/-- `removeScheduledRepo(repoId)`. -/
def removeScheduledRepo (b : RepositoryScheduler) (repoId : String) : RepositoryScheduler :=
  ({ b with scheduledRepos := b.scheduledRepos.filter (fun repo => repo.id != repoId) }).saveScheduledRepos

/-- Assignment to the element at an index. -/
def modifyAt (b : RepositoryScheduler) (i : Nat) (f : Repo → Repo) : RepositoryScheduler :=
  { b with scheduledRepos := b.scheduledRepos.modify f i }

/-- `createRepository(repoData)` up to the point where it awaits `fetch`:
the job is looked up by id, marked `creating`, saved, and the request is
issued.  The result carries the captured `repoIndex`; `none` is the early
`return` for a job that is not in the list. -/
def createRepositoryStart (b : RepositoryScheduler) (repoData : Repo) :
    RepositoryScheduler × Option Nat :=
  match findIndex b.scheduledRepos repoData.id with
  | none => (b, none)
  | some repoIndex =>
    let b1 := (b.modifyAt repoIndex Repo.markCreating).saveScheduledRepos
    ({ b1 with log := b1.log ++
        [Effect.request (buildRequest (b1.githubToken.getD "null") repoData)] },
      some repoIndex)

/-- The `catch` block of `createRepository`: the job is looked up again by
id and, when found, marked `failed` with the error text. -/
def createRepositoryCatch (b : RepositoryScheduler) (repoData : Repo) (message : String) :
    RepositoryScheduler :=
  match findIndex b.scheduledRepos repoData.id with
  | some repoIndex => (b.modifyAt repoIndex (Repo.markFailedBrowser message)).saveScheduledRepos
  | none => b

/-- `createRepository(repoData)` from the answer of `fetch` on.  The success
path assigns through the `repoIndex` captured before the await; an index past
the end makes the assignment throw, which the `catch` block handles. -/
def createRepositoryFinish (b : RepositoryScheduler) (repoData : Repo) (repoIndex : Nat)
    (outcome : FetchOutcome) (now : Int) : RepositoryScheduler :=
  match outcome with
  | .ok url =>
    if repoIndex < b.scheduledRepos.length then
      (b.modifyAt repoIndex (Repo.markCreatedBrowser url now)).saveScheduledRepos
    else b.createRepositoryCatch repoData staleIndexError
  | .notOk message =>
    b.createRepositoryCatch repoData
      (match message with
       | some m => if m != "" then m else "Failed to create repository"
       | none => "Failed to create repository")
  | .thrown message => b.createRepositoryCatch repoData message

/-- `createRepository(repoData)` run without interruption. -/
def createRepository (b : RepositoryScheduler) (repoData : Repo) (outcome : FetchOutcome)
    (now : Int) : RepositoryScheduler :=
  match b.createRepositoryStart repoData with
  | (b1, some repoIndex) => b1.createRepositoryFinish repoData repoIndex outcome now
  | (b1, none) => b1

/-- The test `isPending && isTimeToCreate` of the filter in
`checkScheduledRepos`, for a job whose date is valid. -/
def shouldCreate (now : Int) (repo : Repo) : Bool :=
  repo.status == "pending" && dateLe repo.scheduledDate (some now)

/-- The list `reposToCreate` of `checkScheduledRepos` at clock reading
`now`.  The callback of the filter evaluates `scheduledTime.toISOString()` for
every job of the list, whatever its status; on an Invalid Date that call
throws a `RangeError`, which ends `checkScheduledRepos`: `none`. -/
def reposToCreate (b : RepositoryScheduler) (now : Int) : Option (List Repo) :=
  if b.scheduledRepos.any (fun repo => repo.scheduledDate.isNone) then none
  else some (b.scheduledRepos.filter (shouldCreate now))

/-- A call of `checkScheduledRepos` suspended on the `fetch` of `current`:
`repoIndex` is the index its `createRepository` captured, `rest` the jobs of
its `reposToCreate` still to come. -/
structure Sweep where
  current : Repo
  repoIndex : Nat
  rest : List Repo
  deriving DecidableEq, Repr

/-- The loop `for (const repo of reposToCreate) await this.createRepository(repo)`
run up to its next `fetch`; `none` when the loop has ended. -/
def sweepLoop (b : RepositoryScheduler) : List Repo → RepositoryScheduler × Option Sweep
  | [] => (b, none)
  | repo :: rest =>
    match b.createRepositoryStart repo with
    | (b1, some repoIndex) => (b1, some { current := repo, repoIndex := repoIndex, rest := rest })
    | (b1, none) => sweepLoop b1 rest

/-- `checkScheduledRepos()` from its call to its first `fetch`.  Without a
token it returns at once; when the filter throws, the call ends with the
state as it was. -/
def checkScheduledRepos (b : RepositoryScheduler) (now : Int) :
    RepositoryScheduler × Option Sweep :=
  if !tokenTruthy b.githubToken then (b, none)
  else
    match b.reposToCreate now with
    | none => (b, none)
    | some jobs => sweepLoop b jobs

/-- A suspended `checkScheduledRepos` receives the answer to its `fetch`:
`createRepository` finishes and the loop goes on to its next `fetch`. -/
def resume (b : RepositoryScheduler) (t : Sweep) (outcome : FetchOutcome) (now : Int) :
    RepositoryScheduler × Option Sweep :=
  sweepLoop (b.createRepositoryFinish t.current t.repoIndex outcome now) t.rest

/-- The error text the `catch` block of the browser records for an outcome
that is not a success. -/
def failureText : FetchOutcome → String
  | .ok _ => staleIndexError
  | .notOk (some m) => if m != "" then m else "Failed to create repository"
  | .notOk none => "Failed to create repository"
  | .thrown message => message

/-- The record an uninterrupted `createRepository` leaves for a job: the
assignment of `creating` followed by the assignments of the outcome. -/
def settled (outcome : FetchOutcome) (now : Int) (r : Repo) : Repo :=
  match outcome with
  | .ok url => Repo.markCreatedBrowser url now r.markCreating
  | .notOk m => Repo.markFailedBrowser (failureText (.notOk m)) r.markCreating
  | .thrown m => Repo.markFailedBrowser (failureText (.thrown m)) r.markCreating

/-- `checkScheduledRepos()` run to its end with no other operation in
between: the loop `for (const repo of reposToCreate) await
this.createRepository(repo)`, where `answer repo` is the outcome of the
`fetch` issued for `repo` and `done` the clock at its completion.  When the
filter throws, no job is executed. -/
def checkScheduledReposRun (b : RepositoryScheduler) (now : Int)
    (answer : Repo → FetchOutcome) (done : Int) : RepositoryScheduler :=
  if !tokenTruthy b.githubToken then b
  else
    match b.reposToCreate now with
    | none => b
    | some jobs => jobs.foldl (fun acc repo => acc.createRepository repo (answer repo) done) b

/-- The number of creation requests issued for the repository name `name`. -/
def requestsFor (b : RepositoryScheduler) (name : String) : Nat :=
  (b.log.filter (fun e =>
    match e with
    | .request r => r.name == name
    | .write _ _ => false)).length

end RepositoryScheduler

/-! ## Local daemon: `RepositorySchedulerService` (src/tools/service/scheduler-service.js) -/

/-- An armed timer of the daemon.  Its callback is
`() => this.createRepository(repo)`: it closes over the job object, not over
the id. -/
structure RepoTimer where
  handle : Nat
  repo : Repo
  fireAt : Int
  timeout : Bool
  deriving DecidableEq, Repr

/-- The content of `scheduled-repos.json` when the daemon starts. -/
inductive DataFile where
  | missing
  | unreadable
  | content (repos : List Repo)
  deriving DecidableEq, Repr

/-- The state of the local daemon; the fields are those of the server
variant, plus the token of `config.json`. -/
structure RepositorySchedulerService where
  githubToken : Option String
  scheduledRepos : List Repo
  scheduledJobs : List (String × Nat)
  armed : List RepoTimer
  nextHandle : Nat
  dataFile : List Repo
  writable : Bool
  log : List Effect
  deriving DecidableEq, Repr

/-- The assignments of the daemon on success: `status`, `html_url`,
`actualCreatedAt`. -/
def Repo.markCreatedDaemon (url : String) (now : Int) (r : Repo) : Repo :=
  { r with
    status := "created"
    html_url := some url
    actualCreatedAt := some now }

namespace RepositorySchedulerService

/-- `saveScheduledRepos`: a failed write is caught and logged. -/
def saveScheduledRepos (d : RepositorySchedulerService) : RepositorySchedulerService :=
  if d.writable then
    { d with dataFile := d.scheduledRepos, log := d.log ++ [Effect.write d.scheduledRepos true] }
  else
    { d with log := d.log ++ [Effect.write d.scheduledRepos false] }

/-- The clean-up `if (has(id)) { get(id).cancel(); delete(id); }`. -/
def cancelJob (d : RepositorySchedulerService) (repoId : String) : RepositorySchedulerService :=
  match d.scheduledJobs.find? (fun e => e.1 == repoId) with
  | some e =>
    { d with
      armed := d.armed.filter (fun t => t.handle != e.2)
      scheduledJobs := d.scheduledJobs.filter (fun e => e.1 != repoId) }
  | none => d

/-- Assignment to the element at an index. -/
def modifyAt (d : RepositorySchedulerService) (i : Nat) (f : Repo → Repo) :
    RepositorySchedulerService :=
  { d with scheduledRepos := d.scheduledRepos.modify f i }

/-- `createRepository(repo)` up to the point where it awaits `axios.post`.
An error thrown before the request (no token, job not in the list) is
returned with the state reached. -/
def createRepositoryStart (d : RepositorySchedulerService) (repo : Repo) :
    RepositorySchedulerService × Except String Nat :=
  if !tokenTruthy d.githubToken then (d, .error "No GitHub token configured")
  else
    match findIndex d.scheduledRepos repo.id with
    | none => (d, .error "Repository not found in scheduled list")
    | some repoIndex =>
      let d1 := (d.modifyAt repoIndex Repo.markCreating).saveScheduledRepos
      ({ d1 with log := d1.log ++
          [Effect.request (buildRequest (d1.githubToken.getD "null") repo)] },
        .ok repoIndex)

/-- The `catch` block of `createRepository`, entered with `error.message`. -/
def createRepositoryCatch (d : RepositorySchedulerService) (repo : Repo) (message : String)
    (now : Int) : RepositorySchedulerService :=
  let d1 :=
    match findIndex d.scheduledRepos repo.id with
    | some repoIndex => (d.modifyAt repoIndex (Repo.markFailed message now)).saveScheduledRepos
    | none => d
  d1.cancelJob repo.id

/-- `createRepository(repo)` from the answer of `axios.post` on. -/
def createRepositoryFinish (d : RepositorySchedulerService) (repo : Repo) (repoIndex : Nat)
    (outcome : Outcome) (now : Int) : RepositorySchedulerService :=
  match outcome with
  | .ok url _ =>
    if repoIndex < d.scheduledRepos.length then
      ((d.modifyAt repoIndex (Repo.markCreatedDaemon url now)).saveScheduledRepos).cancelJob repo.id
    else d.createRepositoryCatch repo staleIndexError now
  | .err e => d.createRepositoryCatch repo e.message now

/-- `createRepository(repo)` run without interruption. -/
def createRepository (d : RepositorySchedulerService) (repo : Repo) (outcome : Outcome)
    (now : Int) : RepositorySchedulerService :=
  match d.createRepositoryStart repo with
  | (d1, .ok repoIndex) => d1.createRepositoryFinish repo repoIndex outcome now
  | (d1, .error message) => d1.createRepositoryCatch repo message now

/-- `scheduleRepo(repo)` at clock reading `now`: a one second timeout for
an overdue job, a node-schedule job recorded in `scheduledJobs` otherwise,
nothing for an Invalid Date. -/
def scheduleRepo (d : RepositorySchedulerService) (repo : Repo) (now : Int) :
    RepositorySchedulerService :=
  match repo.scheduledDate with
  | some date =>
    if date ≤ now then
      { d with
        armed := d.armed ++ [{ handle := d.nextHandle, repo := repo,
                               fireAt := now + 1000, timeout := true }]
        nextHandle := d.nextHandle + 1 }
    else
      { d with
        armed := d.armed ++ [{ handle := d.nextHandle, repo := repo,
                               fireAt := date, timeout := false }]
        scheduledJobs := SchedulerService.mapSet d.scheduledJobs repo.id d.nextHandle
        nextHandle := d.nextHandle + 1 }
  | none => d

/-- `scheduleExistingRepos()`; `clock repo` is the reading of the clock
inside the call `scheduleRepo(repo)`. -/
def scheduleExistingRepos (d : RepositorySchedulerService) (clock : Repo → Int) :
    RepositorySchedulerService :=
  (d.scheduledRepos.filter (fun repo => repo.status == "pending")).foldl
    (fun acc repo => acc.scheduleRepo repo (clock repo)) d

/-- `loadScheduledRepos()`: the content of the file; an empty list, written
back, when the file is missing; an empty list when reading throws. -/
def loadScheduledRepos (d : RepositorySchedulerService) (file : DataFile) :
    RepositorySchedulerService :=
  match file with
  | .content repos => { d with scheduledRepos := repos }
  | .missing => ({ d with scheduledRepos := [] }).saveScheduledRepos
  | .unreadable => { d with scheduledRepos := [] }

/-- `new RepositorySchedulerService()`: `loadConfig()` yields `token`,
`loadScheduledRepos()` reads `file` synchronously, then
`scheduleExistingRepos()` runs. -/
def construct (token : Option String) (file : DataFile) (writable : Bool)
    (clock : Repo → Int) : RepositorySchedulerService :=
  let d0 : RepositorySchedulerService :=
    { githubToken := token
      scheduledRepos := []
      scheduledJobs := []
      armed := []
      nextHandle := 0
      dataFile := match file with
        | .content repos => repos
        | _ => []
      writable := writable
      log := [] }
  (d0.loadScheduledRepos file).scheduleExistingRepos clock

/-- The timer with the given handle fires: it is no longer armed and its
callback runs `createRepository(repo)` on the job object it closed over. -/
def fire (d : RepositorySchedulerService) (handle : Nat) (outcome : Outcome) (now : Int) :
    RepositorySchedulerService :=
  match d.armed.find? (fun t => t.handle == handle) with
  | none => d
  | some t =>
    ({ d with armed := d.armed.filter (fun t => t.handle != handle) }).createRepository
      t.repo outcome now

/-- The handles of the armed timers are pairwise distinct and below the next
handle. -/
def HandlesFresh (d : RepositorySchedulerService) : Prop :=
  (∀ t ∈ d.armed, t.handle < d.nextHandle) ∧ (d.armed.map (fun t => t.handle)).Nodup

end RepositorySchedulerService

/-! ## Statistics, shutdown and the remaining operations -/

/-- The result of the server `getStats`. -/
structure Stats where
  total : Nat
  pending : Nat
  creating : Nat
  created : Nat
  failed : Nat
  activeJobs : Nat
  deriving DecidableEq, Repr

/-- The counts `getStats` and `getUserStats` derive from a list of jobs. -/
def statusCounts (repos : List Repo) : UserStats :=
  { total := repos.length
    pending := (repos.filter (fun r => r.status == "pending")).length
    creating := (repos.filter (fun r => r.status == "creating")).length
    created := (repos.filter (fun r => r.status == "created")).length
    failed := (repos.filter (fun r => r.status == "failed")).length }

namespace SchedulerService

/-- `getUserStats(userId)`. -/
def getUserStats (s : SchedulerService) (userId : String) : UserStats :=
  let userRepos := s.repositories.filter (fun repo => repo.userId == some userId)
  { total := userRepos.length
    pending := (userRepos.filter (fun r => r.status == "pending")).length
    creating := (userRepos.filter (fun r => r.status == "creating")).length
    created := (userRepos.filter (fun r => r.status == "created")).length
    failed := (userRepos.filter (fun r => r.status == "failed")).length }

/-- `getStats()`; `activeJobs` is `this.scheduledJobs.size`. -/
def getStats (s : SchedulerService) : Stats :=
  { total := s.repositories.length
    pending := (s.repositories.filter (fun r => r.status == "pending")).length
    creating := (s.repositories.filter (fun r => r.status == "creating")).length
    created := (s.repositories.filter (fun r => r.status == "created")).length
    failed := (s.repositories.filter (fun r => r.status == "failed")).length
    activeJobs := s.scheduledJobs.length }

/-- `shutdown()`: every job held by `scheduledJobs` is cancelled, then the
map is cleared.  A timer that is not held by the map is not touched. -/
def shutdown (s : SchedulerService) : SchedulerService :=
  { s with
    armed := s.armed.filter (fun t => !(s.scheduledJobs.any (fun e => e.2 == t.handle)))
    scheduledJobs := [] }

/-- The states of the service reached from an empty store by `addRepository`
of records that are pending and carry no result, `updateRepository` with an
`updateData` of the route, `removeRepository` and `createRepository` (which
`createRepositoryNow` calls).  With `guarded = true`, `createRepository` is
only invoked for an id whose job is `pending`, as the route
`POST /:id/create-now` ensures. -/
inductive Reachable (guarded : Bool) : SchedulerService → Prop where
  | empty (writable : Bool) :
      Reachable guarded
        { repositories := [], scheduledJobs := [], armed := [], nextHandle := 0,
          dataFile := [], writable := writable, log := [] }
  | add {s : SchedulerService} (repoData : Repo) (now : Int) :
      Reachable guarded s → repoData.status = "pending" → repoData.html_url = none →
      repoData.error = none → Reachable guarded (s.addRepository repoData now).2
  | update {s s1 : SchedulerService} (repoId : String) (u : UpdateData) (now : Int)
      (repo : Repo) :
      Reachable guarded s → s.updateRepository repoId u now = some (repo, s1) →
      Reachable guarded s1
  | remove {s : SchedulerService} (repoId : String) :
      Reachable guarded s → Reachable guarded (s.removeRepository repoId)
  | create {s : SchedulerService} (repoId : String) (outcome : Outcome) (now : Int) :
      Reachable guarded s →
      (guarded = true →
        ∀ job, s.repositories.find? (fun r => r.id == repoId) = some job →
          job.status = "pending") →
      Reachable guarded (s.createRepository repoId outcome now)

/-- The result fields agree with the status: `html_url` is set only on a
`created` job, `error` only on a `failed` one. -/
def ResultsMatch (s : SchedulerService) : Prop :=
  ∀ r ∈ s.repositories,
    (r.html_url ≠ none → r.status = "created") ∧ (r.error ≠ none → r.status = "failed")

end SchedulerService

/-- The argument `repoData` of the daemon's `addScheduledRepo`.  `none` as
`description` is `undefined`. -/
structure RepoData where
  name : String
  description : Option String
  scheduledDate : Option Int
  isPrivate : JsVal
  auto_init : JsVal
  gitignore_template : JsVal
  deriving DecidableEq, Repr

namespace RepositorySchedulerService

/-- `addScheduledRepo(repoData)`: `idNow` is the reading `Date.now()` the id
is made of, `createdNow` the one of `createdAt`, `scheduleNow` the one inside
`scheduleRepo`. -/
def addScheduledRepo (d : RepositorySchedulerService) (repoData : RepoData)
    (idNow createdNow scheduleNow : Int) : Repo × RepositorySchedulerService :=
  let repo : Repo :=
    { id := toString idNow
      name := repoData.name
      description := match repoData.description with
        | some text => if text != "" then text else ""
        | none => ""
      scheduledDate := repoData.scheduledDate
      isPrivate := repoData.isPrivate.or (.bool false)
      auto_init := .bool (repoData.auto_init != .bool false)
      gitignore_template := repoData.gitignore_template.or .null
      status := "pending"
      createdAt := createdNow }
  let d1 := ({ d with scheduledRepos := d.scheduledRepos ++ [repo] }).saveScheduledRepos
  (repo, d1.scheduleRepo repo scheduleNow)

/-- `removeScheduledRepo(repoId)`. -/
def removeScheduledRepo (d : RepositorySchedulerService) (repoId : String) :
    RepositorySchedulerService :=
  let d1 := d.cancelJob repoId
  ({ d1 with scheduledRepos := d1.scheduledRepos.filter (fun repo => repo.id != repoId) }).saveScheduledRepos

/-- `getStats()` of the daemon. -/
def getStats (d : RepositorySchedulerService) : UserStats :=
  { pending := (d.scheduledRepos.filter (fun r => r.status == "pending")).length
    created := (d.scheduledRepos.filter (fun r => r.status == "created")).length
    failed := (d.scheduledRepos.filter (fun r => r.status == "failed")).length
    creating := (d.scheduledRepos.filter (fun r => r.status == "creating")).length
    total := d.scheduledRepos.length }

/-- `shutdown()` of the daemon. -/
def shutdown (d : RepositorySchedulerService) : RepositorySchedulerService :=
  { d with
    armed := d.armed.filter (fun t => !(d.scheduledJobs.any (fun e => e.2 == t.handle)))
    scheduledJobs := [] }

end RepositorySchedulerService

namespace RepositoryScheduler

/-- `calculateCountdown(scheduledDate)` at clock reading `now`, both
instants in milliseconds.  On the positive difference `Math.floor` of a
quotient is the integer quotient. -/
def calculateCountdown (scheduled now : Int) : String :=
  let timeDiff := scheduled - now
  if timeDiff ≤ 0 then "Creating now..."
  else
    let days := timeDiff / (1000 * 60 * 60 * 24)
    let hours := (timeDiff % (1000 * 60 * 60 * 24)) / (1000 * 60 * 60)
    let minutes := (timeDiff % (1000 * 60 * 60)) / (1000 * 60)
    let seconds := (timeDiff % (1000 * 60)) / 1000
    let countdown := ""
    let countdown := if days > 0 then countdown ++ toString days ++ "d " else countdown
    let countdown :=
      if hours > 0 ∨ days > 0 then countdown ++ toString hours ++ "h " else countdown
    let countdown :=
      if minutes > 0 ∨ hours > 0 ∨ days > 0 then countdown ++ toString minutes ++ "m "
      else countdown
    let countdown := countdown ++ toString seconds ++ "s"
    trim countdown

end RepositoryScheduler

/-! ## Sample data -/

/-- A job of user `u1` with the given status. -/
def sampleRepo (status : String) : Repo :=
  { id := "j1"
    userId := some "u1"
    name := "demo"
    description := ""
    scheduledDate := some 1000
    isPrivate := .bool false
    auto_init := .bool true
    gitignore_template := .null
    status := status
    createdAt := 0
    githubToken := some "tok" }

/-- A server state holding one job with the given status and no timer. -/
def sampleService (status : String) : SchedulerService :=
  { repositories := [sampleRepo status]
    scheduledJobs := []
    armed := []
    nextHandle := 0
    dataFile := [sampleRepo status]
    writable := true
    log := [] }

/-- A rejection by the API with an error payload. -/
def nameTaken : AxiosError :=
  { message := "Request failed with status code 422"
    responseMessage := some "name taken" }

/-- A date constructor for the examples: a number is an instant in
milliseconds, the strings `"1970"` and `"2030"` are the first instant of
those years, every other value is an Invalid Date. -/
def sampleToDate : JsVal → Option Int
  | .num n => some n
  | .str "1970" => some 0
  | .str "2030" => some 1893456000000
  | _ => none

/-- The environment of a `POST /` for the examples: user `u1` has a token,
the clock reads 500. -/
def sampleEnv : PostEnv :=
  { users := some [{ id := "u1", githubToken := some "tok" }]
    uuid := "j2"
    now := 500
    createdNow := 501
    scheduleNow := 502 }

/-- A request body with the given name and date and nothing else. -/
def sampleBody (name : JsVal) (scheduledDate : JsVal) : ReqBody :=
  { name := name
    description := .undefined
    scheduledDate := scheduledDate
    isPrivate := .undefined
    auto_init := .undefined
    gitignore_template := .undefined }

/-- A browser job, pending and due at instant 1000. -/
def browserRepo (id name : String) : Repo :=
  { id := id
    name := name
    description := ""
    scheduledDate := some 1000
    isPrivate := .bool true
    auto_init := .bool true
    gitignore_template := .null
    status := "pending"
    createdAt := 0 }

/-- A browser state with a token and two pending jobs, both overdue at
instant 2000. -/
def sampleBrowser : RepositoryScheduler :=
  { githubToken := some "tok"
    scheduledRepos := [browserRepo "1" "alpha", browserRepo "2" "beta"]
    localStorage := [browserRepo "1" "alpha", browserRepo "2" "beta"]
    log := [] }

/-- A form of the browser with the given name and date. -/
def sampleForm (repoName scheduleDate : String) : ScheduleForm :=
  { repoName := repoName
    repoDescription := ""
    scheduleDate := scheduleDate
    isPrivate := true
    initWithReadme := true
    gitignoreTemplate := "" }

/-- Two calls of `checkScheduledRepos` in immediate succession: the first
runs to its first `fetch` and is suspended there, the second is called and
runs to its own first `fetch`, then the first receives `answer` and goes on to
its next `fetch`. -/
def sweepTwice (b : RepositoryScheduler) (now : Int) (answer : FetchOutcome) (later : Int) :
    RepositoryScheduler :=
  match b.checkScheduledRepos now with
  | (b1, some first) => ((b1.checkScheduledRepos now).1.resume first answer later).1
  | (b1, none) => (b1.checkScheduledRepos now).1

/-- A daemon state with a token, holding `sampleRepo` with the given status
and no timer. -/
def sampleDaemon (status : String) : RepositorySchedulerService :=
  { githubToken := some "tok"
    scheduledRepos := [sampleRepo status]
    scheduledJobs := []
    armed := []
    nextHandle := 0
    dataFile := [sampleRepo status]
    writable := true
    log := [] }

/-- A server state holding `sampleRepo` with the given status and an armed
node-schedule job for it. -/
def sampleArmed (status : String) : SchedulerService :=
  { repositories := [sampleRepo status]
    scheduledJobs := [("j1", 0)]
    armed := [{ handle := 0, repoId := "j1", fireAt := 1000, timeout := false }]
    nextHandle := 1
    dataFile := [sampleRepo status]
    writable := true
    log := [] }

/-- A server state whose pending job `j1`, dated 1000, was scheduled at clock
2000: it is overdue, so a one second timeout is armed for it and
`scheduledJobs` has no entry. -/
def sampleOverdue : SchedulerService :=
  (sampleService "pending").scheduleRepository (sampleRepo "pending") 2000

/-- An `updateData` that carries only a new date. -/
def rescheduleTo (date : Int) : UpdateData :=
  { name := none
    description := none
    scheduledDate := some date
    isPrivate := none
    auto_init := none
    gitignore_template := none }

/-- A snapshot of the daemon: one pending job dated 1000 and one job that is
already `created`. -/
def sampleSnapshot : List Repo :=
  [sampleRepo "pending", { sampleRepo "created" with id := "j0" }]

/-- A browser state whose token is `tok` and whose job record carries a
`githubToken` field of its own. -/
def browserWithJobToken : RepositoryScheduler :=
  { githubToken := some "tok"
    scheduledRepos := [{ browserRepo "1" "alpha" with githubToken := some "job-token" }]
    localStorage := [{ browserRepo "1" "alpha" with githubToken := some "job-token" }]
    log := [] }

/-- The sample browser before authentication: the same two overdue pending
jobs, no token. -/
def sampleBrowserNoToken : RepositoryScheduler :=
  { sampleBrowser with githubToken := none }

/-- A browser state with a token and three pending jobs. -/
def sampleBrowser3 : RepositoryScheduler :=
  { githubToken := some "tok"
    scheduledRepos := [browserRepo "1" "alpha", browserRepo "2" "beta", browserRepo "3" "gamma"]
    localStorage := [browserRepo "1" "alpha", browserRepo "2" "beta", browserRepo "3" "gamma"]
    log := [] }

/-- A daemon state with a token and the given pending jobs, no timer. -/
def daemonWith (repos : List Repo) : RepositorySchedulerService :=
  { githubToken := some "tok"
    scheduledRepos := repos
    scheduledJobs := []
    armed := []
    nextHandle := 0
    dataFile := repos
    writable := true
    log := [] }

/-- Browser: `createRepository(job)` awaits its `fetch` when
`removeScheduledRepo(removed)` runs; then the `fetch` answers. -/
def completeAfterRemoval (b : RepositoryScheduler) (job : Repo) (removed : String)
    (outcome : FetchOutcome) (now : Int) : RepositoryScheduler :=
  match b.createRepositoryStart job with
  | (b1, some repoIndex) =>
    (b1.removeScheduledRepo removed).createRepositoryFinish job repoIndex outcome now
  | (b1, none) => b1.removeScheduledRepo removed

/-- Daemon: `createRepository(job)` awaits `axios.post` when
`removeScheduledRepo(removed)` runs; then the request answers. -/
def completeAfterRemovalDaemon (d : RepositorySchedulerService) (job : Repo) (removed : String)
    (outcome : Outcome) (now : Int) : RepositorySchedulerService :=
  match d.createRepositoryStart job with
  | (d1, .ok repoIndex) =>
    (d1.removeScheduledRepo removed).createRepositoryFinish job repoIndex outcome now
  | (d1, .error message) => (d1.removeScheduledRepo removed).createRepositoryCatch job message now

/-- The sample server store with another token stored in the job. -/
def sampleServiceOtherToken : SchedulerService :=
  { repositories := [{ sampleRepo "pending" with githubToken := some "other" }]
    scheduledJobs := []
    armed := []
    nextHandle := 0
    dataFile := [{ sampleRepo "pending" with githubToken := some "other" }]
    writable := true
    log := [] }

/-- A daemon state whose pending job `j1` was scheduled overdue: a one second
timeout is armed for it. -/
def sampleDaemonOverdue : RepositorySchedulerService :=
  (sampleDaemon "pending").scheduleRepo (sampleRepo "pending") 2000

/-- An empty server store. -/
def emptyStore (writable : Bool) : SchedulerService :=
  { repositories := []
    scheduledJobs := []
    armed := []
    nextHandle := 0
    dataFile := []
    writable := writable
    log := [] }

/-- The record an uninterrupted `createRepository` of the server leaves for
a job: the assignment of `creating` followed by the assignments of the
outcome. -/
def settledServer (outcome : Outcome) (now : Int) (r : Repo) : Repo :=
  match outcome with
  | .ok url gid => Repo.markCreated url gid now r.markCreating
  | .err e => Repo.markFailed (SchedulerService.errorText e) now r.markCreating

/-- The store after `j1` was added, created with success, and executed a
second time with a failure. -/
def sampleRerun : SchedulerService :=
  ((((emptyStore true).addRepository (sampleRepo "pending") 500).2.createRepository "j1"
    (.ok "http://x/y" 7) 600).createRepository "j1" (.err nameTaken) 700)

/-- An argument of the daemon's `addScheduledRepo` with the given name, due
at instant 5000. -/
def sampleRepoData (name : String) : RepoData :=
  { name := name
    description := none
    scheduledDate := some 5000
    isPrivate := .undefined
    auto_init := .undefined
    gitignore_template := .undefined }

/-- The browser after two forms with different names were submitted while
`Date.now()` read 777 both times. -/
def browserSameClock : RepositoryScheduler :=
  RepositoryScheduler.scheduleRepository sampleToDate
    (RepositoryScheduler.scheduleRepository sampleToDate
      { githubToken := some "tok", scheduledRepos := [], localStorage := [], log := [] }
      (sampleForm "one" "2030") 500 777 777)
    (sampleForm "two" "2030") 500 777 777

/-- The daemon after two calls of `addScheduledRepo` while `Date.now()` read
777 both times. -/
def daemonSameClock : RepositorySchedulerService :=
  (((daemonWith []).addScheduledRepo (sampleRepoData "one") 777 777 777).2.addScheduledRepo
    (sampleRepoData "two") 777 777 777).2

/-- The sample store on a disk that refuses every write. -/
def sampleUnwritable : SchedulerService :=
  { sampleService "pending" with writable := false }

/-- The server store without the jobs that carry the given id. -/
def withoutJob (s : SchedulerService) (repoId : String) : SchedulerService :=
  { s with repositories := s.repositories.filter (fun r => r.id != repoId) }

/-- The countdown text as the specification words it: seconds always, a
larger unit when it or a unit larger than it is not zero. -/
def countdownText (days hours minutes seconds : Int) : String :=
  (if days ≠ 0 then toString days ++ "d " else "") ++
    (if hours ≠ 0 ∨ days ≠ 0 then toString hours ++ "h " else "") ++
    (if minutes ≠ 0 ∨ hours ≠ 0 ∨ days ≠ 0 then toString minutes ++ "m " else "") ++
    toString seconds ++ "s"

/-- A text whose first character is not white space. -/
def StartsClean (s : String) : Prop :=
  ∃ c cs, s.data = c :: cs ∧ isJsWhiteSpace c = false

/-- A browser state whose two pending jobs carry the same id (both were
scheduled while `Date.now()` read 777): `one` is due at 5000, `two` at 1000. -/
def browserSameId : RepositoryScheduler :=
  { githubToken := some "tok"
    scheduledRepos :=
      [{ browserRepo "777" "one" with scheduledDate := some 5000 }, browserRepo "777" "two"]
    localStorage :=
      [{ browserRepo "777" "one" with scheduledDate := some 5000 }, browserRepo "777" "two"]
    log := [] }

/-- A browser state whose two pending jobs carry the same id and are both
due at 1000. -/
def browserSameIdDue : RepositoryScheduler :=
  { githubToken := some "tok"
    scheduledRepos := [browserRepo "777" "one", browserRepo "777" "two"]
    localStorage := [browserRepo "777" "one", browserRepo "777" "two"]
    log := [] }

/-- A browser state with two pending jobs due at 1000 and an older job,
already `created`, whose stored date is not a valid date. -/
def browserInvalidDate : RepositoryScheduler :=
  { githubToken := some "tok"
    scheduledRepos :=
      [{ browserRepo "0" "old" with status := "created", scheduledDate := none },
       browserRepo "1" "alpha", browserRepo "2" "beta"]
    localStorage :=
      [{ browserRepo "0" "old" with status := "created", scheduledDate := none },
       browserRepo "1" "alpha", browserRepo "2" "beta"]
    log := [] }

/-- The server store after `addRepository(j1)` ran at clock 2000, when the
date 1000 of `j1` had passed: the one second timeout is armed. -/
def sampleAddedOverdue : SchedulerService :=
  ((emptyStore true).addRepository (sampleRepo "pending") 2000).2

/-- The store `sampleAddedOverdue` after `POST /j1/create-now` by the owner,
answered 201 by the API at 2500, and after the timeout has fired at 3000 and
the API has refused the second request. -/
def sampleTimerRerun : SchedulerService :=
  (createNow sampleAddedOverdue "u1" "j1" (.ok "http://x/y" 7) 2500).2.fire 0 (.err nameTaken) 3000

/-! ## Lemmas on the collection -/

theorem findIndex_eq_none {repos : List Repo} {repoId : String} :
    findIndex repos repoId = none ↔ repos.find? (fun r => r.id == repoId) = none := by
  induction repos with
  | nil => simp [findIndex]
  | cons r rs ih =>
    by_cases h : (r.id == repoId) = true
    · simp [findIndex, h]
    · simp only [findIndex, h, List.find?_cons]
      simpa using ih

theorem findIndex_some_get {repos : List Repo} {repoId : String} {i : Nat}
    (h : findIndex repos repoId = some i) :
    ∃ r, repos[i]? = some r ∧ r.id = repoId ∧
      repos.find? (fun r => r.id == repoId) = some r := by
  induction repos generalizing i with
  | nil => simp [findIndex] at h
  | cons r rs ih =>
    by_cases hr : (r.id == repoId) = true
    · simp only [findIndex, hr, if_true, Option.some.injEq] at h
      subst h
      exact ⟨r, by simp, by simpa using hr, by simp [hr]⟩
    · simp only [findIndex, hr, Bool.false_eq_true, if_false, Option.map_eq_some'] at h
      obtain ⟨j, hj, rfl⟩ := h
      obtain ⟨r', h1, h2, h3⟩ := ih hj
      exact ⟨r', by simpa using h1, h2, by simp [hr, h3]⟩

theorem findIndex_modify {f : Repo → Repo} (hf : ∀ r, (f r).id = r.id)
    (repos : List Repo) (i : Nat) (repoId : String) :
    findIndex (repos.modify f i) repoId = findIndex repos repoId := by
  induction repos generalizing i with
  | nil => simp
  | cons r rs ih =>
    cases i with
    | zero =>
      rw [List.modify_zero_cons]
      simp only [findIndex, hf]
    | succ n =>
      rw [List.modify_succ_cons]
      simp only [findIndex, ih]

theorem find?_modify_findIndex {f : Repo → Repo} (hf : ∀ r, (f r).id = r.id)
    {repos : List Repo} {i : Nat} {repoId : String} (h : findIndex repos repoId = some i) :
    (repos.modify f i).find? (fun r => r.id == repoId) =
      (repos.find? (fun r => r.id == repoId)).map f := by
  induction repos generalizing i with
  | nil => simp [findIndex] at h
  | cons r rs ih =>
    by_cases hr : (r.id == repoId) = true
    · simp only [findIndex, hr, if_true, Option.some.injEq] at h
      subst h
      simp [hr, hf]
    · simp only [findIndex, hr, Bool.false_eq_true, if_false, Option.map_eq_some'] at h
      obtain ⟨j, hj, rfl⟩ := h
      simp [hr, ih hj]

/-! ## Lemmas on the service state -/

namespace SchedulerService

@[simp] theorem saveRepositories_repositories (s : SchedulerService) :
    s.saveRepositories.repositories = s.repositories := by
  unfold saveRepositories; split <;> rfl

@[simp] theorem saveRepositories_scheduledJobs (s : SchedulerService) :
    s.saveRepositories.scheduledJobs = s.scheduledJobs := by
  unfold saveRepositories; split <;> rfl

@[simp] theorem saveRepositories_armed (s : SchedulerService) :
    s.saveRepositories.armed = s.armed := by
  unfold saveRepositories; split <;> rfl

@[simp] theorem saveRepositories_writable (s : SchedulerService) :
    s.saveRepositories.writable = s.writable := by
  unfold saveRepositories; split <;> rfl

@[simp] theorem saveRepositories_log (s : SchedulerService) :
    s.saveRepositories.log = s.log ++ [Effect.write s.repositories s.writable] := by
  unfold saveRepositories; split <;> simp_all

@[simp] theorem cancelJob_repositories (s : SchedulerService) (repoId : String) :
    (s.cancelJob repoId).repositories = s.repositories := by
  unfold cancelJob; split <;> rfl

@[simp] theorem cancelJob_log (s : SchedulerService) (repoId : String) :
    (s.cancelJob repoId).log = s.log := by
  unfold cancelJob; split <;> rfl

@[simp] theorem cancelJob_writable (s : SchedulerService) (repoId : String) :
    (s.cancelJob repoId).writable = s.writable := by
  unfold cancelJob; split <;> rfl

theorem hasJob_cancelJob (s : SchedulerService) (repoId : String) :
    (s.cancelJob repoId).hasJob repoId = false := by
  unfold cancelJob hasJob
  split
  · simp
  · next h => simpa using h

@[simp] theorem modifyAt_repositories (s : SchedulerService) (i : Nat) (f : Repo → Repo) :
    (s.modifyAt i f).repositories = s.repositories.modify f i := rfl

@[simp] theorem modifyAt_log (s : SchedulerService) (i : Nat) (f : Repo → Repo) :
    (s.modifyAt i f).log = s.log := rfl

@[simp] theorem modifyAt_writable (s : SchedulerService) (i : Nat) (f : Repo → Repo) :
    (s.modifyAt i f).writable = s.writable := rfl

/-- An id that is not in the collection: `createRepository` returns at once. -/
theorem createRepository_unknown {s : SchedulerService} {repoId : String}
    (h : findIndex s.repositories repoId = none) (outcome : Outcome) (now : Int) :
    s.createRepository repoId outcome now = s := by
  simp [createRepository, createRepositoryTry, h]

/-- The trace of one execution: the snapshot with the job marked `creating`
is written, the request is issued, the snapshot with the result is written. -/
theorem createRepository_log {s : SchedulerService} {repoId : String} {i : Nat} {r : Repo}
    (h : findIndex s.repositories repoId = some i) (hr : s.repositories[i]? = some r)
    (outcome : Outcome) (now : Int) :
    (s.createRepository repoId outcome now).log = s.log ++
      [Effect.write (s.repositories.modify Repo.markCreating i) s.writable,
       Effect.request (buildRequest (r.githubToken.getD "undefined") r),
       Effect.write (s.createRepository repoId outcome now).repositories s.writable] := by
  have hget : (s.repositories.modify Repo.markCreating i)[i]? = some r.markCreating := by
    simp [hr]
  have hfi : findIndex (s.repositories.modify Repo.markCreating i) repoId = some i := by
    rw [findIndex_modify (f := Repo.markCreating) (fun _ => rfl)]; exact h
  cases outcome with
  | ok url gid =>
    simp [createRepository, createRepositoryTry, h, hget, buildRequest, Repo.markCreating]
  | err e =>
    simp [createRepository, createRepositoryTry, h, hget, hfi, buildRequest, Repo.markCreating]

end SchedulerService

/-! ## C1: where the status is checked -/

/-- Claim C1, the code at the failing input: on a store whose job `j1` has
status `created`, `createRepository("j1")` (and `createRepositoryNow`) is not a
no-op: it issues a creation request and, the API refusing it, leaves the job
`failed`.  The timers call it that way: `j1` is added when its date has passed
(a one second timeout is armed), `POST /j1/create-now` is answered 200 and
leaves `j1` `created`, and the timeout, when it fires, sends a second request
for `j1` and moves it from `created` to `failed`. -/
theorem createRepository_reruns_created_job :
    (sampleService "created").repositories.map (fun r => (r.id, r.status)) = [("j1", "created")] ∧
    ((sampleService "created").createRepository "j1" (.err nameTaken) 5000).repositories.map
      (fun r => (r.id, r.status)) = [("j1", "failed")] ∧
    Effect.request (buildRequest "tok" (sampleRepo "created")) ∈
      ((sampleService "created").createRepositoryNow "j1" (.err nameTaken) 5000).log ∧
    sampleAddedOverdue.armed.map (fun t => (t.handle, t.repoId, t.timeout)) = [(0, "j1", true)] ∧
    (createNow sampleAddedOverdue "u1" "j1" (.ok "http://x/y" 7) 2500).1.status = 200 ∧
    (createNow sampleAddedOverdue "u1" "j1" (.ok "http://x/y" 7) 2500).2.repositories.map
      (fun r => (r.id, r.status)) = [("j1", "created")] ∧
    sampleTimerRerun.repositories.map (fun r => (r.id, r.status)) = [("j1", "failed")] ∧
    (requestsOf sampleTimerRerun.log).map (fun q => q.name) = ["demo", "demo"] := by
  decide

/-- The only test of the status is the one of the route
`POST /:id/create-now`.  For a job of the caller that is not
`pending` the route answers 400 and the state (jobs, timers, trace of external
effects) is unchanged.  `createRepository(id)` and `createRepositoryNow(id)`
themselves are a silent no-op exactly for an id that is not in the collection;
for an id in the collection they do not look at the status: the job is marked
`creating`, written, and the creation request is issued. -/
theorem createRepository_status_guard (s : SchedulerService) (userId repoId : String)
    (outcome : Outcome) (now : Int) :
    (∀ v, s.getUserRepository userId repoId = some v → v.status ≠ "pending" →
      createNow s userId repoId outcome now =
        (⟨400, .error "Can only create pending repositories"⟩, s)) ∧
    (findIndex s.repositories repoId = none →
      s.createRepository repoId outcome now = s ∧
      s.createRepositoryNow repoId outcome now = s) ∧
    (∀ i r, findIndex s.repositories repoId = some i → s.repositories[i]? = some r →
      (s.createRepositoryNow repoId outcome now).log = s.log ++
        [Effect.write (s.repositories.modify Repo.markCreating i) s.writable,
         Effect.request (buildRequest (r.githubToken.getD "undefined") r),
         Effect.write (s.createRepository repoId outcome now).repositories s.writable]) := by
  refine ⟨?_, ?_, ?_⟩
  · intro v hv hne
    simp [createNow, hv, hne]
  · intro h
    exact ⟨SchedulerService.createRepository_unknown h outcome now,
      SchedulerService.createRepository_unknown h outcome now⟩
  · intro i r h hr
    exact SchedulerService.createRepository_log h hr outcome now

/-- The three parts of `createRepository_status_guard` at concrete stores. -/
theorem createRepository_status_guard_witness :
    createNow (sampleService "failed") "u1" "j1" (.ok "http://x/y" 7) 5000 =
      (⟨400, .error "Can only create pending repositories"⟩, sampleService "failed") ∧
    (sampleService "created").createRepository "j2" (.ok "http://x/y" 7) 5000 =
      sampleService "created" ∧
    ((sampleService "created").createRepositoryNow "j1" (.ok "http://x/y" 7) 5000).log =
      [Effect.write [(sampleRepo "created").markCreating] true,
       Effect.request (buildRequest "tok" (sampleRepo "created")),
       Effect.write
         ((sampleService "created").createRepository "j1" (.ok "http://x/y" 7) 5000).repositories
         true] :=
  ⟨(createRepository_status_guard (sampleService "failed") "u1" "j1" (.ok "http://x/y" 7) 5000).1
      (SchedulerService.view (sampleRepo "failed")) (by decide) (by decide),
    ((createRepository_status_guard (sampleService "created") "u1" "j2" (.ok "http://x/y" 7)
      5000).2.1 (by decide)).1,
    (createRepository_status_guard (sampleService "created") "u1" "j1" (.ok "http://x/y" 7)
      5000).2.2 0 (sampleRepo "created") (by decide) (by decide)⟩

/-! ## C2: two sweeps in immediate succession -/

/-- Claim C2, the code at the failing input: two pending jobs `alpha` and
`beta` are overdue.  The first `checkScheduledRepos` lists both and awaits the
`fetch` of `alpha`; the second, called meanwhile, lists `beta` (still
`pending`) and requests it; when the first resumes it goes on through its own
list and requests `beta` again.  `beta` receives two creation requests. -/
theorem checkScheduledRepos_twice_requests_beta_twice :
    (sampleBrowser.checkScheduledRepos 2000).1.requestsFor "beta" = 0 ∧
    ((sampleBrowser.checkScheduledRepos 2000).1.checkScheduledRepos 2000).1.requestsFor "beta" = 1 ∧
    (sweepTwice sampleBrowser 2000 (.ok "http://x/alpha") 3000).requestsFor "alpha" = 1 ∧
    (sweepTwice sampleBrowser 2000 (.ok "http://x/alpha") 3000).requestsFor "beta" = 2 := by
  decide

/-! ## C3: a date that is not in the future -/

/-- A successful `POST /`: what the validations established and what was
stored. -/
theorem postRepository_created {toDate : JsVal → Option Int} {s : SchedulerService}
    {userId : String} {body : ReqBody} {env : PostEnv}
    (h : (postRepository toDate s userId body env).1.status = 201) :
    ∃ (name description : String) (date : Int) (user : User),
      body.name = .str name ∧ name ≠ "" ∧
      descriptionOrEmpty body.description = some description ∧
      toDate body.scheduledDate = some date ∧ env.now < date ∧
      tokenTruthy user.githubToken = true ∧
      postRepository toDate s userId body env =
        (⟨201, .scheduled "Repository scheduled successfully"
          { id := env.uuid
            name := trim name
            description := description
            scheduledDate := some date
            isPrivate := body.isPrivate.or (.bool false)
            auto_init := .bool (body.auto_init != .bool false)
            gitignore_template := body.gitignore_template.or .null
            status := "pending"
            createdAt := env.createdNow }⟩,
         (s.addRepository
          { id := env.uuid
            userId := some userId
            name := trim name
            description := description
            scheduledDate := some date
            isPrivate := body.isPrivate.or (.bool false)
            auto_init := .bool (body.auto_init != .bool false)
            gitignore_template := body.gitignore_template.or .null
            status := "pending"
            createdAt := env.createdNow
            githubToken := user.githubToken } env.scheduleNow).2) := by
  by_cases h1 : (!body.name.truthy || !body.scheduledDate.truthy) = true
  · simp [postRepository, h1] at h
  by_cases h2 : dateLe (toDate body.scheduledDate) (some env.now) = true
  · simp [postRepository, h1, h2] at h
  cases hu : env.users with
  | none => simp [postRepository, h1, h2, hu] at h
  | some users =>
    cases hf : users.find? (fun u => u.id == userId) with
    | none => simp [postRepository, h1, h2, hu, hf] at h
    | some user =>
      by_cases h3 : tokenTruthy user.githubToken = true
      swap
      · simp [postRepository, h1, h2, hu, hf, h3] at h
      cases hn : trimCall body.name with
      | none => simp [postRepository, h1, h2, hu, hf, h3, hn] at h
      | some name =>
        cases hd : descriptionOrEmpty body.description with
        | none => simp [postRepository, h1, h2, hu, hf, h3, hn, hd] at h
        | some description =>
          cases hdate : toDate body.scheduledDate with
          | none => simp [postRepository, h1, hu, hf, h3, hn, hd, hdate, dateLe] at h
          | some date =>
            cases hb : body.name with
            | str n =>
              rw [hb] at hn
              simp only [trimCall, Option.some.injEq] at hn
              subst hn
              refine ⟨n, description, date, user, rfl, ?_, rfl, rfl, ?_, h3, ?_⟩
              · have hname : ¬ n = "" ∧ body.scheduledDate.truthy = true := by
                  simpa [JsVal.truthy, hb] using h1
                exact hname.1
              · simpa [dateLe, hdate] using h2
              · rw [hdate] at h2
                simp [postRepository, h1, h2, hu, hf, h3, hd, hdate, trimCall, hb,
                  SchedulerService.addRepository]
                simpa [hb] using h1
            | undefined => simp [hb, trimCall] at hn
            | null => simp [hb, trimCall] at hn
            | bool _ => simp [hb, trimCall] at hn
            | num _ => simp [hb, trimCall] at hn
            | obj _ => simp [hb, trimCall] at hn

namespace SchedulerService

@[simp] theorem scheduleRepository_repositories (s : SchedulerService) (repo : Repo) (now : Int) :
    (s.scheduleRepository repo now).repositories = s.repositories := by
  unfold scheduleRepository
  split
  · split <;> rfl
  · rfl

@[simp] theorem addRepository_repositories (s : SchedulerService) (repoData : Repo) (now : Int) :
    (s.addRepository repoData now).2.repositories = s.repositories ++ [repoData] := by
  simp [addRepository]

end SchedulerService

/-- A request that passes every validation of `POST /` is answered 201 and
stored through `addRepository`; the collection is not consulted. -/
theorem postRepository_valid {toDate : JsVal → Option Int} (s : SchedulerService)
    {userId : String} {body : ReqBody} {env : PostEnv} {name description : String} {date : Int}
    {users : List User} {user : User}
    (hname : body.name = .str name) (hne : name ≠ "")
    (hdesc : descriptionOrEmpty body.description = some description)
    (htruthy : body.scheduledDate.truthy = true)
    (hdate : toDate body.scheduledDate = some date) (hfuture : env.now < date)
    (husers : env.users = some users)
    (hfind : users.find? (fun u => u.id == userId) = some user)
    (htoken : tokenTruthy user.githubToken = true) :
    (postRepository toDate s userId body env).1.status = 201 ∧
    (postRepository toDate s userId body env).2.repositories = s.repositories ++
      [{ id := env.uuid
         userId := some userId
         name := trim name
         description := description
         scheduledDate := some date
         isPrivate := body.isPrivate.or (.bool false)
         auto_init := .bool (body.auto_init != .bool false)
         gitignore_template := body.gitignore_template.or .null
         status := "pending"
         createdAt := env.createdNow
         githubToken := user.githubToken }] := by
  have hn : (JsVal.str name).truthy = true := by simp [JsVal.truthy, hne]
  have h2 : dateLe (some date) (some env.now) = false := by
    simp [dateLe, hfuture]
  simp [postRepository, hname, hn, htruthy, h2, hdate, husers, hfind, htoken, trimCall, hdesc]

/-- Claim C3: a date that is a valid instant not later than the clock is
rejected.  `POST /` answers 400 and the service state (collection, timers,
snapshot, trace) is the one before; the browser `scheduleRepository` returns
the state it was called in.  Conversely a `POST /` answered 201 has appended one
job whose `scheduledDate` is strictly later than the clock of the validation,
and a browser `scheduleRepository` that changed anything has appended one such
job. -/
theorem add_rejects_non_future_date (toDate : JsVal → Option Int) (s : SchedulerService)
    (userId : String) (body : ReqBody) (env : PostEnv) (b : RepositoryScheduler)
    (form : ScheduleForm) (now idNow createdNow : Int) :
    (∀ d, toDate body.scheduledDate = some d → d ≤ env.now →
      (postRepository toDate s userId body env).1.status = 400 ∧
      (postRepository toDate s userId body env).2 = s) ∧
    (∀ d, toDate (.str form.scheduleDate) = some d → d ≤ now →
      b.scheduleRepository toDate form now idNow createdNow = b) ∧
    ((postRepository toDate s userId body env).1.status = 201 →
      ∃ r d, (postRepository toDate s userId body env).2.repositories = s.repositories ++ [r] ∧
        r.scheduledDate = some d ∧ env.now < d) ∧
    (b.scheduleRepository toDate form now idNow createdNow ≠ b →
      ∃ r d, (b.scheduleRepository toDate form now idNow createdNow).scheduledRepos =
          b.scheduledRepos ++ [r] ∧
        r.scheduledDate = some d ∧ now < d) := by
  refine ⟨?_, ?_, ?_, ?_⟩
  · intro d hd hle
    have h2 : dateLe (some d) (some env.now) = true := by simp [dateLe, hle]
    by_cases h1 : (!body.name.truthy || !body.scheduledDate.truthy) = true
    · simp [postRepository, h1]
    · simp [postRepository, h1, hd, h2]
  · intro d hd hle
    have h2 : dateLe (some d) (some now) = true := by simp [dateLe, hle]
    by_cases h1 : (trim form.repoName == "") = true
    · simp [RepositoryScheduler.scheduleRepository, h1]
    · simp [RepositoryScheduler.scheduleRepository, h1, hd, h2]
  · intro h
    obtain ⟨name, description, date, user, _, _, _, _, hfut, _, heq⟩ := postRepository_created h
    rw [heq]
    exact ⟨_, date, SchedulerService.addRepository_repositories _ _ _, rfl, hfut⟩
  · intro h
    by_cases h1 : (trim form.repoName == "") = true
    · simp [RepositoryScheduler.scheduleRepository, h1] at h
    by_cases h2 : dateLe (toDate (.str form.scheduleDate)) (some now) = true
    · simp [RepositoryScheduler.scheduleRepository, h1, h2] at h
    by_cases h3 : (b.scheduledRepos.any (fun repo => repo.name == trim form.repoName)) = true
    · simp [RepositoryScheduler.scheduleRepository, h1, h2, h3] at h
    cases hd : toDate (.str form.scheduleDate) with
    | none => simp [RepositoryScheduler.scheduleRepository, h1, h2, h3, hd] at h
    | some d =>
      rw [hd] at h2
      refine ⟨{ id := toString idNow
                name := trim form.repoName
                description := trim form.repoDescription
                scheduledDate := some d
                isPrivate := .bool form.isPrivate
                auto_init := .bool form.initWithReadme
                gitignore_template := (JsVal.str form.gitignoreTemplate).or .null
                status := "pending"
                createdAt := createdNow }, d, ?_, rfl, ?_⟩
      · simp [RepositoryScheduler.scheduleRepository, h1, h2, h3, hd,
          RepositoryScheduler.saveScheduledRepos]
      · simpa [dateLe] using h2

/-- Claim C3, witness: an add dated 400 at clock 500 is refused by both
variants; an add dated 9000 is stored with that date. -/
theorem add_rejects_non_future_date_witness :
    ((postRepository sampleToDate (sampleService "pending") "u1"
        (sampleBody (.str "next") (.num 400)) sampleEnv).1.status = 400 ∧
      (postRepository sampleToDate (sampleService "pending") "u1"
        (sampleBody (.str "next") (.num 400)) sampleEnv).2 = sampleService "pending") ∧
    sampleBrowser.scheduleRepository sampleToDate (sampleForm "next" "1970") 500 501 502 =
      sampleBrowser ∧
    (∃ r d, (postRepository sampleToDate (sampleService "pending") "u1"
        (sampleBody (.str "next") (.num 9000)) sampleEnv).2.repositories =
          (sampleService "pending").repositories ++ [r] ∧
        r.scheduledDate = some d ∧ sampleEnv.now < d) ∧
    (∃ r d, (sampleBrowser.scheduleRepository sampleToDate (sampleForm "next" "2030")
        500 501 502).scheduledRepos = sampleBrowser.scheduledRepos ++ [r] ∧
        r.scheduledDate = some d ∧ 500 < d) :=
  ⟨(add_rejects_non_future_date sampleToDate (sampleService "pending") "u1"
      (sampleBody (.str "next") (.num 400)) sampleEnv sampleBrowser (sampleForm "next" "2030")
      500 501 502).1 400 (by decide) (by decide),
   (add_rejects_non_future_date sampleToDate (sampleService "pending") "u1"
      (sampleBody (.str "next") (.num 400)) sampleEnv sampleBrowser (sampleForm "next" "1970")
      500 501 502).2.1 0 (by decide) (by decide),
   (add_rejects_non_future_date sampleToDate (sampleService "pending") "u1"
      (sampleBody (.str "next") (.num 9000)) sampleEnv sampleBrowser (sampleForm "next" "2030")
      500 501 502).2.2.1 (by decide),
   (add_rejects_non_future_date sampleToDate (sampleService "pending") "u1"
      (sampleBody (.str "next") (.num 9000)) sampleEnv sampleBrowser (sampleForm "next" "2030")
      500 501 502).2.2.2 (by decide)⟩

/-! ## C4: the stored name -/

/-- Claim C4, the code at the failing input: a name made of blanks is
truthy, so `POST /` accepts it and stores the trimmed, empty name; `PUT /:id`
with such a name replaces the stored name by the empty string. -/
theorem blank_name_is_stored_empty :
    (postRepository sampleToDate (sampleService "pending") "u1"
      (sampleBody (.str "   ") (.num 9000)) sampleEnv).1.status = 201 ∧
    (postRepository sampleToDate (sampleService "pending") "u1"
      (sampleBody (.str "   ") (.num 9000)) sampleEnv).2.repositories.map (fun r => r.name) =
        ["demo", ""] ∧
    (putRepository sampleToDate (sampleService "pending") "u1" "j1"
      (sampleBody (.str "  ") .undefined) 500 502).1.status = 200 ∧
    (putRepository sampleToDate (sampleService "pending") "u1" "j1"
      (sampleBody (.str "  ") .undefined) 500 502).2.repositories.map (fun r => r.name) = [""] := by
  decide

/-! ## C5: names already scheduled -/

/-- The route `POST /` does not look at the names already stored: with a
pending job of the owner named `n` in the collection, a request of that owner
whose name trims to `n` and which passes the validations of the route is
answered 201 and appends a second pending job of that owner named `n`. -/
theorem postRepository_accepts_duplicate_name (toDate : JsVal → Option Int)
    (s : SchedulerService) (userId : String) (body : ReqBody) (env : PostEnv)
    (name description : String) (date : Int) (users : List User) (user : User) (existing : Repo)
    (hmem : existing ∈ s.repositories) (howner : existing.userId = some userId)
    (hsame : existing.name = trim name)
    (hname : body.name = .str name) (hne : name ≠ "")
    (hdesc : descriptionOrEmpty body.description = some description)
    (htruthy : body.scheduledDate.truthy = true)
    (hdate : toDate body.scheduledDate = some date) (hfuture : env.now < date)
    (husers : env.users = some users)
    (hfind : users.find? (fun u => u.id == userId) = some user)
    (htoken : tokenTruthy user.githubToken = true) :
    (postRepository toDate s userId body env).1.status = 201 ∧
    ∃ added, (postRepository toDate s userId body env).2.repositories = s.repositories ++ [added] ∧
      existing ∈ (postRepository toDate s userId body env).2.repositories ∧
      added.userId = existing.userId ∧ added.name = existing.name ∧
      added.status = "pending" := by
  obtain ⟨h1, h2⟩ := postRepository_valid s hname hne hdesc htruthy hdate hfuture husers hfind htoken
  refine ⟨h1, _, h2, ?_, ?_, ?_, rfl⟩
  · rw [h2]; exact List.mem_append_left _ hmem
  · exact howner.symm
  · exact hsame.symm

/-- Claim C5, the code at the failing input: user `u1` has the pending job
`demo`; a second `POST /` by `u1` with the name `demo` is answered 201 and the
collection then holds two pending jobs of `u1` with that name, while the
browser `scheduleRepository` refuses a name that is already in its list. -/
theorem postRepository_stores_duplicate_name :
    (sampleService "pending").repositories.map (fun r => (r.userId, r.name, r.status)) =
      [(some "u1", "demo", "pending")] ∧
    (postRepository sampleToDate (sampleService "pending") "u1"
      (sampleBody (.str "demo") (.num 9000)) sampleEnv).1.status = 201 ∧
    (postRepository sampleToDate (sampleService "pending") "u1"
      (sampleBody (.str "demo") (.num 9000)) sampleEnv).2.repositories.map
        (fun r => (r.userId, r.name, r.status)) =
      [(some "u1", "demo", "pending"), (some "u1", "demo", "pending")] ∧
    sampleBrowser.scheduleRepository sampleToDate (sampleForm "alpha" "2030") 500 501 502 =
      sampleBrowser := by
  decide

/-! ## C6: add, then get -/

/-- Claim C6, counterexample: the submitted name `" next "` comes back as
`"next"`, and the absent `auto_init` and `private` come back as `true` and
`false`. -/
theorem add_then_get_counterexample :
    (postRepository sampleToDate (sampleService "pending") "u1"
      (sampleBody (.str " next ") (.num 9000)) sampleEnv).1.status = 201 ∧
    ((postRepository sampleToDate (sampleService "pending") "u1"
      (sampleBody (.str " next ") (.num 9000)) sampleEnv).2.getUserRepository "u1" "j2").map
        (fun v => (JsVal.str v.name, v.auto_init, v.isPrivate)) =
      some (.str "next", .bool true, .bool false) ∧
    ((sampleBody (.str " next ") (.num 9000)).name,
      (sampleBody (.str " next ") (.num 9000)).auto_init,
      (sampleBody (.str " next ") (.num 9000)).isPrivate) =
      (.str " next ", .undefined, .undefined) := by
  decide

/-- Claim C6, amended: for every add request that `POST /` answers with 201,
when the generated id is not yet in the collection,
`getUserRepository(userId, id)` called right after returns a job with the id
the add returned and status `pending` whose fields are the submitted values as
the route normalises them: `name` trimmed, `description` trimmed (empty when
absent), `scheduledDate` the instant the submitted value denotes, `private`
the submitted value or `false` when it is falsy, `auto_init` the boolean
`auto_init !== false`, `gitignore_template` the submitted value or `null` when
it is falsy; no result field is set. -/
theorem add_then_get (toDate : JsVal → Option Int) (s : SchedulerService) (userId : String)
    (body : ReqBody) (env : PostEnv)
    (hcreated : (postRepository toDate s userId body env).1.status = 201)
    (hfresh : ∀ r ∈ s.repositories, r.id ≠ env.uuid) :
    ∃ (name description : String) (date : Int) (returned : ScheduledView),
      body.name = .str name ∧
      descriptionOrEmpty body.description = some description ∧
      (∀ d, body.description = .str d → description = trim d) ∧
      toDate body.scheduledDate = some date ∧
      (postRepository toDate s userId body env).1.body =
        .scheduled "Repository scheduled successfully" returned ∧
      (postRepository toDate s userId body env).2.getUserRepository userId returned.id = some
        { id := returned.id
          name := trim name
          description := description
          scheduledDate := some date
          isPrivate := body.isPrivate.or (.bool false)
          auto_init := .bool (body.auto_init != .bool false)
          gitignore_template := body.gitignore_template.or .null
          status := "pending"
          createdAt := env.createdNow
          html_url := none
          actualCreatedAt := none
          error := none
          failedAt := none } := by
  obtain ⟨name, description, date, user, hn, _, hd, hdate, _, _, heq⟩ :=
    postRepository_created hcreated
  have hnone : s.repositories.find? (fun r => r.id == env.uuid && r.userId == some userId) = none := by
    rw [List.find?_eq_none]
    intro r hr
    simp [hfresh r hr]
  refine ⟨name, description, date,
    { id := env.uuid
      name := trim name
      description := description
      scheduledDate := some date
      isPrivate := body.isPrivate.or (.bool false)
      auto_init := .bool (body.auto_init != .bool false)
      gitignore_template := body.gitignore_template.or .null
      status := "pending"
      createdAt := env.createdNow }, hn, hd, ?_, hdate, ?_, ?_⟩
  · intro d hbd
    rw [hbd] at hd
    simp only [descriptionOrEmpty, Option.some.injEq] at hd
    rw [← hd]
    split <;> simp_all
  · rw [heq]
  · rw [heq]
    simp [SchedulerService.getUserRepository, List.find?_append, hnone, SchedulerService.view]

/-- Claim C6, witness: the round trip at the request of the counterexample. -/
theorem add_then_get_witness :
    ∃ (name description : String) (date : Int) (returned : ScheduledView),
      (sampleBody (.str " next ") (.num 9000)).name = .str name ∧
      descriptionOrEmpty (sampleBody (.str " next ") (.num 9000)).description = some description ∧
      (∀ d, (sampleBody (.str " next ") (.num 9000)).description = .str d → description = trim d) ∧
      sampleToDate (sampleBody (.str " next ") (.num 9000)).scheduledDate = some date ∧
      (postRepository sampleToDate (sampleService "pending") "u1"
        (sampleBody (.str " next ") (.num 9000)) sampleEnv).1.body =
        .scheduled "Repository scheduled successfully" returned ∧
      (postRepository sampleToDate (sampleService "pending") "u1"
        (sampleBody (.str " next ") (.num 9000)) sampleEnv).2.getUserRepository "u1" returned.id =
        some
        { id := returned.id
          name := trim name
          description := description
          scheduledDate := some date
          isPrivate := (sampleBody (.str " next ") (.num 9000)).isPrivate.or (.bool false)
          auto_init := .bool ((sampleBody (.str " next ") (.num 9000)).auto_init != .bool false)
          gitignore_template :=
            (sampleBody (.str " next ") (.num 9000)).gitignore_template.or .null
          status := "pending"
          createdAt := sampleEnv.createdNow
          html_url := none
          actualCreatedAt := none
          error := none
          failedAt := none } :=
  add_then_get sampleToDate (sampleService "pending") "u1"
    (sampleBody (.str " next ") (.num 9000)) sampleEnv (by decide) (by decide)

/-! ## C7, C8: the result of an execution -/

namespace SchedulerService

@[simp] theorem modifyAt_scheduledJobs (s : SchedulerService) (i : Nat) (f : Repo → Repo) :
    (s.modifyAt i f).scheduledJobs = s.scheduledJobs := rfl

@[simp] theorem modifyAt_armed (s : SchedulerService) (i : Nat) (f : Repo → Repo) :
    (s.modifyAt i f).armed = s.armed := rfl

/-- After the clean-up no timer carries the handle the entry held. -/
theorem cancelJob_armed {s : SchedulerService} {repoId : String} {e : String × Nat}
    (h : s.scheduledJobs.find? (fun e => e.1 == repoId) = some e) :
    ∀ t ∈ (s.cancelJob repoId).armed, t.handle ≠ e.2 := by
  intro t ht
  simp only [cancelJob, h, List.mem_filter] at ht
  simpa using ht.2

/-- The job a successful execution leaves under the id. -/
theorem createRepository_ok_find {s : SchedulerService} {repoId : String} {job : Repo}
    (h : s.repositories.find? (fun r => r.id == repoId) = some job)
    (url : String) (gid now : Int) :
    (s.createRepository repoId (.ok url gid) now).repositories.find? (fun r => r.id == repoId) =
      some (Repo.markCreated url gid now job.markCreating) ∧
    ∃ s1 : SchedulerService, s.createRepository repoId (.ok url gid) now = s1.cancelJob repoId ∧
      s1.scheduledJobs = s.scheduledJobs := by
  cases hi : findIndex s.repositories repoId with
  | none => rw [findIndex_eq_none.mp hi] at h; cases h
  | some i =>
    obtain ⟨r, hget, _, hfind⟩ := findIndex_some_get hi
    have hget1 : (s.repositories.modify Repo.markCreating i)[i]? = some r.markCreating := by
      simp [hget]
    have hi1 : findIndex (s.repositories.modify Repo.markCreating i) repoId = some i := by
      rw [findIndex_modify (f := Repo.markCreating) (fun _ => rfl)]; exact hi
    constructor
    · simp only [createRepository, createRepositoryTry, hi, saveRepositories_repositories,
        modifyAt_repositories, List.get?_eq_getElem?, hget1, cancelJob_repositories]
      rw [find?_modify_findIndex (f := Repo.markCreated url gid now) (fun _ => rfl) hi1,
        find?_modify_findIndex (f := Repo.markCreating) (fun _ => rfl) hi, h]
      rfl
    · simp only [createRepository, createRepositoryTry, hi, saveRepositories_repositories,
        modifyAt_repositories, List.get?_eq_getElem?, hget1]
      exact ⟨_, rfl, by simp⟩

/-- The job a failed execution leaves under the id. -/
theorem createRepository_err_find {s : SchedulerService} {repoId : String} {job : Repo}
    (h : s.repositories.find? (fun r => r.id == repoId) = some job)
    (e : AxiosError) (now : Int) :
    (s.createRepositoryTry repoId (.err e) now).2 = some e ∧
    (s.createRepository repoId (.err e) now).repositories.find? (fun r => r.id == repoId) =
      some (Repo.markFailed (errorText e) now job.markCreating) := by
  cases hi : findIndex s.repositories repoId with
  | none => rw [findIndex_eq_none.mp hi] at h; cases h
  | some i =>
    obtain ⟨r, hget, _, hfind⟩ := findIndex_some_get hi
    have hget1 : (s.repositories.modify Repo.markCreating i)[i]? = some r.markCreating := by
      simp [hget]
    have hi1 : findIndex (s.repositories.modify Repo.markCreating i) repoId = some i := by
      rw [findIndex_modify (f := Repo.markCreating) (fun _ => rfl)]; exact hi
    constructor
    · simp only [createRepositoryTry, hi, saveRepositories_repositories,
        modifyAt_repositories, List.get?_eq_getElem?, hget1]
    · simp only [createRepository, createRepositoryTry, hi, saveRepositories_repositories,
        modifyAt_repositories, List.get?_eq_getElem?, hget1, hi1, cancelJob_repositories]
      rw [find?_modify_findIndex (f := Repo.markFailed (errorText e) now) (fun _ => rfl) hi1,
        find?_modify_findIndex (f := Repo.markCreating) (fun _ => rfl) hi, h]
      rfl

end SchedulerService

namespace RepositoryScheduler

@[simp] theorem saveScheduledRepos_scheduledRepos (b : RepositoryScheduler) :
    b.saveScheduledRepos.scheduledRepos = b.scheduledRepos := rfl

@[simp] theorem modifyAt_scheduledRepos (b : RepositoryScheduler) (i : Nat) (f : Repo → Repo) :
    (b.modifyAt i f).scheduledRepos = b.scheduledRepos.modify f i := rfl

/-- The job a successful execution leaves under the id, in the browser. -/
theorem createRepository_ok_find_browser {b : RepositoryScheduler} {repoData job : Repo}
    (h : b.scheduledRepos.find? (fun r => r.id == repoData.id) = some job)
    (url : String) (now : Int) :
    (b.createRepository repoData (.ok url) now).scheduledRepos.find?
        (fun r => r.id == repoData.id) =
      some (Repo.markCreatedBrowser url now job.markCreating) := by
  cases hi : findIndex b.scheduledRepos repoData.id with
  | none => rw [findIndex_eq_none.mp hi] at h; cases h
  | some i =>
    obtain ⟨r, hget, _, hfind⟩ := findIndex_some_get hi
    have hlt : i < b.scheduledRepos.length := by
      rcases Nat.lt_or_ge i b.scheduledRepos.length with hlt | hge
      · exact hlt
      · rw [List.getElem?_eq_none hge] at hget; cases hget
    have hi1 : findIndex (b.scheduledRepos.modify Repo.markCreating i) repoData.id = some i := by
      rw [findIndex_modify (f := Repo.markCreating) (fun _ => rfl)]; exact hi
    simp only [createRepository, createRepositoryStart, hi, createRepositoryFinish,
      saveScheduledRepos_scheduledRepos, modifyAt_scheduledRepos, List.length_modify, hlt,
      if_true]
    rw [find?_modify_findIndex (f := Repo.markCreatedBrowser url now) (fun _ => rfl) hi1,
      find?_modify_findIndex (f := Repo.markCreating) (fun _ => rfl) hi, h]
    rfl

end RepositoryScheduler

/-- Claim C7: successful execution.  For every job that is `pending` (the
job the id denotes in the collection) and every creator answer that succeeds
with `html_url = u`, after `createRepository` the job has status `created` and
`html_url = u`, in the server and in the browser; on the server the id has no
entry in `scheduledJobs` any more and the timer that entry held is not
armed. -/
theorem createRepository_success (s : SchedulerService) (b : RepositoryScheduler)
    (repoId : String) (repoData : Repo) (url : String) (gid now : Int) :
    (∀ job, s.repositories.find? (fun r => r.id == repoId) = some job → job.status = "pending" →
      ∃ done, (s.createRepository repoId (.ok url gid) now).repositories.find?
          (fun r => r.id == repoId) = some done ∧
        done.status = "created" ∧ done.html_url = some url ∧
        (s.createRepository repoId (.ok url gid) now).hasJob repoId = false ∧
        ∀ e, s.scheduledJobs.find? (fun e => e.1 == repoId) = some e →
          ∀ t ∈ (s.createRepository repoId (.ok url gid) now).armed, t.handle ≠ e.2) ∧
    (∀ job, b.scheduledRepos.find? (fun r => r.id == repoData.id) = some job →
      job.status = "pending" →
      ∃ done, (b.createRepository repoData (.ok url) now).scheduledRepos.find?
          (fun r => r.id == repoData.id) = some done ∧
        done.status = "created" ∧ done.html_url = some url) := by
  constructor
  · intro job hjob _
    obtain ⟨hfind, s1, hs1, hjobs⟩ := SchedulerService.createRepository_ok_find hjob url gid now
    refine ⟨_, hfind, rfl, rfl, ?_, ?_⟩
    · rw [hs1]; exact SchedulerService.hasJob_cancelJob s1 repoId
    · intro e he
      rw [hs1]
      exact SchedulerService.cancelJob_armed (hjobs ▸ he)
  · intro job hjob _
    exact ⟨_, RepositoryScheduler.createRepository_ok_find_browser hjob url now, rfl, rfl⟩

/-- Claim C7, witness: the scenario of the specification, a creator that
succeeds with `http://x/y`, on a server job with an armed timer and on a
browser job. -/
theorem createRepository_success_witness :
    (∃ done, ((sampleArmed "pending").createRepository "j1" (.ok "http://x/y" 7)
          5000).repositories.find? (fun r => r.id == "j1") = some done ∧
        done.status = "created" ∧ done.html_url = some "http://x/y" ∧
        ((sampleArmed "pending").createRepository "j1" (.ok "http://x/y" 7) 5000).hasJob "j1"
          = false ∧
        ∀ e, (sampleArmed "pending").scheduledJobs.find? (fun e => e.1 == "j1") = some e →
          ∀ t ∈ ((sampleArmed "pending").createRepository "j1" (.ok "http://x/y" 7) 5000).armed,
            t.handle ≠ e.2) ∧
    (∃ done, (sampleBrowser.createRepository (browserRepo "2" "beta") (.ok "http://x/y")
          5000).scheduledRepos.find? (fun r => r.id == (browserRepo "2" "beta").id) = some done ∧
        done.status = "created" ∧ done.html_url = some "http://x/y") :=
  ⟨(createRepository_success (sampleArmed "pending") sampleBrowser "j1" (browserRepo "2" "beta")
      "http://x/y" 7 5000).1 (sampleRepo "pending") (by decide) (by decide),
   (createRepository_success (sampleArmed "pending") sampleBrowser "j1" (browserRepo "2" "beta")
      "http://x/y" 7 5000).2 (browserRepo "2" "beta") (by decide) (by decide)⟩

/-- Claim C8: failed execution on the server.  For every job that is
`pending` and every failing creator outcome `e`, the `try` block of
`createRepository` throws `e`, the `catch` block consumes it (the function
returns a state), and afterwards the job has status `failed`, not `pending`;
its `error` is the message of the API's error payload when the response
carries a non-empty one, and the transport error text otherwise. -/
theorem createRepository_failure (s : SchedulerService) (repoId : String) (job : Repo)
    (e : AxiosError) (now : Int)
    (hjob : s.repositories.find? (fun r => r.id == repoId) = some job)
    (hpending : job.status = "pending") :
    (s.createRepositoryTry repoId (.err e) now).2 = some e ∧
    ∃ done, (s.createRepository repoId (.err e) now).repositories.find?
        (fun r => r.id == repoId) = some done ∧
      done.status = "failed" ∧ done.status ≠ job.status ∧
      (∀ m, e.responseMessage = some m → m ≠ "" → done.error = some m) ∧
      (e.responseMessage = none ∨ e.responseMessage = some "" → done.error = some e.message) := by
  obtain ⟨htry, hfind⟩ := SchedulerService.createRepository_err_find hjob e now
  refine ⟨htry, _, hfind, rfl, ?_, ?_, ?_⟩
  · rw [hpending]
    show "failed" ≠ "pending"
    decide
  · intro m hm hne
    simp [Repo.markFailed, SchedulerService.errorText, hm, hne]
  · intro h
    rcases h with h | h <;> simp [Repo.markFailed, SchedulerService.errorText, h]

/-- Claim C8, witness: a creator that answers `name taken` leaves the job
`failed` with that message. -/
theorem createRepository_failure_witness :
    ((sampleService "pending").createRepositoryTry "j1" (.err nameTaken) 5000).2 = some nameTaken ∧
    ∃ done, ((sampleService "pending").createRepository "j1" (.err nameTaken)
        5000).repositories.find? (fun r => r.id == "j1") = some done ∧
      done.status = "failed" ∧ done.status ≠ (sampleRepo "pending").status ∧
      (∀ m, nameTaken.responseMessage = some m → m ≠ "" → done.error = some m) ∧
      (nameTaken.responseMessage = none ∨ nameTaken.responseMessage = some "" →
        done.error = some nameTaken.message) :=
  createRepository_failure (sampleService "pending") "j1" (sampleRepo "pending") nameTaken 5000
    (by decide) (by decide)

/-! ## C9: the error text in the local daemon -/

/-- Claim C9, the code at the failing input: the API refuses with the
payload message `name taken`; the daemon records `error.message`, the text of
the transport error, and not the message of the payload. -/
theorem daemon_records_transport_text :
    ((sampleDaemon "pending").createRepository (sampleRepo "pending") (.err nameTaken)
      5000).scheduledRepos.map (fun r => (r.status, r.error)) =
      [("failed", some "Request failed with status code 422")] ∧
    nameTaken.responseMessage = some "name taken" ∧
    ((sampleService "pending").createRepository "j1" (.err nameTaken) 5000).repositories.map
      (fun r => (r.status, r.error)) = [("failed", some "name taken")] := by
  decide

/-! ## C10: deleting a job that is being created -/

/-- Claim C10: `DELETE /:id` on a job of the caller whose status is
`creating` answers 400 and leaves the service state (collection, timers,
snapshot, trace) as it was; for an id that no job carries, and for an id that
is not the caller's, it answers 404 and changes nothing. -/
theorem deleteRepository_refuses_creating (s : SchedulerService) (userId repoId : String) :
    (∀ v, s.getUserRepository userId repoId = some v → v.status = "creating" →
      deleteRepository s userId repoId =
        (⟨400, .error "Cannot delete repository that is currently being created"⟩, s)) ∧
    ((∀ r ∈ s.repositories, r.id ≠ repoId) →
      deleteRepository s userId repoId = (⟨404, .error "Repository not found"⟩, s)) ∧
    (s.getUserRepository userId repoId = none →
      deleteRepository s userId repoId = (⟨404, .error "Repository not found"⟩, s)) := by
  refine ⟨?_, ?_, ?_⟩
  · intro v hv hc
    simp [deleteRepository, hv, hc]
  · intro h
    have hnone : s.getUserRepository userId repoId = none := by
      have : s.repositories.find? (fun r => r.id == repoId && r.userId == some userId) = none := by
        rw [List.find?_eq_none]
        intro r hr
        simp [h r hr]
      simp [SchedulerService.getUserRepository, this]
    simp [deleteRepository, hnone]
  · intro hnone
    simp [deleteRepository, hnone]

/-- Claim C10, witness: a job that is being created, an unknown id, and a
job asked for by another user. -/
theorem deleteRepository_refuses_creating_witness :
    deleteRepository (sampleArmed "creating") "u1" "j1" =
      (⟨400, .error "Cannot delete repository that is currently being created"⟩,
        sampleArmed "creating") ∧
    deleteRepository (sampleArmed "creating") "u1" "j9" =
      (⟨404, .error "Repository not found"⟩, sampleArmed "creating") ∧
    deleteRepository (sampleArmed "creating") "u2" "j1" =
      (⟨404, .error "Repository not found"⟩, sampleArmed "creating") :=
  ⟨(deleteRepository_refuses_creating (sampleArmed "creating") "u1" "j1").1
      (SchedulerService.view (sampleRepo "creating")) (by decide) (by decide),
   (deleteRepository_refuses_creating (sampleArmed "creating") "u1" "j9").2.1 (by decide),
   (deleteRepository_refuses_creating (sampleArmed "creating") "u2" "j1").2.2 (by decide)⟩

/-! ## C11: cancelling a pending job -/

namespace SchedulerService

theorem removeRepository_repositories (s : SchedulerService) (repoId : String) :
    (s.removeRepository repoId).repositories = s.repositories.filter (fun r => r.id != repoId) := by
  simp [removeRepository]

theorem removeRepository_findIndex (s : SchedulerService) (repoId : String) :
    findIndex (s.removeRepository repoId).repositories repoId = none := by
  rw [findIndex_eq_none, removeRepository_repositories, List.find?_eq_none]
  intro r hr
  simpa using (List.mem_filter.mp hr).2

theorem removeRepository_hasJob (s : SchedulerService) (repoId : String) :
    (s.removeRepository repoId).hasJob repoId = false := by
  have h := hasJob_cancelJob s repoId
  simpa [removeRepository, hasJob] using h

/-- Firing a timer whose job id is not in the collection changes neither
the collection nor the trace: only the timer itself goes. -/
theorem fire_unknown {s : SchedulerService} {handle : Nat} {t : Timer}
    (ht : s.armed.find? (fun t => t.handle == handle) = some t)
    (h : findIndex s.repositories t.repoId = none) (outcome : Outcome) (now : Int) :
    s.fire handle outcome now =
      { s with armed := s.armed.filter (fun t => t.handle != handle) } := by
  simp only [fire, ht]
  exact createRepository_unknown
    (s := { s with armed := s.armed.filter (fun t => t.handle != handle) }) h outcome now

end SchedulerService

/-- Claim C11: after `removeRepository(id)` no job with that id is in the
collection, the id has no entry in `scheduledJobs` and the timer that entry
held is not armed, and the other jobs are the ones before, in their order.  A
later `createRepository(id)` returns the state as it is (no request, no
change), and a timer for that id that still fires, such as the one second
timeout of an overdue job, only disappears from the armed timers. -/
theorem removeRepository_prevents_execution (s : SchedulerService) (repoId : String)
    (outcome : Outcome) (now : Int) (handle : Nat) :
    (∀ r ∈ (s.removeRepository repoId).repositories, r.id ≠ repoId) ∧
    (s.removeRepository repoId).hasJob repoId = false ∧
    (∀ e, s.scheduledJobs.find? (fun e => e.1 == repoId) = some e →
      ∀ t ∈ (s.removeRepository repoId).armed, t.handle ≠ e.2) ∧
    (s.removeRepository repoId).repositories =
      s.repositories.filter (fun r => r.id != repoId) ∧
    (s.removeRepository repoId).createRepository repoId outcome now =
      s.removeRepository repoId ∧
    (∀ t, (s.removeRepository repoId).armed.find? (fun t => t.handle == handle) = some t →
      t.repoId = repoId →
      (s.removeRepository repoId).fire handle outcome now =
        { s.removeRepository repoId with
          armed := (s.removeRepository repoId).armed.filter (fun t => t.handle != handle) }) := by
  refine ⟨?_, SchedulerService.removeRepository_hasJob s repoId, ?_,
    SchedulerService.removeRepository_repositories s repoId,
    SchedulerService.createRepository_unknown
      (SchedulerService.removeRepository_findIndex s repoId) outcome now, ?_⟩
  · intro r hr
    rw [SchedulerService.removeRepository_repositories] at hr
    simpa using (List.mem_filter.mp hr).2
  · intro e he t ht
    have h := SchedulerService.cancelJob_armed he
    apply h t
    simpa [SchedulerService.removeRepository] using ht
  · intro t ht hid
    apply SchedulerService.fire_unknown ht
    rw [hid]
    exact SchedulerService.removeRepository_findIndex s repoId

/-- Claim C11, witness: job `j1` has an armed node-schedule job in one
store and a pending one second timeout in the other; removing it cancels the
former, and the timeout, when it fires, finds no job. -/
theorem removeRepository_prevents_execution_witness :
    (∀ t ∈ ((sampleArmed "pending").removeRepository "j1").armed, t.handle ≠ 0) ∧
    (sampleOverdue.removeRepository "j1").fire 0 (.ok "http://x/y" 7) 5000 =
      { sampleOverdue.removeRepository "j1" with
        armed := (sampleOverdue.removeRepository "j1").armed.filter (fun t => t.handle != 0) } :=
  ⟨(removeRepository_prevents_execution (sampleArmed "pending") "j1" (.ok "http://x/y" 7) 5000
      0).2.2.1 ("j1", 0) (by decide),
   (removeRepository_prevents_execution sampleOverdue "j1" (.ok "http://x/y" 7) 5000 0).2.2.2.2.2
      { handle := 0, repoId := "j1", fireAt := 3000, timeout := true } (by decide) (by decide)⟩

/-! ## C12: updates -/

theorem map_modify_of_eq {β : Type} (g : Repo → β) {f : Repo → Repo} (hf : ∀ r, g (f r) = g r)
    (repos : List Repo) (i : Nat) : (repos.modify f i).map g = repos.map g := by
  induction repos generalizing i with
  | nil => simp
  | cons r rs ih =>
    cases i with
    | zero => rw [List.modify_zero_cons]; simp [hf]
    | succ n => rw [List.modify_succ_cons]; simp [ih]

/-- A `PUT /:id` whose `scheduledDate` is falsy builds an `updateData`
without that key. -/
theorem buildUpdateData_no_date {toDate : JsVal → Option Int} {body : ReqBody} {u : UpdateData}
    (hfalsy : body.scheduledDate.truthy = false) (h : buildUpdateData toDate body = some u) :
    u.scheduledDate = none := by
  unfold buildUpdateData at h
  simp only [hfalsy, Bool.false_eq_true, if_false] at h
  split at h
  · next n d sd _ _ hsd =>
    simp only [Option.some.injEq] at h hsd
    rw [← h, ← hsd]
  · cases h

/-- An update without `scheduledDate` leaves every stored date as it is. -/
theorem updateRepository_dates {s s1 : SchedulerService} {repoId : String} {u : UpdateData}
    {now : Int} {repo : Repo} (hu : u.scheduledDate = none)
    (h : s.updateRepository repoId u now = some (repo, s1)) :
    s1.repositories.map (fun r => r.scheduledDate) =
      s.repositories.map (fun r => r.scheduledDate) := by
  unfold SchedulerService.updateRepository at h
  split at h
  · cases h
  · next i _ =>
    simp only [hu, Option.isSome_none, Bool.false_and, Bool.and_false, Bool.false_eq_true,
      if_false] at h
    split at h
    · cases h
    · simp only [Option.some.injEq, Prod.mk.injEq] at h
      rw [← h.2]
      simp only [SchedulerService.saveRepositories_repositories,
        SchedulerService.modifyAt_repositories]
      exact map_modify_of_eq (fun r => r.scheduledDate)
        (fun r => by simp [SchedulerService.assign, hu]) _ _

/-- Claim C12, counterexample: `PUT /j1` with the body
`{name: "next", scheduledDate: 0}` on a pending job, at clock 500.  The date is
the epoch, which is not in the future, but the route tests
`scheduledDate && ...` and `0` is falsy: the request is answered 200 and the
name of the job is changed. -/
theorem putRepository_accepts_epoch_date :
    sampleToDate (sampleBody (.str "next") (.num 0)).scheduledDate = some 0 ∧
    (0 : Int) ≤ 500 ∧
    (putRepository sampleToDate (sampleService "pending") "u1" "j1"
      (sampleBody (.str "next") (.num 0)) 500 502).1.status = 200 ∧
    (sampleService "pending").repositories.map (fun r => (r.id, r.name, r.scheduledDate)) =
      [("j1", "demo", some 1000)] ∧
    (putRepository sampleToDate (sampleService "pending") "u1" "j1"
      (sampleBody (.str "next") (.num 0)) 500 502).2.repositories.map
      (fun r => (r.id, r.name, r.scheduledDate)) = [("j1", "next", some 1000)] := by
  decide

/-- Claim C12, amended: `PUT /:id` answers 404 when the caller has no job
with that id and 400 when the job is not `pending`, and in both cases returns
the service state it was called in.  A truthy `scheduledDate` that denotes an
instant not later than the clock is rejected (400, or 404 when the job is
unknown) with the state unchanged; a falsy `scheduledDate` counts as not
submitted and leaves the stored date of every job as it is. -/
theorem putRepository_only_pending (toDate : JsVal → Option Int) (s : SchedulerService)
    (userId repoId : String) (body : ReqBody) (now scheduleNow : Int) :
    (s.getUserRepository userId repoId = none →
      putRepository toDate s userId repoId body now scheduleNow =
        (⟨404, .error "Repository not found"⟩, s)) ∧
    (∀ v, s.getUserRepository userId repoId = some v → v.status ≠ "pending" →
      putRepository toDate s userId repoId body now scheduleNow =
        (⟨400, .error "Can only update pending repositories"⟩, s)) ∧
    (∀ d, body.scheduledDate.truthy = true → toDate body.scheduledDate = some d → d ≤ now →
      (putRepository toDate s userId repoId body now scheduleNow).2 = s ∧
      ((putRepository toDate s userId repoId body now scheduleNow).1.status = 400 ∨
        (putRepository toDate s userId repoId body now scheduleNow).1.status = 404)) ∧
    (body.scheduledDate.truthy = false →
      (putRepository toDate s userId repoId body now scheduleNow).2.repositories.map
        (fun r => r.scheduledDate) = s.repositories.map (fun r => r.scheduledDate)) := by
  refine ⟨?_, ?_, ?_, ?_⟩
  · intro h
    simp [putRepository, h]
  · intro v hv hne
    simp [putRepository, hv, hne]
  · intro d htruthy hd hle
    have hdue : dateLe (some d) (some now) = true := by simp [dateLe, hle]
    cases hv : s.getUserRepository userId repoId with
    | none => simp [putRepository, hv]
    | some v =>
      by_cases hp : v.status = "pending"
      · simp [putRepository, hv, hp, htruthy, hd, hdue]
      · simp [putRepository, hv, hp]
  · intro hfalsy
    cases hv : s.getUserRepository userId repoId with
    | none => simp [putRepository, hv]
    | some v =>
      by_cases hp : v.status = "pending"
      swap
      · simp [putRepository, hv, hp]
      cases hb : buildUpdateData toDate body with
      | none => simp [putRepository, hv, hp, hfalsy, hb]
      | some u =>
        cases hup : s.updateRepository repoId u scheduleNow with
        | none => simp [putRepository, hv, hp, hfalsy, hb, hup]
        | some res =>
          obtain ⟨repo, s1⟩ := res
          simp only [putRepository, hv, hp, hfalsy, hb, hup, ne_eq, not_true_eq_false,
            decide_False, Bool.false_and, Bool.false_eq_true, if_false]
          exact updateRepository_dates (buildUpdateData_no_date hfalsy hb) hup

/-- Claim C12, amended, witness: an unknown id, a job that is `created`, a pending
job with a past date, and a pending job renamed without a date. -/
theorem putRepository_only_pending_witness :
    putRepository sampleToDate (sampleService "pending") "u1" "j9"
        (sampleBody (.str "next") (.num 9000)) 500 502 =
      (⟨404, .error "Repository not found"⟩, sampleService "pending") ∧
    putRepository sampleToDate (sampleService "created") "u1" "j1"
        (sampleBody (.str "next") (.num 9000)) 500 502 =
      (⟨400, .error "Can only update pending repositories"⟩, sampleService "created") ∧
    ((putRepository sampleToDate (sampleService "pending") "u1" "j1"
        (sampleBody (.str "next") (.num 400)) 500 502).2 = sampleService "pending" ∧
      ((putRepository sampleToDate (sampleService "pending") "u1" "j1"
          (sampleBody (.str "next") (.num 400)) 500 502).1.status = 400 ∨
        (putRepository sampleToDate (sampleService "pending") "u1" "j1"
          (sampleBody (.str "next") (.num 400)) 500 502).1.status = 404)) ∧
    (putRepository sampleToDate (sampleService "pending") "u1" "j1"
        (sampleBody (.str "next") .undefined) 500 502).2.repositories.map
        (fun r => r.scheduledDate) =
      (sampleService "pending").repositories.map (fun r => r.scheduledDate) :=
  ⟨(putRepository_only_pending sampleToDate (sampleService "pending") "u1" "j9"
      (sampleBody (.str "next") (.num 9000)) 500 502).1 (by decide),
   (putRepository_only_pending sampleToDate (sampleService "created") "u1" "j1"
      (sampleBody (.str "next") (.num 9000)) 500 502).2.1
      (SchedulerService.view (sampleRepo "created")) (by decide) (by decide),
   (putRepository_only_pending sampleToDate (sampleService "pending") "u1" "j1"
      (sampleBody (.str "next") (.num 400)) 500 502).2.2.1 400 (by decide) (by decide)
      (by decide),
   (putRepository_only_pending sampleToDate (sampleService "pending") "u1" "j1"
      (sampleBody (.str "next") .undefined) 500 502).2.2.2 (by decide)⟩

/-! ## C13: timers of a rescheduled job -/

/-- Claim C13, the code at the failing input: the pending job `j1` is
overdue when it is scheduled, so its timer is a one second timeout that
`scheduledJobs` does not record.  Rescheduling it to instant 9000, through
`updateRepository` or through `PUT /:id`, cancels nothing and arms a
node-schedule job: two timers are armed for the pending job, and the timeout
still fires at 3000 and executes the job. -/
theorem updateRepository_keeps_timeout_armed :
    (sampleOverdue.timersOf "j1").map (fun t => (t.timeout, t.fireAt)) = [(true, 3000)] ∧
    sampleOverdue.hasJob "j1" = false ∧
    (sampleOverdue.updateRepository "j1" (rescheduleTo 9000) 2001).map
      (fun p => (p.1.status, (p.2.timersOf "j1").map (fun t => (t.timeout, t.fireAt)))) =
      some ("pending", [(true, 3000), (false, 9000)]) ∧
    (putRepository sampleToDate sampleOverdue "u1" "j1" (sampleBody .undefined (.num 9000))
      2001 2002).1.status = 200 ∧
    ((putRepository sampleToDate sampleOverdue "u1" "j1" (sampleBody .undefined (.num 9000))
      2001 2002).2.timersOf "j1").length = 2 ∧
    (requestsOf (((putRepository sampleToDate sampleOverdue "u1" "j1"
      (sampleBody .undefined (.num 9000)) 2001 2002).2.fire 0 (.ok "http://x/y" 7) 3000).log)).length
      = 1 := by
  decide

/-! ## C14: immediate creation -/

namespace SchedulerService

/-- The collection `createRepository` leaves depends on the collection it
finds only. -/
theorem createRepository_repositories_congr {s s' : SchedulerService}
    (h : s.repositories = s'.repositories) (repoId : String) (outcome : Outcome) (now : Int) :
    (s.createRepository repoId outcome now).repositories =
      (s'.createRepository repoId outcome now).repositories := by
  cases hi : findIndex s.repositories repoId with
  | none =>
    have hi' : findIndex s'.repositories repoId = none := h ▸ hi
    rw [createRepository_unknown hi, createRepository_unknown hi']
    exact h
  | some i =>
    have hi' : findIndex s'.repositories repoId = some i := h ▸ hi
    obtain ⟨r, hget, _, _⟩ := findIndex_some_get hi
    have hget' : s'.repositories[i]? = some r := h ▸ hget
    have hget1 : (s.repositories.modify Repo.markCreating i)[i]? = some r.markCreating := by
      simp [hget]
    have hget1' : (s'.repositories.modify Repo.markCreating i)[i]? = some r.markCreating := by
      simp [hget']
    have hi1 : findIndex (s.repositories.modify Repo.markCreating i) repoId = some i := by
      rw [findIndex_modify (f := Repo.markCreating) (fun _ => rfl)]; exact hi
    have hi1' : findIndex (s'.repositories.modify Repo.markCreating i) repoId = some i := by
      rw [findIndex_modify (f := Repo.markCreating) (fun _ => rfl)]; exact hi'
    cases outcome with
    | ok url gid =>
      simp only [createRepository, createRepositoryTry, hi, hi', saveRepositories_repositories,
        modifyAt_repositories, List.get?_eq_getElem?, hget1, hget1', cancelJob_repositories, h]
    | err e =>
      simp only [createRepository, createRepositoryTry, hi, hi', saveRepositories_repositories,
        modifyAt_repositories, List.get?_eq_getElem?, hget1, hget1', hi1, hi1',
        cancelJob_repositories, h]

end SchedulerService

/-- Claim C14: `POST /:id/create-now` on a job of the caller that is not
`pending` answers 400 and returns the service state it was called in (no
request, no change).  On a `pending` job it answers 200 and the state is the
one `createRepository(id)` leaves, the function a firing timer calls: the
collection is the one the firing of a timer of that id leaves, and the job
ends `created` when the creator succeeds and `failed` when it fails. -/
theorem createNow_guarded (s : SchedulerService) (userId repoId : String) (outcome : Outcome)
    (now : Int) :
    (∀ v, s.getUserRepository userId repoId = some v → v.status ≠ "pending" →
      createNow s userId repoId outcome now =
        (⟨400, .error "Can only create pending repositories"⟩, s)) ∧
    (∀ v, s.getUserRepository userId repoId = some v → v.status = "pending" →
      createNow s userId repoId outcome now =
        (⟨200, .message "Repository creation started"⟩, s.createRepository repoId outcome now) ∧
      (∀ handle t, s.armed.find? (fun t => t.handle == handle) = some t → t.repoId = repoId →
        (s.fire handle outcome now).repositories =
          (createNow s userId repoId outcome now).2.repositories) ∧
      ∃ done, (createNow s userId repoId outcome now).2.repositories.find?
          (fun r => r.id == repoId) = some done ∧
        (∀ url gid, outcome = .ok url gid → done.status = "created" ∧ done.html_url = some url) ∧
        (∀ e, outcome = .err e → done.status = "failed")) := by
  constructor
  · intro v hv hne
    simp [createNow, hv, hne]
  · intro v hv hp
    have heq : createNow s userId repoId outcome now =
        (⟨200, .message "Repository creation started"⟩, s.createRepository repoId outcome now) := by
      simp [createNow, hv, hp, SchedulerService.createRepositoryNow]
    refine ⟨heq, ?_, ?_⟩
    · intro handle t ht hid
      rw [heq]
      simp only [SchedulerService.fire, ht, hid]
      exact SchedulerService.createRepository_repositories_congr
        (show ({ s with armed := s.armed.filter (fun t => t.handle != handle) } :
          SchedulerService).repositories = s.repositories from rfl) repoId outcome now
    · rw [heq]
      have hfound : ∃ job, s.repositories.find? (fun r => r.id == repoId) = some job := by
        simp only [SchedulerService.getUserRepository] at hv
        split at hv
        · cases hv
        · next repo hrepo =>
          have hmem := List.mem_of_find?_eq_some hrepo
          have hid : (repo.id == repoId) = true := by
            have := List.find?_some hrepo
            simp only [Bool.and_eq_true] at this
            exact this.1
          cases hf : s.repositories.find? (fun r => r.id == repoId) with
          | some job => exact ⟨job, rfl⟩
          | none =>
            rw [List.find?_eq_none] at hf
            exact absurd hid (hf repo hmem)
      obtain ⟨job, hjob⟩ := hfound
      cases outcome with
      | ok url gid =>
        refine ⟨_, (SchedulerService.createRepository_ok_find hjob url gid now).1, ?_, ?_⟩
        · intro url' gid' h
          cases h
          exact ⟨rfl, rfl⟩
        · intro e h
          cases h
      | err e =>
        refine ⟨_, (SchedulerService.createRepository_err_find hjob e now).2, ?_, ?_⟩
        · intro url gid h
          cases h
        · intro e' _
          rfl

/-- Claim C14, witness: a job that is `failed` is refused; a pending job
with an armed timer is created as the firing of that timer would create it. -/
theorem createNow_guarded_witness :
    createNow (sampleArmed "failed") "u1" "j1" (.ok "http://x/y" 7) 5000 =
      (⟨400, .error "Can only create pending repositories"⟩, sampleArmed "failed") ∧
    createNow (sampleArmed "pending") "u1" "j1" (.ok "http://x/y" 7) 5000 =
      (⟨200, .message "Repository creation started"⟩,
        (sampleArmed "pending").createRepository "j1" (.ok "http://x/y" 7) 5000) ∧
    ((sampleArmed "pending").fire 0 (.ok "http://x/y" 7) 5000).repositories =
      (createNow (sampleArmed "pending") "u1" "j1" (.ok "http://x/y" 7) 5000).2.repositories :=
  ⟨(createNow_guarded (sampleArmed "failed") "u1" "j1" (.ok "http://x/y" 7) 5000).1
      (SchedulerService.view (sampleRepo "failed")) (by decide) (by decide),
   ((createNow_guarded (sampleArmed "pending") "u1" "j1" (.ok "http://x/y" 7) 5000).2
      (SchedulerService.view (sampleRepo "pending")) (by decide) (by decide)).1,
   ((createNow_guarded (sampleArmed "pending") "u1" "j1" (.ok "http://x/y" 7) 5000).2
      (SchedulerService.view (sampleRepo "pending")) (by decide) (by decide)).2.1 0
      { handle := 0, repoId := "j1", fireAt := 1000, timeout := false } (by decide) (by decide)⟩

/-! ## C15: start of the server -/

namespace SchedulerService

theorem scheduleExistingRepositories_empty (s : SchedulerService) (clock : Repo → Int)
    (h : s.repositories = []) : s.scheduleExistingRepositories clock = s := by
  simp [scheduleExistingRepositories, h]

end SchedulerService

/-- Claim C15, the code on every snapshot: `scheduleExistingRepositories()`
runs in the constructor while `this.repositories` is still `[]`, because
`loadRepositories()` is `async` and is not awaited.  When the load completes
the collection equals the snapshot, but no timer is armed and `scheduledJobs`
is empty, whatever pending jobs the snapshot holds. -/
theorem construct_arms_no_timer (snapshot : List Repo) (writable : Bool) (clock : Repo → Int) :
    (SchedulerService.construct snapshot writable clock).repositories = snapshot ∧
    (SchedulerService.construct snapshot writable clock).armed = [] ∧
    (SchedulerService.construct snapshot writable clock).scheduledJobs = [] ∧
    (SchedulerService.constructorBody snapshot writable clock).repositories = [] := by
  simp [SchedulerService.construct, SchedulerService.constructorBody,
    SchedulerService.loadRepositoriesResume, SchedulerService.scheduleExistingRepositories]

/-! ## C16: start of the local daemon -/

namespace RepositorySchedulerService

theorem scheduleRepo_scheduledRepos (d : RepositorySchedulerService) (repo : Repo) (now : Int) :
    (d.scheduleRepo repo now).scheduledRepos = d.scheduledRepos ∧
    (d.scheduleRepo repo now).log = d.log ∧
    (d.scheduleRepo repo now).githubToken = d.githubToken := by
  unfold scheduleRepo
  split
  · split <;> simp
  · simp

/-- What `scheduleRepo` does to the armed timers: nothing, or one timer more
with a fresh handle, which for an overdue job is a one second timeout. -/
theorem scheduleRepo_armed (d : RepositorySchedulerService) (repo : Repo) (now : Int) :
    ((d.scheduleRepo repo now).armed = d.armed ∧ (d.scheduleRepo repo now).nextHandle = d.nextHandle ∧
        repo.scheduledDate = none) ∨
    ∃ t, (d.scheduleRepo repo now).armed = d.armed ++ [t] ∧
      (d.scheduleRepo repo now).nextHandle = d.nextHandle + 1 ∧
      t.handle = d.nextHandle ∧ t.repo = repo ∧
      ∀ date, repo.scheduledDate = some date → date ≤ now →
        t.timeout = true ∧ t.fireAt = now + 1000 := by
  unfold scheduleRepo
  split
  · next date hdate =>
    right
    split
    · next hle => exact ⟨_, rfl, rfl, rfl, rfl, fun _ _ _ => ⟨rfl, rfl⟩⟩
    · next hgt =>
      refine ⟨_, rfl, rfl, rfl, rfl, ?_⟩
      intro date' h' hle'
      rw [hdate] at h'
      cases h'
      exact absurd hle' hgt
  · next hnone => exact Or.inl ⟨rfl, rfl, hnone⟩

theorem scheduleRepo_fresh {d : RepositorySchedulerService} (h : d.HandlesFresh) (repo : Repo)
    (now : Int) : (d.scheduleRepo repo now).HandlesFresh := by
  rcases scheduleRepo_armed d repo now with ⟨ha, hn, _⟩ | ⟨t, ha, hn, hh, _, _⟩
  · unfold HandlesFresh
    rw [ha, hn]
    exact h
  · unfold HandlesFresh
    rw [ha, hn]
    constructor
    · intro t' ht'
      rcases List.mem_append.mp ht' with hmem | hmem
      · exact Nat.lt_succ_of_lt (h.1 t' hmem)
      · simp only [List.mem_singleton] at hmem
        rw [hmem, hh]
        exact Nat.lt_succ_self _
    · rw [List.map_append, List.nodup_append]
      refine ⟨h.2, by simp, ?_⟩
      intro a ha1 ha2
      simp only [List.map_cons, List.map_nil, List.mem_singleton] at ha2
      obtain ⟨t', ht', rfl⟩ := List.mem_map.mp ha1
      have := h.1 t' ht'
      omega

/-- The loop of `scheduleExistingRepos` over a list of jobs. -/
theorem foldl_scheduleRepo (clock : Repo → Int) (jobs : List Repo)
    (d : RepositorySchedulerService) (h : d.HandlesFresh) :
    (jobs.foldl (fun acc repo => acc.scheduleRepo repo (clock repo)) d).HandlesFresh ∧
    (jobs.foldl (fun acc repo => acc.scheduleRepo repo (clock repo)) d).scheduledRepos =
      d.scheduledRepos ∧
    (jobs.foldl (fun acc repo => acc.scheduleRepo repo (clock repo)) d).log = d.log ∧
    (jobs.foldl (fun acc repo => acc.scheduleRepo repo (clock repo)) d).githubToken =
      d.githubToken ∧
    (∀ t ∈ d.armed, t ∈ (jobs.foldl (fun acc repo => acc.scheduleRepo repo (clock repo)) d).armed) ∧
    (∀ t ∈ (jobs.foldl (fun acc repo => acc.scheduleRepo repo (clock repo)) d).armed,
      t ∈ d.armed ∨ t.repo ∈ jobs) ∧
    (∀ repo ∈ jobs, ∀ date, repo.scheduledDate = some date → date ≤ clock repo →
      ∃ t ∈ (jobs.foldl (fun acc repo => acc.scheduleRepo repo (clock repo)) d).armed,
        t.repo = repo ∧ t.timeout = true ∧ t.fireAt = clock repo + 1000) := by
  induction jobs generalizing d with
  | nil =>
    exact ⟨h, rfl, rfl, rfl, fun _ ht => ht, fun _ ht => Or.inl ht,
      fun _ hr => absurd hr (List.not_mem_nil _)⟩
  | cons job rest ih =>
    simp only [List.foldl_cons]
    obtain ⟨hf, hrepos, hlog, htok, hkeep, hfrom, harm⟩ :=
      ih (d.scheduleRepo job (clock job)) (scheduleRepo_fresh h job (clock job))
    obtain ⟨e1, e2, e3⟩ := scheduleRepo_scheduledRepos d job (clock job)
    have hstep := scheduleRepo_armed d job (clock job)
    refine ⟨hf, hrepos.trans e1, hlog.trans e2, htok.trans e3, ?_, ?_, ?_⟩
    · intro t ht
      apply hkeep
      rcases hstep with ⟨ha, _, _⟩ | ⟨t', ha, _⟩
      · rw [ha]; exact ht
      · rw [ha]; exact List.mem_append_left _ ht
    · intro t ht
      rcases hfrom t ht with hmem | hmem
      · rcases hstep with ⟨ha, _, _⟩ | ⟨t', ha, _, _, hrepo, _⟩
        · rw [ha] at hmem; exact Or.inl hmem
        · rw [ha] at hmem
          rcases List.mem_append.mp hmem with hm | hm
          · exact Or.inl hm
          · simp only [List.mem_singleton] at hm
            right
            rw [hm, hrepo]
            exact List.mem_cons_self _ _
      · exact Or.inr (List.mem_cons_of_mem _ hmem)
    · intro repo hrepo date hdate hle
      rcases List.mem_cons.mp hrepo with heq | hin
      · subst heq
        rcases hstep with ⟨_, _, hnone⟩ | ⟨t', ha, _, _, hr, hto⟩
        · rw [hnone] at hdate; cases hdate
        · refine ⟨t', hkeep t' ?_, hr, hto date hdate hle⟩
          rw [ha]
          exact List.mem_append_right _ (List.mem_singleton_self _)
      · exact harm repo hin date hdate hle

theorem find?_handle {armed : List RepoTimer} (hnodup : (armed.map (fun t => t.handle)).Nodup)
    {t : RepoTimer} (ht : t ∈ armed) :
    armed.find? (fun x => x.handle == t.handle) = some t := by
  induction armed with
  | nil => cases ht
  | cons a rest ih =>
    simp only [List.map_cons, List.nodup_cons] at hnodup
    rcases List.mem_cons.mp ht with heq | hin
    · subst heq
      simp
    · have hne : (a.handle == t.handle) = false := by
        simp only [beq_eq_false_iff_ne, ne_eq]
        intro heq
        exact hnodup.1 (heq ▸ List.mem_map_of_mem _ hin)
      simp only [List.find?_cons, hne]
      exact ih hnodup.2 hin

end RepositorySchedulerService

namespace RepositorySchedulerService

@[simp] theorem saveScheduledRepos_scheduledRepos_daemon (d : RepositorySchedulerService) :
    d.saveScheduledRepos.scheduledRepos = d.scheduledRepos := by
  unfold saveScheduledRepos; split <;> rfl

@[simp] theorem saveScheduledRepos_githubToken (d : RepositorySchedulerService) :
    d.saveScheduledRepos.githubToken = d.githubToken := by
  unfold saveScheduledRepos; split <;> rfl

@[simp] theorem saveScheduledRepos_log (d : RepositorySchedulerService) :
    d.saveScheduledRepos.log = d.log ++ [Effect.write d.scheduledRepos d.writable] := by
  unfold saveScheduledRepos; split <;> simp_all

@[simp] theorem cancelJob_scheduledRepos (d : RepositorySchedulerService) (repoId : String) :
    (d.cancelJob repoId).scheduledRepos = d.scheduledRepos := by
  unfold cancelJob; split <;> rfl

@[simp] theorem cancelJob_log_daemon (d : RepositorySchedulerService) (repoId : String) :
    (d.cancelJob repoId).log = d.log := by
  unfold cancelJob; split <;> rfl

@[simp] theorem modifyAt_scheduledRepos_daemon (d : RepositorySchedulerService) (i : Nat)
    (f : Repo → Repo) : (d.modifyAt i f).scheduledRepos = d.scheduledRepos.modify f i := rfl

@[simp] theorem modifyAt_log_daemon (d : RepositorySchedulerService) (i : Nat)
    (f : Repo → Repo) : (d.modifyAt i f).log = d.log := rfl

@[simp] theorem modifyAt_githubToken (d : RepositorySchedulerService) (i : Nat)
    (f : Repo → Repo) : (d.modifyAt i f).githubToken = d.githubToken := rfl

/-- With a token and the job in the list, `createRepository(repo)` issues
the request for `repo` and leaves the job under that id `created` or
`failed`. -/
theorem createRepository_executes {d : RepositorySchedulerService} {repo : Repo}
    (htoken : tokenTruthy d.githubToken = true)
    (hmem : ∃ r ∈ d.scheduledRepos, r.id = repo.id) (outcome : Outcome) (now : Int) :
    Effect.request (buildRequest (d.githubToken.getD "null") repo) ∈
      (d.createRepository repo outcome now).log ∧
    ∃ done, (d.createRepository repo outcome now).scheduledRepos.find?
        (fun r => r.id == repo.id) = some done ∧
      (done.status = "created" ∨ done.status = "failed") := by
  cases hi : findIndex d.scheduledRepos repo.id with
  | none =>
    rw [findIndex_eq_none, List.find?_eq_none] at hi
    obtain ⟨r, hr, hid⟩ := hmem
    exact absurd (by simpa using hid) (hi r hr)
  | some i =>
    obtain ⟨r, hget, _, hfind⟩ := findIndex_some_get hi
    have hlt : i < d.scheduledRepos.length := by
      rcases Nat.lt_or_ge i d.scheduledRepos.length with hlt | hge
      · exact hlt
      · rw [List.getElem?_eq_none hge] at hget; cases hget
    have hi1 : findIndex (d.scheduledRepos.modify Repo.markCreating i) repo.id = some i := by
      rw [findIndex_modify (f := Repo.markCreating) (fun _ => rfl)]; exact hi
    cases outcome with
    | ok url gid =>
      constructor
      · simp [createRepository, createRepositoryStart, htoken, hi, createRepositoryFinish, hlt]
      · simp only [createRepository, createRepositoryStart, htoken, hi, createRepositoryFinish,
          saveScheduledRepos_scheduledRepos_daemon, modifyAt_scheduledRepos_daemon, List.length_modify,
          hlt, if_true, cancelJob_scheduledRepos, Bool.not_true, Bool.false_eq_true, if_false]
        rw [find?_modify_findIndex (f := Repo.markCreatedDaemon url now) (fun _ => rfl) hi1,
          find?_modify_findIndex (f := Repo.markCreating) (fun _ => rfl) hi, hfind]
        exact ⟨_, rfl, Or.inl rfl⟩
    | err e =>
      constructor
      · simp [createRepository, createRepositoryStart, htoken, hi, createRepositoryFinish,
          createRepositoryCatch, hi1]
      · simp only [createRepository, createRepositoryStart, htoken, hi, createRepositoryFinish,
          createRepositoryCatch, saveScheduledRepos_scheduledRepos_daemon, modifyAt_scheduledRepos_daemon,
          hi1, cancelJob_scheduledRepos, Bool.not_true, Bool.false_eq_true, if_false]
        rw [find?_modify_findIndex (f := Repo.markFailed e.message now) (fun _ => rfl) hi1,
          find?_modify_findIndex (f := Repo.markCreating) (fun _ => rfl) hi, hfind]
        exact ⟨_, rfl, Or.inr rfl⟩

/-- The daemon right after construction over a readable data file. -/
theorem construct_content (token : Option String) (repos : List Repo) (writable : Bool)
    (clock : Repo → Int) :
    (construct token (.content repos) writable clock).HandlesFresh ∧
    (construct token (.content repos) writable clock).scheduledRepos = repos ∧
    (construct token (.content repos) writable clock).log = [] ∧
    (construct token (.content repos) writable clock).githubToken = token ∧
    (∀ t ∈ (construct token (.content repos) writable clock).armed,
      t.repo ∈ repos.filter (fun repo => repo.status == "pending")) ∧
    (∀ repo ∈ repos.filter (fun repo => repo.status == "pending"),
      ∀ date, repo.scheduledDate = some date → date ≤ clock repo →
      ∃ t ∈ (construct token (.content repos) writable clock).armed,
        t.repo = repo ∧ t.timeout = true ∧ t.fireAt = clock repo + 1000) := by
  have hfresh0 : HandlesFresh
      { githubToken := token, scheduledRepos := repos, scheduledJobs := [], armed := [],
        nextHandle := 0, dataFile := repos, writable := writable, log := [] } :=
    ⟨fun _ h => absurd h (List.not_mem_nil _), List.nodup_nil⟩
  obtain ⟨hf, hrepos, hlog, htok, _, hfrom, harm⟩ :=
    foldl_scheduleRepo clock (repos.filter (fun repo => repo.status == "pending")) _ hfresh0
  refine ⟨hf, hrepos, hlog, htok, ?_, harm⟩
  intro t ht
  rcases hfrom t ht with h | h
  · cases h
  · exact h

end RepositorySchedulerService

/-- Claim C16: the local daemon constructed over a snapshot that holds a
pending job whose date is not later than the clock at start.  Construction
executes nothing (the collection is the snapshot, the trace is empty) and arms
timers for pending jobs only.  For the overdue job it arms a timeout of one
second, less than ten seconds; when that timeout fires, `createRepository` runs
on the job with no further call, and with a token configured it issues the
creation request for the job and leaves it `created` or `failed`. -/
theorem daemon_construct_arms_overdue (token : Option String) (repos : List Repo)
    (writable : Bool) (clock : Repo → Int) (start : Int) (job : Repo) (date : Int)
    (outcome : Outcome) (now : Int)
    (hmem : job ∈ repos) (hpending : job.status = "pending")
    (hdate : job.scheduledDate = some date) (hdue : date ≤ start)
    (hclock : ∀ r, start ≤ clock r) :
    (RepositorySchedulerService.construct token (.content repos) writable clock).scheduledRepos =
      repos ∧
    (RepositorySchedulerService.construct token (.content repos) writable clock).log = [] ∧
    (∀ t ∈ (RepositorySchedulerService.construct token (.content repos) writable clock).armed,
      t.repo ∈ repos ∧ t.repo.status = "pending") ∧
    ∃ t ∈ (RepositorySchedulerService.construct token (.content repos) writable clock).armed,
      t.repo = job ∧ t.timeout = true ∧ t.fireAt = clock job + 1000 ∧
      t.fireAt - clock job < 10000 ∧
      (RepositorySchedulerService.construct token (.content repos) writable clock).fire
          t.handle outcome now =
        ({ RepositorySchedulerService.construct token (.content repos) writable clock with
            armed := (RepositorySchedulerService.construct token (.content repos) writable
              clock).armed.filter (fun x => x.handle != t.handle) }).createRepository
          job outcome now ∧
      (tokenTruthy token = true →
        Effect.request (buildRequest (token.getD "null") job) ∈
          ((RepositorySchedulerService.construct token (.content repos) writable clock).fire
            t.handle outcome now).log ∧
        ∃ done, ((RepositorySchedulerService.construct token (.content repos) writable
            clock).fire t.handle outcome now).scheduledRepos.find?
              (fun r => r.id == job.id) = some done ∧
          (done.status = "created" ∨ done.status = "failed")) := by
  have hall := RepositorySchedulerService.construct_content token repos writable clock
  generalize RepositorySchedulerService.construct token (.content repos) writable clock = D
    at hall ⊢
  obtain ⟨hf, hrepos, hlog, htok, hfrom, harm⟩ := hall
  have hpend : job ∈ repos.filter (fun repo => repo.status == "pending") := by
    rw [List.mem_filter]
    exact ⟨hmem, by simp [hpending]⟩
  obtain ⟨t, ht, hrepo, hto, hat⟩ := harm job hpend date hdate (le_trans hdue (hclock job))
  have hfire : D.fire t.handle outcome now =
      ({ D with armed := D.armed.filter (fun x => x.handle != t.handle) }).createRepository
        job outcome now := by
    simp only [RepositorySchedulerService.fire,
      RepositorySchedulerService.find?_handle hf.2 ht, hrepo]
  refine ⟨hrepos, hlog, ?_, t, ht, hrepo, hto, hat, ?_, hfire, ?_⟩
  · intro t' ht'
    have := List.mem_filter.mp (hfrom t' ht')
    exact ⟨this.1, by simpa using this.2⟩
  · rw [hat]; omega
  · intro htoken
    rw [hfire]
    have hexec := @RepositorySchedulerService.createRepository_executes
      { D with armed := D.armed.filter (fun x => x.handle != t.handle) } job
      (by simpa [htok] using htoken) ⟨job, by simpa [hrepos] using hmem, rfl⟩ outcome now
    simpa [htok] using hexec

/-- Claim C16, witness: the daemon started at clock 2000 over a snapshot
with the pending job `j1`, dated 1000, and a job that is `created`. -/
theorem daemon_construct_arms_overdue_witness :
    (RepositorySchedulerService.construct (some "tok") (.content sampleSnapshot) true
      (fun _ => 2000)).scheduledRepos = sampleSnapshot ∧
    (RepositorySchedulerService.construct (some "tok") (.content sampleSnapshot) true
      (fun _ => 2000)).log = [] ∧
    (∀ t ∈ (RepositorySchedulerService.construct (some "tok") (.content sampleSnapshot) true
        (fun _ => 2000)).armed,
      t.repo ∈ sampleSnapshot ∧ t.repo.status = "pending") :=
  ⟨(daemon_construct_arms_overdue (some "tok") sampleSnapshot true (fun _ => 2000) 2000
      (sampleRepo "pending") 1000 (.ok "http://x/y" 7) 3000 (by decide) (by decide) (by decide)
      (by decide) (fun _ => le_refl _)).1,
   (daemon_construct_arms_overdue (some "tok") sampleSnapshot true (fun _ => 2000) 2000
      (sampleRepo "pending") 1000 (.ok "http://x/y" 7) 3000 (by decide) (by decide) (by decide)
      (by decide) (fun _ => le_refl _)).2.1,
   (daemon_construct_arms_overdue (some "tok") sampleSnapshot true (fun _ => 2000) 2000
      (sampleRepo "pending") 1000 (.ok "http://x/y" 7) 3000 (by decide) (by decide) (by decide)
      (by decide) (fun _ => le_refl _)).2.2.1⟩

/-- The start of the daemon on the snapshot of the witness, evaluated: one
timeout, for `j1`, firing at 3000; fired, it issues one request and `j1` is
`created`. -/
theorem daemon_construct_example :
    (RepositorySchedulerService.construct (some "tok") (.content sampleSnapshot) true
      (fun _ => 2000)).armed.map (fun t => (t.handle, t.repo.id, t.timeout, t.fireAt)) =
      [(0, "j1", true, 3000)] ∧
    (requestsOf ((RepositorySchedulerService.construct (some "tok") (.content sampleSnapshot) true
      (fun _ => 2000)).fire 0 (.ok "http://x/y" 7) 3000).log).map (fun q => q.name) = ["demo"] ∧
    ((RepositorySchedulerService.construct (some "tok") (.content sampleSnapshot) true
      (fun _ => 2000)).fire 0 (.ok "http://x/y" 7) 3000).scheduledRepos.map
        (fun r => (r.id, r.status)) = [("j1", "created"), ("j0", "created")] := by
  decide

/-! ## C17: the order of the writes and the request -/

namespace SchedulerService

theorem saveRepositories_dataFile {s : SchedulerService} (h : s.writable = true) :
    s.saveRepositories.dataFile = s.repositories := by
  simp [saveRepositories, h]

@[simp] theorem cancelJob_dataFile (s : SchedulerService) (repoId : String) :
    (s.cancelJob repoId).dataFile = s.dataFile := by
  unfold cancelJob; split <;> rfl

/-- On a writable disk the snapshot on disk after an execution is the
collection in memory. -/
theorem createRepository_dataFile {s : SchedulerService} {repoId : String} {i : Nat}
    (h : findIndex s.repositories repoId = some i) (hw : s.writable = true)
    (outcome : Outcome) (now : Int) :
    (s.createRepository repoId outcome now).dataFile =
      (s.createRepository repoId outcome now).repositories := by
  obtain ⟨r, hget, _, _⟩ := findIndex_some_get h
  have hget1 : (s.repositories.modify Repo.markCreating i)[i]? = some r.markCreating := by
    simp [hget]
  have hi1 : findIndex (s.repositories.modify Repo.markCreating i) repoId = some i := by
    rw [findIndex_modify (f := Repo.markCreating) (fun _ => rfl)]; exact h
  cases outcome with
  | ok url gid =>
    simp only [createRepository, createRepositoryTry, h, saveRepositories_repositories,
      modifyAt_repositories, List.get?_eq_getElem?, hget1, cancelJob_dataFile,
      cancelJob_repositories]
    rw [saveRepositories_dataFile (by simpa using hw)]
    simp
  | err e =>
    simp only [createRepository, createRepositoryTry, h, saveRepositories_repositories,
      modifyAt_repositories, List.get?_eq_getElem?, hget1, hi1, cancelJob_dataFile,
      cancelJob_repositories]
    rw [saveRepositories_dataFile (by simpa using hw)]
    simp

/-- The job a finished execution leaves under the id is `created` or
`failed`. -/
theorem createRepository_terminal {s : SchedulerService} {repoId : String} {job : Repo}
    (h : s.repositories.find? (fun r => r.id == repoId) = some job)
    (outcome : Outcome) (now : Int) :
    ((s.createRepository repoId outcome now).repositories.find?
        (fun r => r.id == repoId)).map (fun r => r.status) = some "created" ∨
    ((s.createRepository repoId outcome now).repositories.find?
        (fun r => r.id == repoId)).map (fun r => r.status) = some "failed" := by
  cases outcome with
  | ok url gid =>
    left
    rw [(createRepository_ok_find h url gid now).1]
    rfl
  | err e =>
    right
    rw [(createRepository_err_find h e now).2]
    rfl

end SchedulerService

/-- Claim C17: the trace of `createRepository` on a pending job extends the
trace before by exactly three effects, in this order: a write of the snapshot
in which the job has status `creating`, the creation request, and a write of
the final collection, in which the job is `created` or `failed`; on a writable
disk the file then holds that collection.  For an id that is not in the
collection the trace is unchanged: no request is issued. -/
theorem createRepository_persists_before_request (s : SchedulerService) (repoId : String)
    (outcome : Outcome) (now : Int) :
    (∀ job, s.repositories.find? (fun r => r.id == repoId) = some job → job.status = "pending" →
      ∃ before after,
        (s.createRepository repoId outcome now).log = s.log ++
          [Effect.write before s.writable,
           Effect.request (buildRequest (job.githubToken.getD "undefined") job),
           Effect.write after s.writable] ∧
        (before.find? (fun r => r.id == repoId)).map (fun r => r.status) = some "creating" ∧
        after = (s.createRepository repoId outcome now).repositories ∧
        ((after.find? (fun r => r.id == repoId)).map (fun r => r.status) = some "created" ∨
          (after.find? (fun r => r.id == repoId)).map (fun r => r.status) = some "failed") ∧
        (s.writable = true → (s.createRepository repoId outcome now).dataFile = after)) ∧
    (findIndex s.repositories repoId = none →
      (s.createRepository repoId outcome now).log = s.log) := by
  constructor
  · intro job hjob _
    cases hi : findIndex s.repositories repoId with
    | none => rw [findIndex_eq_none.mp hi] at hjob; cases hjob
    | some i =>
      obtain ⟨r, hget, _, hfind⟩ := findIndex_some_get hi
      have hr : r = job := by rw [hfind] at hjob; exact Option.some.inj hjob
      subst hr
      refine ⟨_, _, SchedulerService.createRepository_log hi hget outcome now, ?_, rfl,
        SchedulerService.createRepository_terminal hjob outcome now, ?_⟩
      · rw [find?_modify_findIndex (f := Repo.markCreating) (fun _ => rfl) hi, hjob]
        rfl
      · intro hw
        exact SchedulerService.createRepository_dataFile hi hw outcome now
  · intro h
    rw [SchedulerService.createRepository_unknown h]

/-- Claim C17, witness: the trace of a successful execution of `j1`, and of
an execution asked for an id that no job has. -/
theorem createRepository_persists_before_request_witness :
    (∃ before after,
      ((sampleService "pending").createRepository "j1" (.ok "http://x/y" 7) 5000).log =
        (sampleService "pending").log ++
          [Effect.write before (sampleService "pending").writable,
           Effect.request (buildRequest ((sampleRepo "pending").githubToken.getD "undefined")
             (sampleRepo "pending")),
           Effect.write after (sampleService "pending").writable] ∧
      (before.find? (fun r => r.id == "j1")).map (fun r => r.status) = some "creating" ∧
      after = ((sampleService "pending").createRepository "j1" (.ok "http://x/y" 7)
        5000).repositories ∧
      ((after.find? (fun r => r.id == "j1")).map (fun r => r.status) = some "created" ∨
        (after.find? (fun r => r.id == "j1")).map (fun r => r.status) = some "failed") ∧
      ((sampleService "pending").writable = true →
        ((sampleService "pending").createRepository "j1" (.ok "http://x/y" 7) 5000).dataFile =
          after)) ∧
    ((sampleService "pending").createRepository "j9" (.ok "http://x/y" 7) 5000).log =
      (sampleService "pending").log :=
  ⟨(createRepository_persists_before_request (sampleService "pending") "j1" (.ok "http://x/y" 7)
      5000).1 (sampleRepo "pending") (by decide) (by decide),
   (createRepository_persists_before_request (sampleService "pending") "j9" (.ok "http://x/y" 7)
      5000).2 (by decide)⟩

/-! ## C18: the request -/

/-- Claim C18, counterexample: in the browser the `Authorization` header is
made of the token of the application, `this.githubToken`; a token stored in the
job record is not read. -/
theorem browser_request_uses_application_token :
    browserWithJobToken.scheduledRepos.map (fun r => r.githubToken) = [some "job-token"] ∧
    (requestsOf (browserWithJobToken.createRepository
      { browserRepo "1" "alpha" with githubToken := some "job-token" } (.ok "http://x/y")
      5000).log).map (fun q => q.authorization) = ["token tok"] ∧
    (requestsOf (sampleBrowser.createRepository (browserRepo "1" "alpha") (.ok "http://x/y")
      5000).log).map (fun q => q.authorization) = ["token tok"] ∧
    (browserRepo "1" "alpha").githubToken = none := by
  decide

namespace RepositoryScheduler

/-- The requests of the browser `createRepository`: one more, built from the
job passed and the token of the application, when the id is in the list. -/
theorem createRepository_requests {b : RepositoryScheduler} {repoData : Repo} {i : Nat}
    (h : findIndex b.scheduledRepos repoData.id = some i) (outcome : FetchOutcome) (now : Int) :
    requestsOf (b.createRepository repoData outcome now).log =
      requestsOf b.log ++ [buildRequest (b.githubToken.getD "null") repoData] := by
  have hi1 : findIndex (b.scheduledRepos.modify Repo.markCreating i) repoData.id = some i := by
    rw [findIndex_modify (f := Repo.markCreating) (fun _ => rfl)]; exact h
  cases outcome with
  | ok url =>
    simp only [createRepository, createRepositoryStart, h, createRepositoryFinish]
    split <;> simp [requestsOf, saveScheduledRepos, modifyAt, createRepositoryCatch, hi1]
  | notOk m =>
    simp [createRepository, createRepositoryStart, h, createRepositoryFinish, requestsOf,
      saveScheduledRepos, modifyAt, createRepositoryCatch, hi1]
  | thrown m =>
    simp [createRepository, createRepositoryStart, h, createRepositoryFinish, requestsOf,
      saveScheduledRepos, modifyAt, createRepositoryCatch, hi1]

end RepositoryScheduler

namespace SchedulerService

/-- The requests of the server `createRepository`: one more, built from the
stored job and its stored token, when the id is in the collection. -/
theorem createRepository_requests_server {s : SchedulerService} {repoId : String} {i : Nat}
    {r : Repo} (h : findIndex s.repositories repoId = some i) (hr : s.repositories[i]? = some r)
    (outcome : Outcome) (now : Int) :
    requestsOf (s.createRepository repoId outcome now).log =
      requestsOf s.log ++ [buildRequest (r.githubToken.getD "undefined") r] := by
  rw [createRepository_log h hr outcome now]
  simp [requestsOf]

end SchedulerService

/-- Claim C18, amended: the request built by `createRepository` is a `POST`
to the fixed endpoint whose body has `name`, `private` and `auto_init` equal to
the job's fields, carries `description` exactly when the job's description is
not empty and `gitignore_template` exactly when the job's template is truthy
(present and not empty), each with the job's value; the model of the request
has no other field.  The `Authorization` header is `token` followed by the
job's stored token on the server, and by the token of the application
(`this.githubToken`) in the browser. -/
theorem createRepository_request_shape (token : String) (repo : Repo) (s : SchedulerService)
    (repoId : String) (outcome : Outcome) (b : RepositoryScheduler) (repoData : Repo)
    (answer : FetchOutcome) (now : Int) :
    ((buildRequest token repo).method = "POST" ∧
      (buildRequest token repo).url = "https://api.github.com/user/repos" ∧
      (buildRequest token repo).authorization = "token " ++ token ∧
      (buildRequest token repo).name = repo.name ∧
      (buildRequest token repo).isPrivate = repo.isPrivate ∧
      (buildRequest token repo).auto_init = repo.auto_init ∧
      (repo.description ≠ "" → (buildRequest token repo).description = some repo.description) ∧
      (repo.description = "" → (buildRequest token repo).description = none) ∧
      (repo.gitignore_template.truthy = true →
        (buildRequest token repo).gitignore_template = some repo.gitignore_template) ∧
      (repo.gitignore_template.truthy = false →
        (buildRequest token repo).gitignore_template = none)) ∧
    (∀ i job, findIndex s.repositories repoId = some i → s.repositories[i]? = some job →
      requestsOf (s.createRepository repoId outcome now).log =
        requestsOf s.log ++ [buildRequest (job.githubToken.getD "undefined") job]) ∧
    (∀ i, findIndex b.scheduledRepos repoData.id = some i →
      requestsOf (b.createRepository repoData answer now).log =
        requestsOf b.log ++ [buildRequest (b.githubToken.getD "null") repoData]) := by
  refine ⟨⟨rfl, rfl, rfl, rfl, rfl, rfl, ?_, ?_, ?_, ?_⟩, ?_, ?_⟩
  · intro h; simp [buildRequest, h]
  · intro h; simp [buildRequest, h]
  · intro h; simp [buildRequest, h]
  · intro h; simp [buildRequest, h]
  · intro i job h hr
    exact SchedulerService.createRepository_requests_server h hr outcome now
  · intro i h
    exact RepositoryScheduler.createRepository_requests h answer now

/-- Claim C18, witness: the request of the server for `j1`, made with the
token stored in the job, and the request of the browser for `alpha`, made with
the token of the application. -/
theorem createRepository_request_shape_witness :
    requestsOf ((sampleService "pending").createRepository "j1" (.ok "http://x/y" 7) 5000).log =
      requestsOf (sampleService "pending").log ++
        [buildRequest ((sampleRepo "pending").githubToken.getD "undefined")
          (sampleRepo "pending")] ∧
    requestsOf (sampleBrowser.createRepository (browserRepo "1" "alpha") (.ok "http://x/y")
        5000).log =
      requestsOf sampleBrowser.log ++
        [buildRequest (sampleBrowser.githubToken.getD "null") (browserRepo "1" "alpha")] ∧
    (buildRequest "tok" (sampleRepo "pending")).description = none ∧
    (buildRequest "tok" (sampleRepo "pending")).gitignore_template = none :=
  ⟨(createRepository_request_shape "tok" (sampleRepo "pending") (sampleService "pending") "j1"
      (.ok "http://x/y" 7) sampleBrowser (browserRepo "1" "alpha") (.ok "http://x/y") 5000).2.1
      0 (sampleRepo "pending") (by decide) (by decide),
   (createRepository_request_shape "tok" (sampleRepo "pending") (sampleService "pending") "j1"
      (.ok "http://x/y" 7) sampleBrowser (browserRepo "1" "alpha") (.ok "http://x/y") 5000).2.2
      0 (by decide),
   (createRepository_request_shape "tok" (sampleRepo "pending") (sampleService "pending") "j1"
      (.ok "http://x/y" 7) sampleBrowser (browserRepo "1" "alpha") (.ok "http://x/y")
      5000).1.2.2.2.2.2.2.2.1 (by decide),
   (createRepository_request_shape "tok" (sampleRepo "pending") (sampleService "pending") "j1"
      (.ok "http://x/y" 7) sampleBrowser (browserRepo "1" "alpha") (.ok "http://x/y")
      5000).1.2.2.2.2.2.2.2.2.2 (by decide)⟩

/-! ## C19, C20: one sweep of the browser -/

theorem modify_modify_same (f g : Repo → Repo) (repos : List Repo) (i : Nat) :
    (repos.modify f i).modify g i = repos.modify (fun r => g (f r)) i := by
  induction repos generalizing i with
  | nil => simp
  | cons r rs ih =>
    cases i with
    | zero => simp only [List.modify_zero_cons]
    | succ n => simp only [List.modify_succ_cons, ih]

/-- With pairwise distinct ids, the assignment through the index of an id
touches the one job that has the id. -/
theorem modify_eq_map_of_nodup {repos : List Repo} (hnodup : (repos.map (fun r => r.id)).Nodup)
    {repoId : String} {i : Nat} (h : findIndex repos repoId = some i) (f : Repo → Repo) :
    repos.modify f i = repos.map (fun r => if r.id == repoId then f r else r) := by
  induction repos generalizing i with
  | nil => simp [findIndex] at h
  | cons a rest ih =>
    simp only [List.map_cons, List.nodup_cons] at hnodup
    by_cases ha : (a.id == repoId) = true
    · simp only [findIndex, ha, if_true, Option.some.injEq] at h
      subst h
      have hrest : rest.map (fun r => if r.id == repoId then f r else r) = rest := by
        conv_rhs => rw [← List.map_id rest]
        apply List.map_congr_left
        intro r hr
        have hne : ¬ (r.id == repoId) = true := by
          intro hr'
          have h1 : r.id = a.id := by
            rw [beq_iff_eq] at hr' ha
            rw [hr', ha]
          exact hnodup.1 (h1 ▸ List.mem_map_of_mem _ hr)
        simp [hne]
      simp only [List.modify_zero_cons, List.map_cons, ha, if_true, hrest]
    · simp only [findIndex, ha, Bool.false_eq_true, if_false, Option.map_eq_some'] at h
      obtain ⟨j, hj, rfl⟩ := h
      simp only [List.modify_succ_cons, List.map_cons, ha, Bool.false_eq_true, if_false,
        ih hnodup.2 hj]

theorem findIndex_of_mem {repos : List Repo} {r : Repo} (h : r ∈ repos) :
    ∃ i, findIndex repos r.id = some i := by
  cases hi : findIndex repos r.id with
  | some i => exact ⟨i, rfl⟩
  | none =>
    rw [findIndex_eq_none, List.find?_eq_none] at hi
    exact absurd (by simp) (hi r h)

namespace RepositoryScheduler

theorem settled_id (outcome : FetchOutcome) (now : Int) (r : Repo) :
    (settled outcome now r).id = r.id := by
  cases outcome <;> rfl

theorem settled_status (outcome : FetchOutcome) (now : Int) (r : Repo) :
    (settled outcome now r).status = "created" ∨ (settled outcome now r).status = "failed" := by
  cases outcome
  · exact Or.inl rfl
  · exact Or.inr rfl
  · exact Or.inr rfl

/-- An uninterrupted `createRepository` on a job whose id is in the list:
the job at the index of the id is settled, the list is saved, the token is
kept. -/
theorem createRepository_found {b : RepositoryScheduler} {repoData : Repo} {i : Nat}
    (h : findIndex b.scheduledRepos repoData.id = some i) (outcome : FetchOutcome) (now : Int) :
    (b.createRepository repoData outcome now).scheduledRepos =
      b.scheduledRepos.modify (settled outcome now) i ∧
    (b.createRepository repoData outcome now).localStorage =
      (b.createRepository repoData outcome now).scheduledRepos ∧
    (b.createRepository repoData outcome now).githubToken = b.githubToken := by
  obtain ⟨r, hget, _, _⟩ := findIndex_some_get h
  have hlt : i < b.scheduledRepos.length := by
    rcases Nat.lt_or_ge i b.scheduledRepos.length with hlt | hge
    · exact hlt
    · rw [List.getElem?_eq_none hge] at hget; cases hget
  have hi1 : findIndex (b.scheduledRepos.modify Repo.markCreating i) repoData.id = some i := by
    rw [findIndex_modify (f := Repo.markCreating) (fun _ => rfl)]; exact h
  cases outcome with
  | ok url =>
    refine ⟨?_, ?_, ?_⟩ <;>
      simp [createRepository, createRepositoryStart, h, createRepositoryFinish,
        saveScheduledRepos, modifyAt, hlt, modify_modify_same]
    rfl
  | notOk m =>
    cases m with
    | none =>
      refine ⟨?_, ?_, ?_⟩ <;>
        simp [createRepository, createRepositoryStart, h, createRepositoryFinish,
          createRepositoryCatch, saveScheduledRepos, modifyAt, hi1, modify_modify_same]
      rfl
    | some m =>
      refine ⟨?_, ?_, ?_⟩ <;>
        simp [createRepository, createRepositoryStart, h, createRepositoryFinish,
          createRepositoryCatch, saveScheduledRepos, modifyAt, hi1, modify_modify_same]
      congr 1
      funext r
      simp [settled, failureText]
  | thrown m =>
    refine ⟨?_, ?_, ?_⟩ <;>
      simp [createRepository, createRepositoryStart, h, createRepositoryFinish,
        createRepositoryCatch, saveScheduledRepos, modifyAt, hi1, modify_modify_same]
    rfl

end RepositoryScheduler

namespace RepositoryScheduler

/-- The loop of a sweep over jobs of the list with pairwise distinct ids:
every job of the loop is settled, every other job is kept, one request per job
of the loop is issued in the order of the loop, and the list is saved. -/
theorem foldl_createRepository (answer : Repo → FetchOutcome) (done : Int) (jobs : List Repo)
    (b : RepositoryScheduler)
    (hnodup : (b.scheduledRepos.map (fun r => r.id)).Nodup)
    (hmem : ∀ r ∈ jobs, r ∈ b.scheduledRepos)
    (hjobs : (jobs.map (fun r => r.id)).Nodup) :
    (jobs.foldl (fun acc repo => acc.createRepository repo (answer repo) done) b).scheduledRepos =
      b.scheduledRepos.map (fun x => if x ∈ jobs then settled (answer x) done x else x) ∧
    requestsOf (jobs.foldl (fun acc repo => acc.createRepository repo (answer repo) done) b).log =
      requestsOf b.log ++ jobs.map (buildRequest (b.githubToken.getD "null")) ∧
    (jobs.foldl (fun acc repo => acc.createRepository repo (answer repo) done) b).githubToken =
      b.githubToken ∧
    (jobs ≠ [] ∨ b.localStorage = b.scheduledRepos →
      (jobs.foldl (fun acc repo => acc.createRepository repo (answer repo) done) b).localStorage =
        (jobs.foldl (fun acc repo => acc.createRepository repo (answer repo) done)
          b).scheduledRepos) := by
  induction jobs generalizing b with
  | nil =>
    refine ⟨?_, by simp, rfl, ?_⟩
    · simp
    · intro h
      rcases h with h | h
      · exact absurd rfl h
      · exact h
  | cons r rest ih =>
    simp only [List.foldl_cons]
    obtain ⟨i, hi⟩ := findIndex_of_mem (hmem r (List.mem_cons_self _ _))
    obtain ⟨h1, h2, h3⟩ := createRepository_found hi (answer r) done
    have hreq := createRepository_requests hi (answer r) done
    simp only [List.map_cons, List.nodup_cons] at hjobs
    have h1' : (b.createRepository r (answer r) done).scheduledRepos =
        b.scheduledRepos.map (fun x => if x.id == r.id then settled (answer r) done x else x) :=
      h1.trans (modify_eq_map_of_nodup hnodup hi _)
    have hids : (b.createRepository r (answer r) done).scheduledRepos.map (fun r => r.id) =
        b.scheduledRepos.map (fun r => r.id) := by
      rw [h1', List.map_map]
      apply List.map_congr_left
      intro x _
      simp only [Function.comp_apply]
      split
      · exact settled_id _ _ _
      · rfl
    have hne : ∀ r' ∈ rest, ¬ (r'.id == r.id) = true := by
      intro r' hr' heq
      rw [beq_iff_eq] at heq
      exact hjobs.1 (heq ▸ List.mem_map_of_mem _ hr')
    have hmem1 : ∀ r' ∈ rest, r' ∈ (b.createRepository r (answer r) done).scheduledRepos := by
      intro r' hr'
      rw [h1', List.mem_map]
      exact ⟨r', hmem r' (List.mem_cons_of_mem _ hr'), by simp [hne r' hr']⟩
    obtain ⟨e1, e2, e3, e4⟩ :=
      ih (b.createRepository r (answer r) done) (hids ▸ hnodup) hmem1 hjobs.2
    refine ⟨?_, ?_, e3.trans h3, fun _ => e4 (Or.inr h2)⟩
    · rw [e1, h1', List.map_map]
      apply List.map_congr_left
      intro x hx
      simp only [Function.comp_apply]
      by_cases hxr : (x.id == r.id) = true
      · have hxeq : x = r :=
          List.inj_on_of_nodup_map hnodup hx (hmem r (List.mem_cons_self _ _))
            (by simpa using hxr)
        subst hxeq
        have hnot : settled (answer x) done x ∉ rest := by
          intro hin
          exact hne _ hin (by simp [settled_id])
        simp [hxr, hnot]
      · have hxne : x ≠ r := by
          intro h
          exact hxr (by simp [h])
        simp [hxr, hxne]
    · rw [e2, hreq, h3]
      simp

end RepositoryScheduler

namespace RepositoryScheduler

/-- On a list whose dates are all valid the filter does not throw. -/
theorem reposToCreate_valid {b : RepositoryScheduler}
    (hvalid : ∀ r ∈ b.scheduledRepos, r.scheduledDate ≠ none) (now : Int) :
    b.reposToCreate now = some (b.scheduledRepos.filter (shouldCreate now)) := by
  have hany : b.scheduledRepos.any (fun repo => repo.scheduledDate.isNone) = false := by
    rw [List.any_eq_false]
    intro r hr
    have := hvalid r hr
    cases hd : r.scheduledDate with
    | none => exact absurd hd this
    | some d => simp
  simp [reposToCreate, hany]

/-- A job with an Invalid Date anywhere in the list makes the filter throw. -/
theorem reposToCreate_invalid {b : RepositoryScheduler} {r : Repo}
    (hr : r ∈ b.scheduledRepos) (hd : r.scheduledDate = none) (now : Int) :
    b.reposToCreate now = none := by
  have hany : b.scheduledRepos.any (fun repo => repo.scheduledDate.isNone) = true := by
    rw [List.any_eq_true]
    exact ⟨r, hr, by simp [hd]⟩
  simp [reposToCreate, hany]

/-- Without a token a sweep changes nothing and executes no job. -/
theorem checkScheduledReposRun_no_token {b : RepositoryScheduler}
    (htoken : tokenTruthy b.githubToken = false) (now : Int) (answer : Repo → FetchOutcome)
    (done : Int) :
    b.checkScheduledReposRun now answer done = b ∧ b.checkScheduledRepos now = (b, none) := by
  simp [checkScheduledReposRun, checkScheduledRepos, htoken]

/-- When the filter throws a sweep changes nothing and executes no job. -/
theorem checkScheduledReposRun_invalid {b : RepositoryScheduler} {r : Repo}
    (hr : r ∈ b.scheduledRepos) (hd : r.scheduledDate = none) (now : Int)
    (answer : Repo → FetchOutcome) (done : Int) :
    b.checkScheduledReposRun now answer done = b ∧ b.checkScheduledRepos now = (b, none) := by
  have h := reposToCreate_invalid hr hd now
  constructor
  · simp only [checkScheduledReposRun, h]
    split <;> rfl
  · simp only [checkScheduledRepos, h]
    split <;> rfl

/-- An uninterrupted sweep with a token, on a list with pairwise distinct
ids and valid dates. -/
theorem checkScheduledReposRun_spec {b : RepositoryScheduler}
    (htoken : tokenTruthy b.githubToken = true)
    (hnodup : (b.scheduledRepos.map (fun r => r.id)).Nodup)
    (hvalid : ∀ r ∈ b.scheduledRepos, r.scheduledDate ≠ none)
    (now : Int) (answer : Repo → FetchOutcome) (done : Int) :
    (b.checkScheduledReposRun now answer done).scheduledRepos =
      b.scheduledRepos.map
        (fun x => if x ∈ b.scheduledRepos.filter (shouldCreate now)
          then settled (answer x) done x else x) ∧
    requestsOf (b.checkScheduledReposRun now answer done).log =
      requestsOf b.log ++
        (b.scheduledRepos.filter (shouldCreate now)).map
          (buildRequest (b.githubToken.getD "null")) ∧
    (b.scheduledRepos.filter (shouldCreate now) ≠ [] →
      (b.checkScheduledReposRun now answer done).localStorage =
        (b.checkScheduledReposRun now answer done).scheduledRepos) := by
  have hmem : ∀ r ∈ b.scheduledRepos.filter (shouldCreate now), r ∈ b.scheduledRepos :=
    fun r hr => List.mem_of_mem_filter hr
  have hjobs : ((b.scheduledRepos.filter (shouldCreate now)).map (fun r => r.id)).Nodup :=
    hnodup.sublist ((List.filter_sublist _).map _)
  obtain ⟨e1, e2, _, e4⟩ :=
    foldl_createRepository answer done (b.scheduledRepos.filter (shouldCreate now)) b hnodup
      hmem hjobs
  simp only [checkScheduledReposRun, htoken, Bool.not_true, Bool.false_eq_true, if_false,
    reposToCreate_valid hvalid now]
  exact ⟨e1, e2, fun h => e4 (Or.inl h)⟩

end RepositoryScheduler

/-- One sweep with a credential, on a list whose ids are pairwise distinct
and whose dates are all valid, run to its end without another operation in
between.  The creation requests it issues are those of the jobs with status
`pending` and `scheduledDate <= now`, one each, in the order of the list; each
of these jobs is executed (it ends `created` or `failed`), and every job that
is not pending or is scheduled after `now` is left as it was, at its place. -/
theorem checkScheduledRepos_selects_due (b : RepositoryScheduler) (now : Int)
    (answer : Repo → FetchOutcome) (done : Int)
    (htoken : tokenTruthy b.githubToken = true)
    (hnodup : (b.scheduledRepos.map (fun r => r.id)).Nodup)
    (hvalid : ∀ r ∈ b.scheduledRepos, r.scheduledDate ≠ none) :
    requestsOf (b.checkScheduledReposRun now answer done).log =
      requestsOf b.log ++
        (b.scheduledRepos.filter
          (fun r => r.status == "pending" && dateLe r.scheduledDate (some now))).map
          (buildRequest (b.githubToken.getD "null")) ∧
    (b.checkScheduledReposRun now answer done).scheduledRepos =
      b.scheduledRepos.map (fun r =>
        if r.status == "pending" && dateLe r.scheduledDate (some now)
        then RepositoryScheduler.settled (answer r) done r else r) ∧
    (∀ r : Repo, (r.status == "pending" && dateLe r.scheduledDate (some now)) = true ↔
      r.status = "pending" ∧ ∃ d, r.scheduledDate = some d ∧ d ≤ now) ∧
    (∀ r : Repo, (RepositoryScheduler.settled (answer r) done r).status = "created" ∨
      (RepositoryScheduler.settled (answer r) done r).status = "failed") := by
  obtain ⟨e1, e2, _⟩ :=
    RepositoryScheduler.checkScheduledReposRun_spec htoken hnodup hvalid now answer done
  refine ⟨e2, ?_, ?_, fun r => RepositoryScheduler.settled_status _ _ _⟩
  · rw [e1]
    apply List.map_congr_left
    intro x hx
    by_cases hp : (x.status == "pending" && dateLe x.scheduledDate (some now)) = true
    · have hin : x ∈ b.scheduledRepos.filter (RepositoryScheduler.shouldCreate now) :=
        List.mem_filter.mpr ⟨hx, hp⟩
      simp [hin, hp]
    · have hout : x ∉ b.scheduledRepos.filter (RepositoryScheduler.shouldCreate now) :=
        fun h => hp (List.mem_filter.mp h).2
      simp [hout, hp]
  · intro r
    cases hd : r.scheduledDate with
    | none => simp [dateLe]
    | some d => simp [dateLe]

/-- The sweep of the sample browser at instant 2000, where both jobs are
due. -/
theorem checkScheduledRepos_selects_due_witness :
    requestsOf (sampleBrowser.checkScheduledReposRun 2000 (fun _ => .ok "http://x/y") 3000).log =
      requestsOf sampleBrowser.log ++
        (sampleBrowser.scheduledRepos.filter
          (fun r => r.status == "pending" && dateLe r.scheduledDate (some 2000))).map
          (buildRequest (sampleBrowser.githubToken.getD "null")) :=
  (checkScheduledRepos_selects_due sampleBrowser 2000 (fun _ => .ok "http://x/y") 3000
    (by decide) (by decide) (by decide)).1

/-- Claim C19, the code at the failing inputs.  First input: two pending jobs
carry the same id, `one` due at 5000 and `two` due at 1000, and the sweep runs
at 2000 with a credential.  The filter selects `two`, and `createRepository`
resolves its id to the first job of the list: the request is the one of
`two`, but `one`, which is scheduled after `now`, is marked `created` with the
returned `html_url`, and `two` stays `pending`.  Second input: a job of the
list, already `created`, has an Invalid Date; the filter throws, so the sweep
ends at once and the two jobs that are pending and due are not executed. -/
theorem sweep_marks_job_that_is_not_due :
    browserSameId.scheduledRepos.map (fun r => (r.id, r.name, r.status, r.scheduledDate)) =
      [("777", "one", "pending", some 5000), ("777", "two", "pending", some 1000)] ∧
    browserSameId.reposToCreate 2000 = some [browserRepo "777" "two"] ∧
    (requestsOf (browserSameId.checkScheduledReposRun 2000 (fun _ => .ok "http://x/two")
      3000).log).map (fun q => q.name) = ["two"] ∧
    (browserSameId.checkScheduledReposRun 2000 (fun _ => .ok "http://x/two")
      3000).scheduledRepos.map (fun r => (r.name, r.status, r.scheduledDate, r.html_url)) =
      [("one", "created", some 5000, some "http://x/two"),
       ("two", "pending", some 1000, none)] ∧
    browserInvalidDate.scheduledRepos.map (fun r => (r.name, r.status, r.scheduledDate)) =
      [("old", "created", none), ("alpha", "pending", some 1000),
       ("beta", "pending", some 1000)] ∧
    browserInvalidDate.reposToCreate 2000 = none ∧
    browserInvalidDate.checkScheduledRepos 2000 = (browserInvalidDate, none) ∧
    browserInvalidDate.checkScheduledReposRun 2000 (fun _ => .ok "http://x/y") 3000 =
      browserInvalidDate := by
  decide

/-- Without a token `checkScheduledRepos` returns at its first test.  The two
pending jobs of the sample, due at the same instant, are still `pending` when
it has completed, and no request was issued. -/
theorem sweep_without_token_counterexample :
    sampleBrowserNoToken.checkScheduledRepos 2000 = (sampleBrowserNoToken, none) ∧
    sampleBrowserNoToken.checkScheduledReposRun 2000 (fun _ => .ok "http://x/y") 3000 =
      sampleBrowserNoToken ∧
    sampleBrowserNoToken.scheduledRepos.map (fun r => (r.status, r.scheduledDate)) =
      [("pending", some 1000), ("pending", some 1000)] ∧
    requestsOf (sampleBrowserNoToken.checkScheduledReposRun 2000 (fun _ => .ok "http://x/y")
      3000).log = [] := by
  decide

/-- Two pending jobs of a list with pairwise distinct ids and valid dates
are due at the same instant and the browser holds a credential.  After one
sweep, run to its end, each of the two is in the list in a terminal state,
`created` with the returned `html_url` when its creator call succeeded and
`failed` with the error text otherwise, and the item `scheduledRepos` of
`localStorage` equals the list in memory, so it shows both results. -/
theorem sweep_keeps_both_updates (b : RepositoryScheduler) (now : Int)
    (answer : Repo → FetchOutcome) (done : Int) (first second : Repo) (due : Int)
    (htoken : tokenTruthy b.githubToken = true)
    (hnodup : (b.scheduledRepos.map (fun r => r.id)).Nodup)
    (hvalid : ∀ r ∈ b.scheduledRepos, r.scheduledDate ≠ none)
    (hfirst : first ∈ b.scheduledRepos) (hsecond : second ∈ b.scheduledRepos)
    (hdistinct : first ≠ second)
    (hp1 : first.status = "pending") (hp2 : second.status = "pending")
    (hd1 : first.scheduledDate = some due) (hd2 : second.scheduledDate = some due)
    (hdue : due ≤ now) :
    RepositoryScheduler.settled (answer first) done first ∈
      (b.checkScheduledReposRun now answer done).scheduledRepos ∧
    RepositoryScheduler.settled (answer second) done second ∈
      (b.checkScheduledReposRun now answer done).scheduledRepos ∧
    (RepositoryScheduler.settled (answer first) done first).id ≠
      (RepositoryScheduler.settled (answer second) done second).id ∧
    (∀ job, (RepositoryScheduler.settled (answer job) done job).status = "created" ∨
      (RepositoryScheduler.settled (answer job) done job).status = "failed") ∧
    (∀ job url, answer job = .ok url →
      (RepositoryScheduler.settled (answer job) done job).status = "created" ∧
      (RepositoryScheduler.settled (answer job) done job).html_url = some url) ∧
    (∀ job, (∀ url, answer job ≠ .ok url) →
      (RepositoryScheduler.settled (answer job) done job).status = "failed" ∧
      (RepositoryScheduler.settled (answer job) done job).error =
        some (RepositoryScheduler.failureText (answer job))) ∧
    (b.checkScheduledReposRun now answer done).localStorage =
      (b.checkScheduledReposRun now answer done).scheduledRepos := by
  obtain ⟨e1, _, e3⟩ :=
    RepositoryScheduler.checkScheduledReposRun_spec htoken hnodup hvalid now answer done
  have hin : ∀ job ∈ b.scheduledRepos, job.status = "pending" → job.scheduledDate = some due →
      job ∈ b.scheduledRepos.filter (RepositoryScheduler.shouldCreate now) := by
    intro job hjob hp hd
    apply List.mem_filter.mpr
    refine ⟨hjob, ?_⟩
    simp [RepositoryScheduler.shouldCreate, hp, hd, dateLe, hdue]
  have hset : ∀ job ∈ b.scheduledRepos, job.status = "pending" → job.scheduledDate = some due →
      RepositoryScheduler.settled (answer job) done job ∈
        (b.checkScheduledReposRun now answer done).scheduledRepos := by
    intro job hjob hp hd
    rw [e1, List.mem_map]
    exact ⟨job, hjob, by simp [hin job hjob hp hd]⟩
  refine ⟨hset first hfirst hp1 hd1, hset second hsecond hp2 hd2, ?_,
    fun job => RepositoryScheduler.settled_status _ _ _, ?_, ?_, ?_⟩
  · rw [RepositoryScheduler.settled_id, RepositoryScheduler.settled_id]
    intro hid
    exact hdistinct (List.inj_on_of_nodup_map hnodup hfirst hsecond hid)
  · intro job url h
    rw [h]
    exact ⟨rfl, rfl⟩
  · intro job h
    cases ha : answer job with
    | ok url => exact absurd ha (h url)
    | notOk m => exact ⟨rfl, rfl⟩
    | thrown m => exact ⟨rfl, rfl⟩
  · exact e3 (List.ne_nil_of_mem (hin first hfirst hp1 hd1))

/-- The two jobs of the sample browser, both due at 1000; the creator
succeeds for `alpha` and answers `name taken` for `beta`. -/
theorem sweep_keeps_both_updates_witness :
    (sampleBrowser.checkScheduledReposRun 2000
      (fun r => if r.name == "alpha" then .ok "http://x/alpha" else .notOk (some "name taken"))
      3000).localStorage =
    (sampleBrowser.checkScheduledReposRun 2000
      (fun r => if r.name == "alpha" then .ok "http://x/alpha" else .notOk (some "name taken"))
      3000).scheduledRepos :=
  (sweep_keeps_both_updates sampleBrowser 2000
    (fun r => if r.name == "alpha" then .ok "http://x/alpha" else .notOk (some "name taken"))
    3000 (browserRepo "1" "alpha") (browserRepo "2" "beta") 1000 (by decide) (by decide)
    (by decide) (by decide) (by decide) (by decide) (by decide) (by decide) (by decide)
    (by decide) (by decide)).2.2.2.2.2.2

/-- The sweep of the sample, evaluated: both jobs are terminal, in memory
and in `localStorage`, each with its own result. -/
theorem sweep_example :
    (sampleBrowser.checkScheduledReposRun 2000
      (fun r => if r.name == "alpha" then .ok "http://x/alpha" else .notOk (some "name taken"))
      3000).localStorage.map (fun r => (r.name, r.status, r.html_url, r.error)) =
      [("alpha", "created", some "http://x/alpha", none),
       ("beta", "failed", none, some "name taken")] := by
  decide

/-- Claim C20, the code at the failing inputs.  First input: two pending jobs
with the same id, both due at 1000, swept at 2000 with a credential; the
creator succeeds for both.  Both requests are issued, and both executions
resolve the id to the first job of the list: `one` is `created` with the
`html_url` returned for `two`, and `two` is still `pending` when the sweep has
completed, in memory and in `localStorage`.  Second input: the list also holds
a job with an Invalid Date; the filter throws and the two jobs that are due
at the same instant stay `pending`. -/
theorem sweep_leaves_due_job_pending :
    browserSameIdDue.scheduledRepos.map (fun r => (r.id, r.name, r.status, r.scheduledDate)) =
      [("777", "one", "pending", some 1000), ("777", "two", "pending", some 1000)] ∧
    (requestsOf (browserSameIdDue.checkScheduledReposRun 2000
      (fun r => .ok ("http://x/" ++ r.name)) 3000).log).map (fun q => q.name) =
      ["one", "two"] ∧
    (browserSameIdDue.checkScheduledReposRun 2000 (fun r => .ok ("http://x/" ++ r.name))
      3000).scheduledRepos.map (fun r => (r.name, r.status, r.html_url)) =
      [("one", "created", some "http://x/two"), ("two", "pending", none)] ∧
    (browserSameIdDue.checkScheduledReposRun 2000 (fun r => .ok ("http://x/" ++ r.name))
      3000).localStorage.map (fun r => (r.name, r.status, r.html_url)) =
      [("one", "created", some "http://x/two"), ("two", "pending", none)] ∧
    (browserSameIdDue.checkScheduledReposRun 2000 (fun _ => .notOk (some "name taken"))
      3000).scheduledRepos.map (fun r => (r.name, r.status)) =
      [("one", "failed"), ("two", "pending")] ∧
    (browserInvalidDate.checkScheduledReposRun 2000 (fun r => .ok ("http://x/" ++ r.name))
      3000).scheduledRepos.map (fun r => (r.name, r.status)) =
      [("old", "created"), ("alpha", "pending"), ("beta", "pending")] ∧
    requestsOf (browserInvalidDate.checkScheduledReposRun 2000
      (fun r => .ok ("http://x/" ++ r.name)) 3000).log = [] := by
  decide

/-! ## C21: completion after a removal -/

/-- Claim C21, the code at the failing input: `beta` is at index 1 when its
request is issued; `alpha`, before it in the list, is removed while the
request is in flight.  The success path assigns through the index captured
before the await.  With a third job `gamma` in the list, `gamma` is marked
`created` with the `html_url` of `beta` and `beta` stays `creating`; with no
job after `beta` the assignment throws and `beta` is marked `failed`.  The
daemon does the same. -/
theorem completion_uses_stale_index :
    (completeAfterRemoval sampleBrowser3 (browserRepo "2" "beta") "1" (.ok "http://x/beta")
      5000).scheduledRepos.map (fun r => (r.name, r.status, r.html_url)) =
      [("beta", "creating", none), ("gamma", "created", some "http://x/beta")] ∧
    (completeAfterRemoval sampleBrowser (browserRepo "2" "beta") "1" (.ok "http://x/beta")
      5000).scheduledRepos.map (fun r => (r.name, r.status, r.html_url, r.error)) =
      [("beta", "failed", none, some staleIndexError)] ∧
    (completeAfterRemovalDaemon
      (daemonWith [browserRepo "1" "alpha", browserRepo "2" "beta", browserRepo "3" "gamma"])
      (browserRepo "2" "beta") "1" (.ok "http://x/beta" 7) 5000).scheduledRepos.map
        (fun r => (r.name, r.status, r.html_url)) =
      [("beta", "creating", none), ("gamma", "created", some "http://x/beta")] ∧
    (completeAfterRemoval sampleBrowser3 (browserRepo "2" "beta") "1" (.notOk (some "name taken"))
      5000).scheduledRepos.map (fun r => (r.name, r.status, r.error)) =
      [("beta", "failed", some "name taken"), ("gamma", "pending", none)] := by
  decide

/-! ## C26: shutdown -/

/-- Claim C26, the code at the failing input: the one second timeout of an
overdue job is not held by `scheduledJobs`, so `shutdown()` does not cancel it.
After `shutdown()` it is still armed, and when it fires the job is executed:
a creation request is issued.  The server and the daemon behave alike; a
node-schedule job held by the map is cancelled. -/
theorem shutdown_keeps_timeout_armed :
    sampleOverdue.shutdown.armed.map (fun t => (t.handle, t.repoId, t.timeout)) =
      [(0, "j1", true)] ∧
    sampleOverdue.shutdown.scheduledJobs = [] ∧
    (requestsOf (sampleOverdue.shutdown.fire 0 (.ok "http://x/y" 7) 3000).log).map
      (fun q => q.name) = ["demo"] ∧
    sampleDaemonOverdue.shutdown.armed.map (fun t => (t.handle, t.repo.id, t.timeout)) =
      [(0, "j1", true)] ∧
    (requestsOf (sampleDaemonOverdue.shutdown.fire 0 (.ok "http://x/y" 7) 3000).log).map
      (fun q => q.name) = ["demo"] ∧
    (sampleArmed "pending").shutdown.armed = [] := by
  decide

/-! ## C27: the token in the answers -/

/-- Claim C27, the code at the failing input: `PUT /:id` answers with the
record `updateRepository` returns, which is the stored job with its
`githubToken`; two stores that differ only in the stored token get different
bodies.  `GET /:id` on the same job answers with the projection, which has no
token. -/
theorem putRepository_answers_with_token :
    (putRepository sampleToDate (sampleService "pending") "u1" "j1"
      (sampleBody (.str "next") .undefined) 500 502).1 =
      ⟨200, .updated "Repository updated successfully"
        { sampleRepo "pending" with name := "next" }⟩ ∧
    ({ sampleRepo "pending" with name := "next" } : Repo).githubToken = some "tok" ∧
    (putRepository sampleToDate sampleServiceOtherToken "u1" "j1"
      (sampleBody (.str "next") .undefined) 500 502).1.body ≠
    (putRepository sampleToDate (sampleService "pending") "u1" "j1"
      (sampleBody (.str "next") .undefined) 500 502).1.body ∧
    sampleServiceOtherToken.getUserRepository "u1" "j1" =
      (sampleService "pending").getUserRepository "u1" "j1" := by
  decide

/-! ## C29: what an execution changes -/

/-- Claim C29, the code at the failing input: the success path of the
browser assigns `createdAt = new Date().toISOString()`.  The job `alpha`,
scheduled at instant 0, has `createdAt` 5000 when its execution has completed
at 5000; the server keeps `createdAt` and writes `actualCreatedAt`. -/
theorem browser_success_overwrites_createdAt :
    sampleBrowser.scheduledRepos.map (fun r => (r.name, r.createdAt)) =
      [("alpha", 0), ("beta", 0)] ∧
    (sampleBrowser.createRepository (browserRepo "1" "alpha") (.ok "http://x/y")
      5000).scheduledRepos.map (fun r => (r.name, r.status, r.createdAt)) =
      [("alpha", "created", 5000), ("beta", "pending", 0)] ∧
    ((sampleService "pending").createRepository "j1" (.ok "http://x/y" 7)
      5000).repositories.map (fun r => (r.status, r.createdAt, r.actualCreatedAt)) =
      [("created", 0, some 5000)] := by
  decide

/-! ## C22: result fields and status -/

theorem mem_modify_cases {f : Repo → Repo} {repos : List Repo} {i : Nat} {r : Repo}
    (h : r ∈ repos.modify f i) : r ∈ repos ∨ ∃ a, repos[i]? = some a ∧ r = f a := by
  induction repos generalizing i with
  | nil => simp at h
  | cons a rest ih =>
    cases i with
    | zero =>
      rw [List.modify_zero_cons] at h
      rcases List.mem_cons.mp h with h | h
      · exact Or.inr ⟨a, by simp, h⟩
      · exact Or.inl (List.mem_cons_of_mem _ h)
    | succ n =>
      rw [List.modify_succ_cons] at h
      rcases List.mem_cons.mp h with h | h
      · exact Or.inl (h ▸ List.mem_cons_self _ _)
      · rcases ih h with h | ⟨b, hb, hr⟩
        · exact Or.inl (List.mem_cons_of_mem _ h)
        · exact Or.inr ⟨b, by simpa using hb, hr⟩

namespace SchedulerService

/-- An uninterrupted `createRepository` on an id that is in the collection
settles the job at the index of the id. -/
theorem createRepository_found_server {s : SchedulerService} {repoId : String} {i : Nat}
    (h : findIndex s.repositories repoId = some i) (outcome : Outcome) (now : Int) :
    (s.createRepository repoId outcome now).repositories =
      s.repositories.modify (settledServer outcome now) i := by
  obtain ⟨r, hget, _, _⟩ := findIndex_some_get h
  have hget1 : (s.repositories.modify Repo.markCreating i)[i]? = some r.markCreating := by
    simp [hget]
  have hi1 : findIndex (s.repositories.modify Repo.markCreating i) repoId = some i := by
    rw [findIndex_modify (f := Repo.markCreating) (fun _ => rfl)]; exact h
  cases outcome with
  | ok url gid =>
    simp only [createRepository, createRepositoryTry, h, saveRepositories_repositories,
      modifyAt_repositories, List.get?_eq_getElem?, hget1, cancelJob_repositories,
      modify_modify_same]
    rfl
  | err e =>
    simp only [createRepository, createRepositoryTry, h, saveRepositories_repositories,
      modifyAt_repositories, List.get?_eq_getElem?, hget1, hi1, cancelJob_repositories,
      modify_modify_same]
    rfl

/-- The collection after `updateRepository`: `Object.assign` at one index. -/
theorem updateRepository_repositories {s s1 : SchedulerService} {repoId : String}
    {u : UpdateData} {now : Int} {repo : Repo}
    (h : s.updateRepository repoId u now = some (repo, s1)) :
    ∃ i, s1.repositories = s.repositories.modify (fun r => assign r u) i := by
  unfold updateRepository at h
  split at h
  · cases h
  · next i _ =>
    refine ⟨i, ?_⟩
    by_cases hc : (u.scheduledDate.isSome && s.hasJob repoId) = true
    · simp only [hc, if_true] at h
      split at h
      · cases h
      · split at h <;>
        · simp only [Option.some.injEq, Prod.mk.injEq] at h
          rw [← h.2]
          simp
    · simp only [hc, Bool.false_eq_true, if_false] at h
      split at h
      · cases h
      · split at h <;>
        · simp only [Option.some.injEq, Prod.mk.injEq] at h
          rw [← h.2]
          simp

/-- The property of one record that `ResultsMatch` asks of every job. -/
theorem resultsMatch_modify {s : SchedulerService} {f : Repo → Repo} {i : Nat}
    (hs : s.ResultsMatch)
    (hf : ∀ a, s.repositories[i]? = some a →
      ((f a).html_url ≠ none → (f a).status = "created") ∧
      ((f a).error ≠ none → (f a).status = "failed")) :
    ∀ r ∈ s.repositories.modify f i,
      (r.html_url ≠ none → r.status = "created") ∧ (r.error ≠ none → r.status = "failed") := by
  intro r hr
  rcases mem_modify_cases hr with hr | ⟨a, ha, rfl⟩
  · exact hs r hr
  · exact hf a ha

end SchedulerService

/-- Claim C22, the code at the failing inputs: the store reached from the
empty store by `addRepository`, a successful `createRepository("j1")` and a
second `createRepository("j1")` that the API refuses is reachable through the
operations of the service, and its job is `failed` with `html_url` still set.
The same state is reached through the route and a timer: `j1` is added when
its date has passed, `POST /j1/create-now` leaves it `created`, and the one
second timeout then fires and its request is refused. -/
theorem rerun_breaks_results_match :
    SchedulerService.Reachable false sampleRerun ∧
    sampleRerun.repositories.map (fun r => (r.id, r.status, r.html_url, r.error)) =
      [("j1", "failed", some "http://x/y", some "name taken")] ∧
    ¬ sampleRerun.ResultsMatch ∧
    sampleTimerRerun.repositories.map (fun r => (r.id, r.status, r.html_url, r.error)) =
      [("j1", "failed", some "http://x/y", some "name taken")] := by
  refine ⟨?_, by decide, ?_, by decide⟩
  · exact SchedulerService.Reachable.create "j1" (.err nameTaken) 700
      (SchedulerService.Reachable.create "j1" (.ok "http://x/y" 7) 600
        (SchedulerService.Reachable.add (sampleRepo "pending") 500
          (SchedulerService.Reachable.empty true) rfl rfl rfl)
        (fun h => absurd h (by decide)))
      (fun h => absurd h (by decide))
  · intro h
    have hmem : ({ sampleRepo "failed" with
        html_url := some "http://x/y", github_id := some 7, actualCreatedAt := some 600,
        error := some "name taken", failedAt := some 700 } : Repo) ∈ sampleRerun.repositories := by
      decide
    have h1 := (h _ hmem).1 (by decide)
    exact absurd h1 (by decide)

/-- As long as `createRepository` runs on pending jobs only, the result
fields agree with the status: in every state reached from an empty store by
`addRepository` of pending records without result fields, `updateRepository`,
`removeRepository` and `createRepository` (or `createRepositoryNow`) invoked
only for ids whose job is `pending`, every job has `html_url` set only if its
status is `created` and `error` set only if its status is `failed`. -/
theorem results_match_status (s : SchedulerService)
    (h : SchedulerService.Reachable true s) : s.ResultsMatch := by
  induction h with
  | empty writable =>
    intro r hr
    simp at hr
  | add repoData now _ hstatus hurl herr ih =>
    intro r hr
    rw [SchedulerService.addRepository_repositories] at hr
    rcases List.mem_append.mp hr with hr | hr
    · exact ih r hr
    · have hr' : r = repoData := by simpa using hr
      subst hr'
      exact ⟨fun hne => absurd hurl hne, fun hne => absurd herr hne⟩
  | update repoId u now repo _ hu ih =>
    obtain ⟨i, hi⟩ := SchedulerService.updateRepository_repositories hu
    intro r hr
    rw [hi] at hr
    refine SchedulerService.resultsMatch_modify ih (fun a ha => ?_) r hr
    have hmem : a ∈ _ := List.getElem?_mem ha
    exact ih a hmem
  | remove repoId _ ih =>
    intro r hr
    rw [SchedulerService.removeRepository_repositories] at hr
    exact ih r (List.mem_filter.mp hr).1
  | @create s0 repoId outcome now _ hguard ih =>
    cases hfi : findIndex s0.repositories repoId with
    | none =>
      rw [SchedulerService.createRepository_unknown hfi]
      exact ih
    | some i =>
      obtain ⟨job, hget, _, hfind⟩ := findIndex_some_get hfi
      have hpending : job.status = "pending" := hguard rfl job hfind
      have hjob := ih job (List.getElem?_mem hget)
      have hurl : job.html_url = none := by
        by_contra hne
        have := hjob.1 hne
        rw [hpending] at this
        exact absurd this (by decide)
      have herr : job.error = none := by
        by_contra hne
        have := hjob.2 hne
        rw [hpending] at this
        exact absurd this (by decide)
      intro r hr
      rw [SchedulerService.createRepository_found_server hfi] at hr
      refine SchedulerService.resultsMatch_modify ih (fun a ha => ?_) r hr
      have ha' : a = job := by
        rw [hget] at ha
        exact (Option.some.inj ha).symm
      subst ha'
      cases outcome with
      | ok url gid =>
        exact ⟨fun _ => rfl, fun hne => absurd herr hne⟩
      | err e =>
        exact ⟨fun hne => absurd hurl hne, fun _ => rfl⟩

theorem results_match_status_witness :
    SchedulerService.Reachable true
      (((emptyStore true).addRepository (sampleRepo "pending") 500).2.createRepository "j1"
        (.ok "http://x/y" 7) 600) ∧
    (((emptyStore true).addRepository (sampleRepo "pending") 500).2.createRepository "j1"
        (.ok "http://x/y" 7) 600).ResultsMatch :=
  have hreach : SchedulerService.Reachable true
      (((emptyStore true).addRepository (sampleRepo "pending") 500).2.createRepository "j1"
        (.ok "http://x/y" 7) 600) :=
    SchedulerService.Reachable.create "j1" (.ok "http://x/y" 7) 600
      (SchedulerService.Reachable.add (sampleRepo "pending") 500
        (SchedulerService.Reachable.empty true) rfl rfl rfl)
      (fun _ job hjob => by
        have hfind : ((emptyStore true).addRepository (sampleRepo "pending") 500).2.repositories.find?
            (fun r => r.id == "j1") = some (sampleRepo "pending") := by decide
        rw [hfind] at hjob
        cases hjob
        rfl)
  ⟨hreach, results_match_status _ hreach⟩

/-! ## C23: job ids -/

/-- Claim C23, the code at the failing input: the id is the text of
`Date.now()`.  Two jobs with different names added while the clock reads 777
both carry the id `"777"`, in the browser and in the daemon.  The operations
that address a job by id then act on the other job too: removing `"777"`
removes both, an execution of the second job marks the first, and in the
daemon the map `scheduledJobs` holds one entry for the two timers. -/
theorem same_clock_reading_same_id :
    browserSameClock.scheduledRepos.map (fun r => (r.id, r.name)) =
      [("777", "one"), ("777", "two")] ∧
    daemonSameClock.scheduledRepos.map (fun r => (r.id, r.name)) =
      [("777", "one"), ("777", "two")] ∧
    (browserSameClock.removeScheduledRepo "777").scheduledRepos = [] ∧
    ((browserSameClock.scheduledRepos.get? 1).map (fun job =>
      (browserSameClock.createRepository job (.ok "http://x/two") 9000).scheduledRepos.map
        (fun r => (r.name, r.status)))) =
      some [("one", "created"), ("two", "pending")] ∧
    daemonSameClock.scheduledJobs = [("777", 1)] ∧
    daemonSameClock.armed.map (fun t => (t.handle, t.repo.name)) = [(0, "one"), (1, "two")] := by
  decide

/-! ## C24: statistics -/

/-- The counts of `getStats` are those of the whole collection, `activeJobs`
is the size of `scheduledJobs`. -/
theorem getStats_counts (s : SchedulerService) :
    s.getStats.total = (statusCounts s.repositories).total ∧
    s.getStats.pending = (statusCounts s.repositories).pending ∧
    s.getStats.creating = (statusCounts s.repositories).creating ∧
    s.getStats.created = (statusCounts s.repositories).created ∧
    s.getStats.failed = (statusCounts s.repositories).failed ∧
    s.getStats.activeJobs = s.scheduledJobs.length :=
  ⟨rfl, rfl, rfl, rfl, rfl, rfl⟩

/-- The counts of `getUserStats(u)` are those of the jobs whose `userId` is
`u`; the daemon counts its whole list. -/
theorem getUserStats_counts (s : SchedulerService) (d : RepositorySchedulerService)
    (userId : String) :
    s.getUserStats userId =
      statusCounts (s.repositories.filter (fun repo => repo.userId == some userId)) ∧
    d.getStats = statusCounts d.scheduledRepos :=
  ⟨rfl, rfl⟩

/-- Each count is the number of jobs with that status, and when every job has
one of the four statuses the total is their sum. -/
theorem statusCounts_total (repos : List Repo)
    (h : ∀ r ∈ repos, r.status = "pending" ∨ r.status = "creating" ∨ r.status = "created" ∨
      r.status = "failed") :
    (statusCounts repos).total =
      (statusCounts repos).pending + (statusCounts repos).creating +
        (statusCounts repos).created + (statusCounts repos).failed := by
  induction repos with
  | nil => rfl
  | cons r rest ih =>
    have ih' := ih (fun x hx => h x (List.mem_cons_of_mem _ hx))
    simp only [statusCounts] at ih' ⊢
    rcases h r (List.mem_cons_self _ _) with hs | hs | hs | hs <;>
      simp [List.filter_cons, hs] <;> omega

/-- The size of `scheduledJobs` at two stores: 0 where the only timer is the
one second timeout of an overdue job, which the map does not hold, and 1
where a node-schedule job is armed. -/
theorem getStats_misses_timeout :
    sampleOverdue.getStats =
      { total := 1, pending := 1, creating := 0, created := 0, failed := 0, activeJobs := 0 } ∧
    sampleOverdue.armed.length = 1 ∧
    ((sampleOverdue.fire 0 (.ok "http://x/y" 7) 3000).repositories.map (fun r => r.status)) =
      ["created"] ∧
    (sampleArmed "pending").getStats.activeJobs = 1 ∧
    (sampleArmed "pending").armed.length = 1 ∧
    sampleOverdue.getUserStats "u1" =
      { total := 1, pending := 1, creating := 0, created := 0, failed := 0 } := by
  decide

/-- Claim C24: `getStats()` returns as `pending`, `creating`, `created` and
`failed` the number of jobs with that status, as `total` the number of jobs
and as `activeJobs` the size of `scheduledJobs`; `getUserStats(u)` returns the
same counts over the jobs whose `userId` is `u`, and the daemon's `getStats()`
the counts over its list.  Each is a function of the state that returns the
counts only.  When every job has one of the four statuses, `total` is the sum
of the four counts, for the whole collection and for the jobs of `u`. -/
theorem stats_are_status_counts (s : SchedulerService) (d : RepositorySchedulerService)
    (u : String) :
    s.getStats =
      { total := s.repositories.length
        pending := s.repositories.countP (fun r => r.status == "pending")
        creating := s.repositories.countP (fun r => r.status == "creating")
        created := s.repositories.countP (fun r => r.status == "created")
        failed := s.repositories.countP (fun r => r.status == "failed")
        activeJobs := s.scheduledJobs.length } ∧
    s.getUserStats u =
      { total := s.repositories.countP (fun r => r.userId == some u)
        pending := s.repositories.countP
          (fun r => r.userId == some u && r.status == "pending")
        creating := s.repositories.countP
          (fun r => r.userId == some u && r.status == "creating")
        created := s.repositories.countP
          (fun r => r.userId == some u && r.status == "created")
        failed := s.repositories.countP
          (fun r => r.userId == some u && r.status == "failed") } ∧
    d.getStats =
      { total := d.scheduledRepos.length
        pending := d.scheduledRepos.countP (fun r => r.status == "pending")
        creating := d.scheduledRepos.countP (fun r => r.status == "creating")
        created := d.scheduledRepos.countP (fun r => r.status == "created")
        failed := d.scheduledRepos.countP (fun r => r.status == "failed") } ∧
    ((∀ r ∈ s.repositories, r.status = "pending" ∨ r.status = "creating" ∨
        r.status = "created" ∨ r.status = "failed") →
      s.getStats.total =
        s.getStats.pending + s.getStats.creating + s.getStats.created + s.getStats.failed ∧
      (s.getUserStats u).total =
        (s.getUserStats u).pending + (s.getUserStats u).creating +
          (s.getUserStats u).created + (s.getUserStats u).failed) := by
  refine ⟨?_, ?_, ?_, ?_⟩
  · simp [SchedulerService.getStats, List.countP_eq_length_filter]
  · simp [SchedulerService.getUserStats, List.countP_eq_length_filter, List.filter_filter,
      Bool.and_comm]
  · simp [RepositorySchedulerService.getStats, List.countP_eq_length_filter]
  · intro h
    exact ⟨statusCounts_total s.repositories h,
      statusCounts_total (s.repositories.filter (fun repo => repo.userId == some u))
        (fun r hr => h r (List.mem_of_mem_filter hr))⟩

theorem stats_are_status_counts_witness :
    (sampleArmed "pending").getStats =
      { total := 1, pending := 1, creating := 0, created := 0, failed := 0, activeJobs := 1 } ∧
    (sampleArmed "pending").getStats.total =
      (sampleArmed "pending").getStats.pending + (sampleArmed "pending").getStats.creating +
        (sampleArmed "pending").getStats.created + (sampleArmed "pending").getStats.failed ∧
    ((sampleArmed "pending").getUserStats "u1").total =
      ((sampleArmed "pending").getUserStats "u1").pending +
        ((sampleArmed "pending").getUserStats "u1").creating +
        ((sampleArmed "pending").getUserStats "u1").created +
        ((sampleArmed "pending").getUserStats "u1").failed :=
  have h := (stats_are_status_counts (sampleArmed "pending") (sampleDaemon "pending") "u1").2.2.2
    (by decide)
  ⟨by decide, h.1, h.2⟩

/-! ## C25: a snapshot write that fails -/

namespace SchedulerService

theorem saveRepositories_unwritable {s : SchedulerService} (h : s.writable = false) :
    s.saveRepositories = { s with log := s.log ++ [Effect.write s.repositories false] } := by
  simp [saveRepositories, h]

theorem saveRepositories_dataFile_unwritable {s : SchedulerService} (h : s.writable = false) :
    s.saveRepositories.dataFile = s.dataFile := by
  rw [saveRepositories_unwritable h]

@[simp] theorem scheduleRepository_dataFile (s : SchedulerService) (repo : Repo) (now : Int) :
    (s.scheduleRepository repo now).dataFile = s.dataFile := by
  unfold scheduleRepository
  split
  · split <;> rfl
  · rfl

/-- On a disk that refuses the writes an execution leaves the snapshot on
disk as it was. -/
theorem createRepository_dataFile_unwritable {s : SchedulerService} (hw : s.writable = false)
    (repoId : String) (outcome : Outcome) (now : Int) :
    (s.createRepository repoId outcome now).dataFile = s.dataFile := by
  cases h : findIndex s.repositories repoId with
  | none => rw [createRepository_unknown h]
  | some i =>
    obtain ⟨r, hget, _, _⟩ := findIndex_some_get h
    have hget1 : (s.repositories.modify Repo.markCreating i)[i]? = some r.markCreating := by
      simp [hget]
    have hi1 : findIndex (s.repositories.modify Repo.markCreating i) repoId = some i := by
      rw [findIndex_modify (f := Repo.markCreating) (fun _ => rfl)]; exact h
    cases outcome with
    | ok url gid =>
      simp only [createRepository, createRepositoryTry, h, saveRepositories_repositories,
        modifyAt_repositories, List.get?_eq_getElem?, hget1, cancelJob_dataFile]
      rw [saveRepositories_dataFile_unwritable (by simpa using hw)]
      show (s.modifyAt i Repo.markCreating).saveRepositories.dataFile = s.dataFile
      rw [saveRepositories_dataFile_unwritable (by simpa using hw)]
      rfl
    | err e =>
      simp only [createRepository, createRepositoryTry, h, saveRepositories_repositories,
        modifyAt_repositories, List.get?_eq_getElem?, hget1, hi1, cancelJob_dataFile]
      rw [saveRepositories_dataFile_unwritable (by simpa using hw)]
      show (s.modifyAt i Repo.markCreating).saveRepositories.dataFile = s.dataFile
      rw [saveRepositories_dataFile_unwritable (by simpa using hw)]
      rfl

/-- The timer `addRepository` arms for a record with a valid date. -/
theorem addRepository_armed (s : SchedulerService) (repoData : Repo) (now d : Int)
    (hd : repoData.scheduledDate = some d) :
    (s.addRepository repoData now).2.armed = s.armed ++
      [{ handle := s.nextHandle, repoId := repoData.id,
         fireAt := if d ≤ now then now + 1000 else d, timeout := decide (d ≤ now) }] := by
  by_cases hle : d ≤ now <;>
    simp [addRepository, scheduleRepository, hd, hle, saveRepositories] <;>
    split <;> rfl

end SchedulerService

/-- Claim C25: on a disk that refuses every write, `saveRepositories`
returns normally, having changed nothing but the trace (which records the
failed write).  `addRepository` still returns the record it was given, the
record is the last job of the in-memory collection, and for a valid date its
timer is armed: a node-schedule job at the date, or the one second timeout
when the date has passed.  `createRepository` on an id that is in the
collection still leaves the job `created` when the request succeeds and
`failed` when it does not.  The snapshot on disk stays as it was throughout. -/
theorem failed_write_rolls_nothing_back (s : SchedulerService) (hw : s.writable = false)
    (repoData : Repo) (repoId : String) (outcome : Outcome) (now : Int) :
    s.saveRepositories = { s with log := s.log ++ [Effect.write s.repositories false] } ∧
    (s.addRepository repoData now).1 = repoData ∧
    (s.addRepository repoData now).2.repositories = s.repositories ++ [repoData] ∧
    (∀ d, repoData.scheduledDate = some d →
      (s.addRepository repoData now).2.armed = s.armed ++
        [{ handle := s.nextHandle, repoId := repoData.id,
           fireAt := if d ≤ now then now + 1000 else d, timeout := decide (d ≤ now) }]) ∧
    (s.addRepository repoData now).2.dataFile = s.dataFile ∧
    (∀ job, s.repositories.find? (fun r => r.id == repoId) = some job →
      (s.createRepository repoId outcome now).repositories.find? (fun r => r.id == repoId) =
        some (settledServer outcome now job) ∧
      (settledServer outcome now job).status =
        (match outcome with
         | .ok _ _ => "created"
         | .err _ => "failed")) ∧
    (s.createRepository repoId outcome now).dataFile = s.dataFile := by
  refine ⟨SchedulerService.saveRepositories_unwritable hw, rfl,
    SchedulerService.addRepository_repositories s repoData now,
    fun d hd => SchedulerService.addRepository_armed s repoData now d hd, ?_, ?_,
    SchedulerService.createRepository_dataFile_unwritable hw repoId outcome now⟩
  · simp only [SchedulerService.addRepository, SchedulerService.scheduleRepository_dataFile]
    rw [SchedulerService.saveRepositories_dataFile_unwritable (by simpa using hw)]
  · intro job hjob
    cases outcome with
    | ok url gid =>
      exact ⟨(SchedulerService.createRepository_ok_find hjob url gid now).1, rfl⟩
    | err e =>
      exact ⟨(SchedulerService.createRepository_err_find hjob e now).2, rfl⟩

theorem failed_write_rolls_nothing_back_witness :
    sampleUnwritable.writable = false ∧
    (sampleUnwritable.addRepository { sampleRepo "pending" with id := "j2" } 500).2.repositories =
      sampleUnwritable.repositories ++ [{ sampleRepo "pending" with id := "j2" }] ∧
    (sampleUnwritable.createRepository "j1" (.err nameTaken) 500).repositories.find?
        (fun r => r.id == "j1") =
      some (settledServer (.err nameTaken) 500 (sampleRepo "pending")) ∧
    (sampleUnwritable.createRepository "j1" (.err nameTaken) 500).dataFile =
      sampleUnwritable.dataFile :=
  have h := failed_write_rolls_nothing_back sampleUnwritable (by decide)
    { sampleRepo "pending" with id := "j2" } "j1" (.err nameTaken) 500
  ⟨by decide, h.2.2.1, (h.2.2.2.2.2.1 (sampleRepo "pending") (by decide)).1, h.2.2.2.2.2.2⟩

/-! ## C28: jobs of another user -/

/-- With pairwise distinct ids the job that has an id is the only one. -/
theorem eq_of_id_eq {repos : List Repo} (hnodup : (repos.map (fun r => r.id)).Nodup)
    {r j : Repo} (hr : r ∈ repos) (hj : j ∈ repos) (h : r.id = j.id) : r = j :=
  List.inj_on_of_nodup_map hnodup hr hj h

/-- The jobs of a user are those of the store without a job of another
user. -/
theorem filter_user_without {repos : List Repo} (hnodup : (repos.map (fun r => r.id)).Nodup)
    {j : Repo} (hj : j ∈ repos) {u : String} (hu : j.userId ≠ some u) :
    (repos.filter (fun r => r.id != j.id)).filter (fun r => r.userId == some u) =
      repos.filter (fun r => r.userId == some u) := by
  rw [List.filter_filter]
  apply List.filter_congr
  intro r hr
  by_cases hid : r.id = j.id
  · have hrj : r = j := eq_of_id_eq hnodup hr hj hid
    subst hrj
    simp [hu]
  · simp [hid]

/-- The lookup of a job of another user finds nothing. -/
theorem getUserRepository_other {s : SchedulerService}
    (hnodup : (s.repositories.map (fun r => r.id)).Nodup)
    {j : Repo} (hj : j ∈ s.repositories) {u : String} (hu : j.userId ≠ some u) :
    s.getUserRepository u j.id = none := by
  have hfind : s.repositories.find? (fun r => r.id == j.id && r.userId == some u) = none := by
    rw [List.find?_eq_none]
    intro r hr hcond
    simp only [Bool.and_eq_true, beq_iff_eq] at hcond
    have hrj : r = j := eq_of_id_eq hnodup hr hj hcond.1
    subst hrj
    exact hu hcond.2
  simp [SchedulerService.getUserRepository, hfind]

/-- Claim C28: in a store with pairwise distinct ids, for a job `j` whose
`userId` is not `u`: no record of `getUserRepositories(u)` carries the id of
`j` and the list is the one of the store without `j`; `getUserRepository(u,
j.id)` is `null`; `getUserStats(u)` is the one of the store without `j`; and
`PUT /:id`, `DELETE /:id` and `POST /:id/create-now` called by `u` with the id of
`j` answer 404 and return the service state they were called in, so `j`, its
timer and every other job are as before. -/
theorem owner_isolation (toDate : JsVal → Option Int) (s : SchedulerService) (u : String)
    (j : Repo) (hj : j ∈ s.repositories) (hu : j.userId ≠ some u)
    (hnodup : (s.repositories.map (fun r => r.id)).Nodup)
    (body : ReqBody) (now scheduleNow : Int) (outcome : Outcome) :
    (∀ v ∈ s.getUserRepositories u, v.id ≠ j.id) ∧
    s.getUserRepositories u = (withoutJob s j.id).getUserRepositories u ∧
    s.getUserRepository u j.id = none ∧
    s.getUserStats u = (withoutJob s j.id).getUserStats u ∧
    putRepository toDate s u j.id body now scheduleNow =
      (⟨404, .error "Repository not found"⟩, s) ∧
    deleteRepository s u j.id = (⟨404, .error "Repository not found"⟩, s) ∧
    createNow s u j.id outcome now = (⟨404, .error "Repository not found"⟩, s) := by
  have hnone := getUserRepository_other hnodup hj hu
  have hfilter := filter_user_without hnodup hj hu
  refine ⟨?_, ?_, hnone, ?_, ?_, ?_, ?_⟩
  · intro v hv hid
    simp only [SchedulerService.getUserRepositories, List.mem_map, List.mem_filter] at hv
    obtain ⟨r, ⟨hr, hru⟩, rfl⟩ := hv
    have hrj : r = j := eq_of_id_eq hnodup hr hj hid
    subst hrj
    exact hu (by simpa using hru)
  · simp only [SchedulerService.getUserRepositories, withoutJob, hfilter]
  · simp only [SchedulerService.getUserStats, withoutJob, hfilter]
  · simp [putRepository, hnone]
  · simp [deleteRepository, hnone]
  · simp [createNow, hnone]

theorem owner_isolation_witness :
    (sampleArmed "pending").getUserRepositories "u2" = [] ∧
    (sampleArmed "pending").getUserRepository "u2" "j1" = none ∧
    (sampleArmed "pending").getUserStats "u2" =
      (withoutJob (sampleArmed "pending") "j1").getUserStats "u2" ∧
    deleteRepository (sampleArmed "pending") "u2" "j1" =
      (⟨404, .error "Repository not found"⟩, sampleArmed "pending") ∧
    createNow (sampleArmed "pending") "u2" "j1" (.ok "http://x/y" 7) 500 =
      (⟨404, .error "Repository not found"⟩, sampleArmed "pending") :=
  have h := owner_isolation sampleToDate (sampleArmed "pending") "u2" (sampleRepo "pending")
    (by decide) (by decide) (by decide) (sampleBody (.str "next") .undefined) 500 502
    (.ok "http://x/y" 7)
  ⟨by decide, h.2.2.1, h.2.2.2.1, h.2.2.2.2.2.1, h.2.2.2.2.2.2⟩

/-! ## C30: the countdown -/

theorem digitChar_not_whiteSpace (k : Nat) (hk : k < 10) :
    isJsWhiteSpace (Nat.digitChar k) = false := by
  interval_cases k <;> decide

theorem toDigitsCore_head (fuel n : Nat) (ds : List Char)
    (hds : ∀ c, ds.head? = some c → isJsWhiteSpace c = false)
    (hne : fuel ≠ 0 ∨ ds ≠ []) :
    ∃ c cs, Nat.toDigitsCore 10 fuel n ds = c :: cs ∧ isJsWhiteSpace c = false := by
  induction fuel generalizing n ds with
  | zero =>
    rcases hne with hne | hne
    · exact absurd rfl hne
    · cases ds with
      | nil => exact absurd rfl hne
      | cons c cs => exact ⟨c, cs, rfl, hds c rfl⟩
  | succ fuel ih =>
    have hd : isJsWhiteSpace (Nat.digitChar (n % 10)) = false :=
      digitChar_not_whiteSpace _ (Nat.mod_lt _ (by decide))
    by_cases hn : n / 10 = 0
    · exact ⟨Nat.digitChar (n % 10), ds, by simp [Nat.toDigitsCore, hn], hd⟩
    · have h := ih (n / 10) (Nat.digitChar (n % 10) :: ds)
        (fun c hc => by
          simp only [List.head?_cons, Option.some.injEq] at hc
          exact hc ▸ hd)
        (Or.inr (by simp))
      obtain ⟨c, cs, hcs, hc⟩ := h
      exact ⟨c, cs, by simp [Nat.toDigitsCore, hn, hcs], hc⟩

theorem startsClean_toString_nat (m : Nat) : StartsClean (toString m) :=
  toDigitsCore_head (m + 1) m [] (fun c hc => by simp at hc) (Or.inl (by simp))

theorem startsClean_toString (z : Int) : StartsClean (toString z) := by
  cases z with
  | ofNat m => exact startsClean_toString_nat m
  | negSucc m =>
    exact ⟨'-', (toString (m + 1)).data, rfl, by decide⟩

theorem startsClean_append {x : String} (h : StartsClean x) (y : String) :
    StartsClean (x ++ y) := by
  obtain ⟨c, cs, hcs, hc⟩ := h
  exact ⟨c, cs ++ y.data, by simp [hcs], hc⟩

/-- The method `trim` leaves a text that starts with a character other than
white space and ends in `s` as it is. -/
theorem trim_startsClean {x : String} (h : StartsClean x) : trim (x ++ "s") = x ++ "s" := by
  obtain ⟨c, cs, hcs, hc⟩ := h
  have hdata : (x ++ "s").data = c :: (cs ++ ['s']) := by
    simp [hcs]
  have hrev : (c :: (cs ++ ['s'])).reverse = 's' :: (cs.reverse ++ [c]) := by
    simp
  have hs : ¬ isJsWhiteSpace 's' = true := by decide
  have hc' : ¬ isJsWhiteSpace c = true := by simp [hc]
  unfold trim
  rw [hdata, List.dropWhile_cons_of_neg hc', hrev, List.dropWhile_cons_of_neg hs, ← hrev,
    List.reverse_reverse, ← hdata]

/-- The text built so far is empty or starts with a digit or sign. -/
theorem startsClean_step {c : String} (hc : c = "" ∨ StartsClean c) (cond : Prop)
    [Decidable cond] (n : Int) (u : String) :
    (if cond then c ++ toString n ++ u else c) = "" ∨
      StartsClean (if cond then c ++ toString n ++ u else c) := by
  by_cases h : cond
  · right
    simp only [h, if_true]
    rcases hc with hc | hc
    · subst hc
      rw [String.empty_append]
      exact startsClean_append (startsClean_toString n) u
    · exact startsClean_append (startsClean_append hc _) u
  · simpa [h] using hc

/-- The text `calculateCountdown` returns for a positive difference: no
character is trimmed away. -/
theorem calculateCountdown_pos {scheduled now : Int} (h : 0 < scheduled - now) :
    RepositoryScheduler.calculateCountdown scheduled now =
      countdownText ((scheduled - now) / 86400000) ((scheduled - now) % 86400000 / 3600000)
        ((scheduled - now) % 3600000 / 60000) ((scheduled - now) % 60000 / 1000) := by
  have hnot : ¬ scheduled - now ≤ 0 := not_le.mpr h
  have hdays : 0 ≤ (scheduled - now) / 86400000 := by omega
  have hhours : 0 ≤ (scheduled - now) % 86400000 / 3600000 := by omega
  have hminutes : 0 ≤ (scheduled - now) % 3600000 / 60000 := by omega
  simp only [RepositoryScheduler.calculateCountdown, hnot, if_false]
  norm_num only
  generalize (scheduled - now) / 86400000 = days at hdays ⊢
  generalize (scheduled - now) % 86400000 / 3600000 = hours at hhours ⊢
  generalize (scheduled - now) % 3600000 / 60000 = minutes at hminutes ⊢
  generalize (scheduled - now) % 60000 / 1000 = seconds
  have h1 := startsClean_step (Or.inl rfl) (days > 0) days "d "
  have h2 := startsClean_step h1 (hours > 0 ∨ days > 0) hours "h "
  have h3 := startsClean_step h2 (minutes > 0 ∨ hours > 0 ∨ days > 0) minutes "m "
  have h4 : StartsClean ((if minutes > 0 ∨ hours > 0 ∨ days > 0 then
      (if hours > 0 ∨ days > 0 then
        (if days > 0 then "" ++ toString days ++ "d " else "") ++ toString hours ++ "h "
       else (if days > 0 then "" ++ toString days ++ "d " else "")) ++ toString minutes ++ "m "
      else (if hours > 0 ∨ days > 0 then
        (if days > 0 then "" ++ toString days ++ "d " else "") ++ toString hours ++ "h "
       else (if days > 0 then "" ++ toString days ++ "d " else ""))) ++ toString seconds) := by
    rcases h3 with h3 | h3
    · rw [h3, String.empty_append]
      exact startsClean_toString seconds
    · exact startsClean_append h3 _
  rw [trim_startsClean h4]
  have ed : (days > 0) = (days ≠ 0) := by
    apply propext; constructor <;> intro hh <;> omega
  have eh : (hours > 0) = (hours ≠ 0) := by
    apply propext; constructor <;> intro hh <;> omega
  have em : (minutes > 0) = (minutes ≠ 0) := by
    apply propext; constructor <;> intro hh <;> omega
  simp only [ed, eh, em, countdownText]
  by_cases cd : days = 0 <;> by_cases ch : hours = 0 <;> by_cases cm : minutes = 0 <;>
    simp [cd, ch, cm, String.append_assoc]

theorem countdownText_last (days hours minutes seconds : Int) :
    (countdownText days hours minutes seconds).data.getLast? = some 's' := by
  unfold countdownText
  rw [String.data_append]
  exact List.getLast?_concat _

/-- Claim C30: `calculateCountdown` returns `Creating now...` exactly when the
difference `d` between the scheduled instant and the clock is not positive.
For a positive `d` there are days, hours, minutes and seconds, none negative,
with `hours < 24`, `minutes < 60`, `seconds < 60` and
`days*86400 + hours*3600 + minutes*60 + seconds = floor(d/1000)`, such that the
text returned is the one that renders the seconds always and a larger unit
exactly when it or a unit larger than it is not zero. -/
theorem calculateCountdown_decomposition (scheduled now : Int) :
    (RepositoryScheduler.calculateCountdown scheduled now = "Creating now..." ↔
      scheduled - now ≤ 0) ∧
    (0 < scheduled - now →
      ∃ days hours minutes seconds : Int,
        0 ≤ days ∧ 0 ≤ hours ∧ hours < 24 ∧ 0 ≤ minutes ∧ minutes < 60 ∧
        0 ≤ seconds ∧ seconds < 60 ∧
        days * 86400 + hours * 3600 + minutes * 60 + seconds = (scheduled - now) / 1000 ∧
        RepositoryScheduler.calculateCountdown scheduled now =
          countdownText days hours minutes seconds) := by
  constructor
  · constructor
    · intro heq
      by_contra hpos
      have hpos' : 0 < scheduled - now := not_le.mp hpos
      rw [calculateCountdown_pos hpos'] at heq
      have hlast := countdownText_last ((scheduled - now) / 86400000)
        ((scheduled - now) % 86400000 / 3600000) ((scheduled - now) % 3600000 / 60000)
        ((scheduled - now) % 60000 / 1000)
      rw [heq] at hlast
      exact absurd hlast (by decide)
    · intro hle
      simp [RepositoryScheduler.calculateCountdown, hle]
  · intro hpos
    refine ⟨(scheduled - now) / 86400000, (scheduled - now) % 86400000 / 3600000,
      (scheduled - now) % 3600000 / 60000, (scheduled - now) % 60000 / 1000,
      ?_, ?_, ?_, ?_, ?_, ?_, ?_, ?_, calculateCountdown_pos hpos⟩ <;> omega

theorem calculateCountdown_decomposition_witness :
    RepositoryScheduler.calculateCountdown 90061000 0 ≠ "Creating now..." ∧
    ∃ days hours minutes seconds : Int,
      0 ≤ days ∧ 0 ≤ hours ∧ hours < 24 ∧ 0 ≤ minutes ∧ minutes < 60 ∧
      0 ≤ seconds ∧ seconds < 60 ∧
      days * 86400 + hours * 3600 + minutes * 60 + seconds = (90061000 - 0) / 1000 ∧
      RepositoryScheduler.calculateCountdown 90061000 0 =
        countdownText days hours minutes seconds :=
  ⟨fun h => absurd ((calculateCountdown_decomposition 90061000 0).1.mp h) (by decide),
    (calculateCountdown_decomposition 90061000 0).2 (by decide)⟩

/-- Sample countdowns: all four units, a zero unit below a larger one, seconds
alone, less than a second, and an instant that has passed. -/
theorem calculateCountdown_examples :
    RepositoryScheduler.calculateCountdown 90061000 0 = "1d 1h 1m 1s" ∧
    RepositoryScheduler.calculateCountdown 3600000 0 = "1h 0m 0s" ∧
    RepositoryScheduler.calculateCountdown 86400000 0 = "1d 0h 0m 0s" ∧
    RepositoryScheduler.calculateCountdown 60999 1000 = "59s" ∧
    RepositoryScheduler.calculateCountdown 1999 1000 = "0s" ∧
    RepositoryScheduler.calculateCountdown 1000 1000 = "Creating now..." ∧
    RepositoryScheduler.calculateCountdown 0 1000 = "Creating now..." := by
  decide

end ReposScheduler
